import Mathlib

/-!
# GoNextAuth: identity and session core

A shallow embedding of the Go backend (`go-backend/internal/...`): the JWT service,
the OTP service, the authentication service over the credential store (password and
Google sign-in), the logout handler, the OAuth state of the Google handler, the input
validators, the in-memory rate limiter and the request deduplication middleware with its
sweep, followed by the properties proved of them.

Modelling conventions.

* Instants (`Time`) are integer nanoseconds since the Unix epoch; an operation reads the
  clock once, so every `time.Now()` / `CURRENT_TIMESTAMP` of one call is the same `now`.
  Where two readings of one call are compared, the expiry and the issued-at of an access
  token, the readings are arguments of their own (`JWTService.GenerateAccessTokenAt`,
  `AuthService.LoginAt`), of which the one-instant functions are the special case.
* A Go `error` is the message string; `(T, error)` results are `Except String T`.
* The PostgreSQL tables are lists of rows in insertion order, each table with its `SERIAL`
  counter.  The statements that write `refresh_tokens` (the insert and the two revoke
  updates) take their outcome as an explicit argument, because the source goes on after
  a failed revoke.  The two inserts that take text from a request or from the
  configuration as it is (`CompleteSignup` into `users`, `SendOTP` into `otps`) fail when
  a value does not go into its `VARCHAR` column (`varchar`); a failed insert is taken not
  to advance the `SERIAL` counter.  Every other statement is taken to execute
  (`AuthService.mergeFits` says when the values of the merge `UPDATE` of a Google sign-in
  go into their columns).
* A signed JWT is represented by what its compact serialisation determines: signing
  method, claims and the key the HMAC was computed with.  HMAC is ideal: a signature
  verifies under a key exactly when it was computed with that key.  SHA-256 is ideal as
  well: a digest is represented by its preimage.  So is the MD5 request signature.
* A transaction is the working copy of the tables its statements act on: the copy
  replaces the tables at the commit and is dropped when the function returns before it.
* A handler either writes a response or panics (`HandlerResult`); a panic inside
  `ValidateToken` is reported as the error `nilDereference`.
* Requests that run concurrently through the deduplication middleware are a sequence of
  steps on the tracker (`DedupEvent`): the two locked sections of each request and the
  periodic sweep.
* Library calls are taken at their documented behaviour; `fmt.Sprintf` with a zero-padded
  width pads to that width, and widths beyond the cap package `fmt` puts on them are
  outside the model.
* What the outside world answers is an argument of the operation: the random draw, the
  outcome of sending a message, the answers of the Google endpoints.  HMAC-SHA256 in the
  OAuth state is an arbitrary function of key and message.
* A panic of a service function is reported as an error whose message starts with
  `panic:`.
-/

namespace GoNextAuth

/-! ## Time and configuration -/

deriving instance DecidableEq for Except

/-- Instants, in nanoseconds since the Unix epoch. -/
abbrev Time := Int

/-- Go `time.Second`, in nanoseconds. -/
def Second : Int := 1000000000

/-- Go `time.Minute`. -/
def Minute : Int := 60 * Second

/-- Go `time.Hour`. -/
def Hour : Int := 60 * Minute

/-- Two's-complement wrap to the `int64` range: the value of a Go `time.Duration` product. -/
def wrapInt64 (x : Int) : Int := (x + 2 ^ 63) % 2 ^ 64 - 2 ^ 63

/-- Section `JWTConfig` of `config.Config`. -/
structure JWTConfig where
  Secret : String
  AccessExpiry : Int
  RefreshExpiry : Int
deriving DecidableEq, Repr

/-- Section `ServerConfig` of `config.Config` (the field the services read). -/
structure ServerConfig where
  AppName : String
deriving DecidableEq, Repr

/-- Section `OTPConfig` of `config.Config`. -/
structure OTPConfig where
  Expiry : Int
  Length : Int
deriving DecidableEq, Repr

/-- The parts of `config.Config` read by the services. -/
structure Config where
  Server : ServerConfig
  JWT : JWTConfig
  OTP : OTPConfig
deriving DecidableEq, Repr

/-! ## JWT service (`internal/services/jwt_service.go`) -/

/-- The `alg` of a token header: the three HMAC methods, or anything else. -/
inductive SigningMethod where
  | HS256
  | HS384
  | HS512
  | other
deriving DecidableEq, Repr

/-- The type assertion `token.Method.(*jwt.SigningMethodHMAC)`. -/
def SigningMethod.isHMAC : SigningMethod → Bool
  | .HS256 => true
  | .HS384 => true
  | .HS512 => true
  | .other => false

/-- Go `JWTClaims`: the custom fields and the registered claims the service sets.
The three dates are pointers in Go, hence optional; `Type_` is the Go field `Type`. -/
structure JWTClaims where
  UserID : Int
  Email : String
  Type_ : String
  ExpiresAt : Option Time
  IssuedAt : Option Time
  NotBefore : Option Time
  Issuer : String
  Subject : String
deriving DecidableEq, Repr

/-- A token string as presented to the service: either text that is not a three-part
JWT, or the serialisation of a header, claims and an HMAC computed with `key`. -/
inductive TokenString where
  | malformed (raw : String)
  | signed (method : SigningMethod) (claims : JWTClaims) (key : String)
deriving DecidableEq, Repr

/-- Go `jwt.NewNumericDate`: the instant truncated to whole seconds. -/
def NewNumericDate (t : Time) : Time := t / Second * Second

/-- Go `GenerateAccessToken`, its three clock readings falling on the one instant `now`
(`JWTService.GenerateAccessTokenAt` has them apart). -/
def JWTService.GenerateAccessToken (cfg : Config) (now : Time) (userID : Int) (email : String) :
    Except String TokenString :=
  let claims : JWTClaims :=
    { UserID := userID
      Email := email
      Type_ := "access"
      ExpiresAt := some (NewNumericDate (now + wrapInt64 (cfg.JWT.AccessExpiry * Minute)))
      IssuedAt := some (NewNumericDate now)
      NotBefore := some (NewNumericDate now)
      Issuer := cfg.Server.AppName
      Subject := email }
  .ok (.signed .HS256 claims cfg.JWT.Secret)

/-- Go `GenerateRefreshToken`, its three clock readings falling on the one instant
`now`. -/
def JWTService.GenerateRefreshToken (cfg : Config) (now : Time) (userID : Int) (email : String) :
    Except String TokenString :=
  let claims : JWTClaims :=
    { UserID := userID
      Email := email
      Type_ := "refresh"
      ExpiresAt := some (NewNumericDate (now + wrapInt64 (cfg.JWT.RefreshExpiry * 24 * Hour)))
      IssuedAt := some (NewNumericDate now)
      NotBefore := some (NewNumericDate now)
      Issuer := cfg.Server.AppName
      Subject := email }
  .ok (.signed .HS256 claims cfg.JWT.Secret)

/-- Library `jwt.ParseWithClaims` (golang-jwt v5, default parser options): split the
token, ask `keyFunc` for the key, verify the signature, then validate the registered
claims: `exp` must be after `now` and `nbf` not after `now`, when present. -/
def ParseWithClaims (now : Time) (tokenString : TokenString)
    (keyFunc : SigningMethod → Except String String) : Except String JWTClaims :=
  match tokenString with
  | .malformed _ => .error "token is malformed"
  | .signed method claims key =>
    match keyFunc method with
    | .error err => .error ("token is unverifiable: error while executing keyfunc: " ++ err)
    | .ok k =>
      if key ≠ k then .error "token signature is invalid: signature is invalid"
      else if claims.ExpiresAt.any (fun exp => !decide (now < exp)) then
        .error "token has invalid claims: token is expired"
      else if claims.NotBefore.any (fun nbf => decide (now < nbf)) then
        .error "token has invalid claims: token is not valid yet"
      else .ok claims

/-- Go `ValidateToken`.  A nil `ExpiresAt` makes `claims.ExpiresAt.Time` panic; the panic
is reported as an error. -/
def JWTService.ValidateToken (cfg : Config) (now : Time) (tokenString : TokenString)
    (expectedType : String) : Except String JWTClaims :=
  match ParseWithClaims now tokenString
      (fun method => if method.isHMAC then .ok cfg.JWT.Secret
                     else .error "invalid signing method") with
  | .error err => .error err
  | .ok claims =>
    if claims.Type_ ≠ expectedType then .error "invalid token type"
    else
      match claims.ExpiresAt with
      | none => .error "panic: runtime error: invalid memory address or nil pointer dereference"
      | some exp => if exp < now then .error "token has expired" else .ok claims

/-- Go `GetTokenExpiry`: a product of Go `int`s, so it wraps at 64 bits. -/
def JWTService.GetTokenExpiry (cfg : Config) : Int := wrapInt64 (cfg.JWT.AccessExpiry * 60)

/-! ## Library functions the validators and services call -/

/-- The functions of Go's `unicode` package and of `bcrypt` that the source calls.  They
are external to the repository and enter as parameters; `HashPassword` stands for one run
of `bcrypt.GenerateFromPassword` (salt included), `CheckPasswordHash` for
`bcrypt.CompareHashAndPassword(...) == nil`. -/
structure Lib where
  IsUpper : Char → Bool
  IsLower : Char → Bool
  IsDigit : Char → Bool
  IsPunct : Char → Bool
  IsSymbol : Char → Bool
  ToLower : Char → Char
  HashPassword : String → Except String String
  CheckPasswordHash : String → String → Bool

/-- ASCII letters `[a-zA-Z]`. -/
def isAsciiLetter (c : Char) : Bool :=
  (decide (97 ≤ c.toNat) && decide (c.toNat ≤ 122)) ||
    (decide (65 ≤ c.toNat) && decide (c.toNat ≤ 90))

/-- The regexp class `\d`, ASCII digits. -/
def isAsciiDigit (c : Char) : Bool := decide (48 ≤ c.toNat) && decide (c.toNat ≤ 57)

/-- Go `unicode.IsSpace`. -/
def isSpace (c : Char) : Bool :=
  let n := c.toNat
  (decide (9 ≤ n) && decide (n ≤ 13)) || n == 32 || n == 133 || n == 160 || n == 5760 ||
    (decide (8192 ≤ n) && decide (n ≤ 8202)) || n == 8232 || n == 8233 || n == 8239 ||
    n == 8287 || n == 12288

/-- Go `strings.TrimSpace`, on the runes of the string. -/
def TrimSpace (s : List Char) : List Char :=
  ((s.dropWhile isSpace).reverse.dropWhile isSpace).reverse

/-- Go `strings.Contains`, on the runes of the strings. -/
def Contains : List Char → List Char → Bool
  | [], sub => sub.isEmpty
  | c :: cs, sub => sub.isPrefixOf (c :: cs) || Contains cs sub

/-- Go `len(s)`: the length in bytes of the UTF-8 encoding. -/
def len (s : List Char) : Nat := (String.mk s).utf8ByteSize

/-- The character class `[a-zA-Z0-9._%+-]` of the e-mail pattern. -/
def emailLocalChar (c : Char) : Bool :=
  isAsciiLetter c || isAsciiDigit c || c == '.' || c == '_' || c == '%' || c == '+' || c == '-'

/-- The character class `[a-zA-Z0-9.-]` of the e-mail pattern. -/
def emailDomainChar (c : Char) : Bool :=
  isAsciiLetter c || isAsciiDigit c || c == '.' || c == '-'

/-- Whether the whole string matches `^[a-zA-Z0-9._%+-]+@[a-zA-Z0-9.-]+\.[a-zA-Z]{2,}$`.
Neither class holds `@` and the last class holds no `.`, so the split is forced: the
local part ends at the first `@` and the top-level label starts after the last `.`. -/
def emailRegexMatch (email : List Char) : Bool :=
  let localPart := email.takeWhile (fun c => c != '@')
  match email.dropWhile (fun c => c != '@') with
  | [] => false
  | _ :: rest =>
    let tld := (rest.reverse.takeWhile (fun c => c != '.')).reverse
    match rest.reverse.dropWhile (fun c => c != '.') with
    | [] => false
    | _ :: revDomain =>
      !localPart.isEmpty && localPart.all emailLocalChar &&
        !revDomain.isEmpty && revDomain.all emailDomainChar &&
        decide (2 ≤ tld.length) && tld.all isAsciiLetter

/-- Go `utils.ValidateEmail`; `none` is the nil error. -/
def ValidateEmail (email : String) : Option String :=
  if len email.toList = 0 then some "email is required"
  else if len email.toList > 255 then some "email must be less than 255 characters"
  else if !emailRegexMatch email.toList then some "invalid email format"
  else none

/-- Go `utils.ValidatePassword`; `none` is the nil error. -/
def ValidatePassword (lib : Lib) (password : String) : Option String :=
  if len password.toList < 8 then some "password must be at least 8 characters long"
  else if len password.toList > 128 then some "password must be less than 128 characters long"
  else
    let hasUpper := password.toList.any lib.IsUpper
    let hasLower := password.toList.any (fun c => !lib.IsUpper c && lib.IsLower c)
    let hasNumber := password.toList.any
      (fun c => !lib.IsUpper c && !lib.IsLower c && lib.IsDigit c)
    let hasSpecial := password.toList.any
      (fun c => !lib.IsUpper c && !lib.IsLower c && !lib.IsDigit c &&
        (lib.IsPunct c || lib.IsSymbol c))
    if !hasUpper then some "password must contain at least one uppercase letter"
    else if !hasLower then some "password must contain at least one lowercase letter"
    else if !hasNumber then some "password must contain at least one number"
    else if !hasSpecial then some "password must contain at least one special character"
    else
      let weakPasswords := ["password", "123456", "qwerty", "abc123", "admin", "letmein",
        "welcome", "monkey", "dragon", "master", "shadow", "sunshine"]
      let lowerPassword := password.toList.map lib.ToLower
      if weakPasswords.any (fun weak => Contains lowerPassword weak.toList) then
        some "password contains common weak patterns"
      else none

/-- The character class `[a-zA-Z\s\-']` of the name pattern (`\s` is `[\t\n\f\r ]`). -/
def nameChar (c : Char) : Bool :=
  isAsciiLetter c || c.toNat == 9 || c.toNat == 10 || c.toNat == 12 || c.toNat == 13 ||
    c == ' ' || c == '-' || c.toNat == 39

/-- Go `utils.ValidateName`; `none` is the nil error. -/
def ValidateName (name : String) (fieldName : String) : Option String :=
  let name := TrimSpace name.toList
  if len name < 2 then some (fieldName ++ " must be at least 2 characters long")
  else if len name > 50 then some (fieldName ++ " must be less than 50 characters long")
  else if !(!name.isEmpty && name.all nameChar) then
    some (fieldName ++ " can only contain letters, spaces, hyphens, and apostrophes")
  else none

/-- The keys of the `validCountryCodes` map of `ValidatePhone`. -/
def validCountryCodes : List String :=
  ["91", "1", "44", "33", "49", "86", "81", "82", "61", "55", "7", "39", "34", "31", "46",
   "47", "45", "41", "43", "32", "48", "420", "36", "351", "30", "358", "353", "372", "371",
   "370", "65", "60", "66", "84", "62", "63", "852", "886", "971", "966", "92", "880", "94",
   "977", "975", "960", "27", "20", "234", "254", "233", "212", "216", "213", "218", "251",
   "256", "255", "52", "54", "56", "57", "51", "58", "593", "595", "598"]

/-- Go `utils.ValidatePhone`; `none` is the nil error. -/
def ValidatePhone (phone : String) : Option String :=
  let phone := TrimSpace phone.toList
  if len phone = 0 then some "phone number is required"
  else
    let cleanPhone := phone.filter (fun c => isAsciiDigit c || c == '+')
    match cleanPhone with
    | '+' :: digits =>
      if len digits < 10 || len digits > 15 then
        some "phone number must be between 10 and 15 digits including country code"
      else if !(!digits.isEmpty && digits.all isAsciiDigit) then
        some "phone number can only contain digits and country code"
      else if !validCountryCodes.any (fun code => code.toList.isPrefixOf digits) then
        some "invalid or unsupported country code"
      else none
    | _ => some "phone number must include country code (e.g., +91)"

/-! ## Rows and tables (`internal/models`, `internal/database/migrations.go`) -/

/-- Go `models.User`, a row of `users`.  `password_hash` is nullable. -/
structure User where
  ID : Int
  Email : String
  PasswordHash : Option String
  FirstName : String
  LastName : String
  Phone : Option String
  IsEmailVerified : Bool
  IsActive : Bool
  GoogleID : Option String
  AvatarURL : Option String
  AuthProvider : String
  LastActivityAt : Time
  CreatedAt : Time
  UpdatedAt : Time
deriving DecidableEq, Repr

/-- Go `models.UserResponse`. -/
structure UserResponse where
  ID : Int
  Email : String
  FirstName : String
  LastName : String
  Phone : Option String
  IsEmailVerified : Bool
  IsActive : Bool
  AvatarURL : Option String
  AuthProvider : String
  LastActivityAt : Time
  CreatedAt : Time
deriving DecidableEq, Repr

/-- Go `(*User).ToUserResponse`. -/
def User.ToUserResponse (u : User) : UserResponse :=
  { ID := u.ID
    Email := u.Email
    FirstName := u.FirstName
    LastName := u.LastName
    Phone := u.Phone
    IsEmailVerified := u.IsEmailVerified
    IsActive := u.IsActive
    AvatarURL := u.AvatarURL
    AuthProvider := u.AuthProvider
    LastActivityAt := u.LastActivityAt
    CreatedAt := u.CreatedAt }

/-- Go `models.AuthResponse`. -/
structure AuthResponse where
  User : UserResponse
  AccessToken : TokenString
  RefreshToken : TokenString
  ExpiresIn : Int
deriving DecidableEq, Repr

/-- The SHA-256 digest of a token, represented by its preimage. -/
structure TokenHash where
  preimage : TokenString
deriving DecidableEq, Repr

/-- Go `models.RefreshToken`, a row of `refresh_tokens`. -/
structure RefreshToken where
  ID : Int
  UserID : Int
  TokenHash : TokenHash
  ExpiresAt : Time
  CreatedAt : Time
  IsRevoked : Bool
deriving DecidableEq, Repr

/-- Go `models.OTP`, a row of `otps`. -/
structure OTP where
  ID : Int
  Email : String
  OTPCode : String
  OTPType : String
  ExpiresAt : Time
  CreatedAt : Time
  IsUsed : Bool
deriving DecidableEq, Repr

/-- A row of `user_activity_logs` (client metadata left out). -/
structure UserActivityLog where
  UserID : Int
  ActivityType : String
  CreatedAt : Time
deriving DecidableEq, Repr

/-- The database: the four tables in insertion order and the `SERIAL` counters. -/
structure DB where
  users : List User
  users_id_seq : Int
  refresh_tokens : List RefreshToken
  refresh_tokens_id_seq : Int
  otps : List OTP
  otps_id_seq : Int
  user_activity_logs : List UserActivityLog
deriving DecidableEq, Repr

/-- Go `models.LoginRequest`. -/
structure LoginRequest where
  Email : String
  Password : String
deriving DecidableEq, Repr

/-- Go `models.CompleteSignupRequest`. -/
structure CompleteSignupRequest where
  Email : String
  Password : String
  FirstName : String
  LastName : String
  Phone : String
deriving DecidableEq, Repr

/-- Go `models.ResetPasswordRequest`. -/
structure ResetPasswordRequest where
  Email : String
  OTP : String
  NewPassword : String
deriving DecidableEq, Repr

/-- Go `models.RefreshTokenRequest`. -/
structure RefreshTokenRequest where
  RefreshToken : TokenString
deriving DecidableEq, Repr

/-- Go `models.OTPTypeEmailVerification`. -/
def OTPTypeEmailVerification : String := "email_verification"

/-- Go `models.OTPTypePasswordReset`. -/
def OTPTypePasswordReset : String := "password_reset"

/-- Go `models.OTPTypeLogin`. -/
def OTPTypeLogin : String := "login"

/-- Go `models.ActivityLogin`. -/
def ActivityLogin : String := "login"

/-- Go `models.ActivitySignup`. -/
def ActivitySignup : String := "signup"

/-- Go `models.ActivityPasswordReset`. -/
def ActivityPasswordReset : String := "password_reset"

/-! ## Text columns (`internal/database/migrations.go`) -/

/-- Whether a text value holds the NUL character, which PostgreSQL refuses in a text
value. -/
def hasNUL (value : String) : Bool := value.toList.any (fun c => c.toNat == 0)

/-- The message of the driver when PostgreSQL refuses a value longer than its
`VARCHAR(n)` column (SQLSTATE 22001). -/
def valueTooLong (n : Nat) : String :=
  "ERROR: value too long for type character varying(" ++ toString n ++ ") (SQLSTATE 22001)"

/-- The message of the driver when PostgreSQL refuses a text value holding the NUL
character (SQLSTATE 22021). -/
def invalidByteSequence : String :=
  "ERROR: invalid byte sequence for encoding \x22UTF8\x22: 0x00 (SQLSTATE 22021)"

/-- What PostgreSQL stores when a statement assigns a text value to a `VARCHAR(n)`
column, as documented for the type: a value of at most `n` characters is stored as it is;
of a longer value whose characters beyond the `n`-th are all spaces the first `n`
characters are stored; any other longer value makes the statement fail.  A value holding
the NUL character makes it fail whatever its length. -/
def varchar (n : Nat) (value : String) : Except String String :=
  if hasNUL value then .error invalidByteSequence
  else if value.length ≤ n then .ok value
  else if (value.toList.drop n).all (fun c => c == ' ') then .ok (String.mk (value.toList.take n))
  else .error (valueTooLong n)

/-! ## Activity service (`internal/services/activity_service.go`) -/

/-- Go `ActivityService.LogActivity`: insert the log row, then touch the account's
`last_activity_at` (the `users` trigger sets `updated_at`).  The insert violates the
foreign key when the account does not exist and nothing is written; callers ignore the
result either way. -/
def ActivityService.LogActivity (db : DB) (now : Time) (userID : Int) (activityType : String) : DB :=
  if db.users.any (fun u => u.ID == userID) then
    { db with
      user_activity_logs := db.user_activity_logs ++
        [{ UserID := userID, ActivityType := activityType, CreatedAt := now }]
      users := db.users.map (fun u =>
        if u.ID == userID then { u with LastActivityAt := now, UpdatedAt := now } else u) }
  else db

/-! ## OTP service (`internal/services/otp_service.go`) -/

/-- Go `fmt.Sprintf("%0<width>d", n)`: the decimal digits, zero-padded on the left. -/
def zeroPad (width : Nat) (n : Nat) : String :=
  String.mk (List.replicate (width - (toString n).length) '0') ++ toString n

/-- Go `GenerateOTP`; `draw` is the result of `rand.Int(rand.Reader, 10^otpLength)`. -/
def OTPService.GenerateOTP (cfg : Config) (draw : Except String Nat) : Except String String :=
  let otpLength := if cfg.OTP.Length ≤ 0 then 6 else cfg.OTP.Length
  match draw with
  | .error err => .error err
  | .ok n => .ok (zeroPad otpLength.toNat n)

/-- The statement `INSERT INTO otps (email, otp_code, otp_type, expires_at)` of `SendOTP`,
into the columns `email VARCHAR(255)`, `otp_code VARCHAR(10)` and `otp_type VARCHAR(50)`;
`created_at` and `is_used` take their defaults. -/
def OTPService.insertOTP (db : DB) (now : Time) (email otpCode otpType : String)
    (expiresAt : Time) : Except String DB :=
  match varchar 255 email with
  | .error err => .error err
  | .ok storedEmail =>
    match varchar 10 otpCode with
    | .error err => .error err
    | .ok storedCode =>
      match varchar 50 otpType with
      | .error err => .error err
      | .ok storedType =>
        .ok { db with
              otps := db.otps ++
                [{ ID := db.otps_id_seq + 1, Email := storedEmail, OTPCode := storedCode,
                   OTPType := storedType, ExpiresAt := expiresAt, CreatedAt := now,
                   IsUsed := false }]
              otps_id_seq := db.otps_id_seq + 1 }

/-- Go `SendOTP`; `draw` is the random draw of `GenerateOTP` and `emailErr` the result of
the e-mail service call (`none` when the message was sent). -/
def OTPService.SendOTP (cfg : Config) (db : DB) (now : Time) (draw : Except String Nat)
    (emailErr : Option String) (email otpType : String) : DB × Option String :=
  match OTPService.GenerateOTP cfg draw with
  | .error err => (db, some ("failed to generate OTP: " ++ err))
  | .ok otpCode =>
    let expiresAt := now + wrapInt64 (cfg.OTP.Expiry * Minute)
    match OTPService.insertOTP db now email otpCode otpType expiresAt with
    | .error err => (db, some ("failed to save OTP: " ++ err))
    | .ok db =>
      if otpType = OTPTypeEmailVerification then (db, emailErr)
      else if otpType = OTPTypePasswordReset then (db, emailErr)
      else if otpType = OTPTypeLogin then (db, emailErr)
      else (db, some ("unsupported OTP type: " ++ otpType))

/-- The row an `ORDER BY created_at DESC LIMIT 1` returns; among rows created at the same
instant the one first in the table is taken. -/
def latestOTP : List OTP → Option OTP
  | [] => none
  | o :: rest =>
    match latestOTP rest with
    | none => some o
    | some best => if o.CreatedAt < best.CreatedAt then some best else some o

/-- Go `VerifyOTP`; `none` is the nil error. -/
def OTPService.VerifyOTP (db : DB) (now : Time) (email otpCode otpType : String) :
    DB × Option String :=
  match latestOTP (db.otps.filter (fun o =>
      o.Email == email && o.OTPCode == otpCode && o.OTPType == otpType && !o.IsUsed)) with
  | none => (db, some "invalid or expired OTP")
  | some otp =>
    if now > otp.ExpiresAt then (db, some "OTP has expired")
    else
      ({ db with
         otps := db.otps.map (fun o => if o.ID == otp.ID then { o with IsUsed := true } else o) },
       none)

/-- Go `ResendOTP`. -/
def OTPService.ResendOTP (cfg : Config) (db : DB) (now : Time) (draw : Except String Nat)
    (emailErr : Option String) (email otpType : String) : DB × Option String :=
  let db :=
    { db with
      otps := db.otps.map (fun o =>
        if o.Email == email && o.OTPType == otpType && !o.IsUsed then { o with IsUsed := true }
        else o) }
  OTPService.SendOTP cfg db now draw emailErr email otpType

/-! ## Authentication service (`internal/services/auth_service.go`) -/

/-- Go `hashToken`. -/
def AuthService.hashToken (token : TokenString) : TokenHash := ⟨token⟩

/-- Go `storeRefreshToken`.  `execErr` is the outcome of the `INSERT`: `none` when it
executes, `some err` when it fails and leaves the table as it was. -/
def AuthService.storeRefreshToken (execErr : Option String) (cfg : Config) (db : DB) (now : Time)
    (userID : Int) (token : TokenString) : DB × Option String :=
  let tokenHash := AuthService.hashToken token
  let expiresAt := now + wrapInt64 (cfg.JWT.RefreshExpiry * 24 * Hour)
  match execErr with
  | some err => (db, some err)
  | none =>
    ({ db with
       refresh_tokens := db.refresh_tokens ++
         [{ ID := db.refresh_tokens_id_seq + 1, UserID := userID, TokenHash := tokenHash,
            ExpiresAt := expiresAt, CreatedAt := now, IsRevoked := false }]
       refresh_tokens_id_seq := db.refresh_tokens_id_seq + 1 },
     none)

/-- Go `validateStoredRefreshToken`; `none` is the nil error. -/
def AuthService.validateStoredRefreshToken (db : DB) (now : Time) (userID : Int) (token : TokenString) :
    Option String :=
  let tokenHash := AuthService.hashToken token
  let «exists» := db.refresh_tokens.any (fun r =>
    r.UserID == userID && r.TokenHash == tokenHash && !r.IsRevoked && decide (r.ExpiresAt > now))
  if !«exists» then some "refresh token is invalid or expired" else none

/-- Go `revokeRefreshToken`.  `execErr` is the outcome of the `UPDATE`: `none` when it
executes, `some err` when it fails and leaves the table as it was. -/
def AuthService.revokeRefreshToken (execErr : Option String) (db : DB) (token : TokenString) :
    DB × Option String :=
  let tokenHash := AuthService.hashToken token
  match execErr with
  | some err => (db, some err)
  | none =>
    ({ db with
       refresh_tokens := db.refresh_tokens.map (fun r =>
         if r.TokenHash == tokenHash then { r with IsRevoked := true } else r) },
     none)

/-- Go `revokeAllUserRefreshTokens`; `execErr` as in `revokeRefreshToken`.  The subquery
`SELECT id FROM users WHERE email = $1` is NULL when no account has the e-mail address. -/
def AuthService.revokeAllUserRefreshTokens (execErr : Option String) (db : DB) (email : String) :
    DB × Option String :=
  match execErr with
  | some err => (db, some err)
  | none =>
    match db.users.find? (fun u => u.Email == email) with
    | none => (db, none)
    | some account =>
      ({ db with
         refresh_tokens := db.refresh_tokens.map (fun r =>
           if r.UserID == account.ID then { r with IsRevoked := true } else r) },
       none)

/-- Go `getUserByID`. -/
def AuthService.getUserByID (db : DB) (userID : Int) : Except String User :=
  match db.users.find? (fun u => u.ID == userID) with
  | none => .error "user not found"
  | some user => .ok { user with PasswordHash := none }

/-- The statement `INSERT INTO users (email, password_hash, first_name, last_name, phone,
is_email_verified, is_active, auth_provider) ... RETURNING ...` of `CompleteSignup`, into
the columns `email VARCHAR(255)`, `password_hash VARCHAR(255)`, `first_name VARCHAR(100)`,
`last_name VARCHAR(100)` and `phone VARCHAR(20)`; the other columns take the values given
or their defaults.  Returns the store and the row as stored. -/
def AuthService.insertUser (db : DB) (now : Time) (email hashedPassword firstName lastName : String)
    (phone : Option String) : Except String (DB × User) :=
  match varchar 255 email with
  | .error err => .error err
  | .ok storedEmail =>
    match varchar 255 hashedPassword with
    | .error err => .error err
    | .ok storedHash =>
      match varchar 100 firstName with
      | .error err => .error err
      | .ok storedFirstName =>
        match varchar 100 lastName with
        | .error err => .error err
        | .ok storedLastName =>
          match (match phone with
                 | none => .ok none
                 | some p => (varchar 20 p).map some : Except String (Option String)) with
          | .error err => .error err
          | .ok storedPhone =>
            let user : User :=
              { ID := db.users_id_seq + 1
                Email := storedEmail
                PasswordHash := some storedHash
                FirstName := storedFirstName
                LastName := storedLastName
                Phone := storedPhone
                IsEmailVerified := true
                IsActive := true
                GoogleID := none
                AvatarURL := none
                AuthProvider := "email"
                LastActivityAt := now
                CreatedAt := now
                UpdatedAt := now }
            .ok ({ db with users := db.users ++ [user], users_id_seq := db.users_id_seq + 1 },
                 user)

/-- Go `CompleteSignup`. -/
def AuthService.CompleteSignup (lib : Lib) (db : DB) (now : Time) (req : CompleteSignupRequest) :
    DB × Except String User :=
  match ValidateEmail req.Email with
  | some err => (db, .error err)
  | none =>
  match ValidatePassword lib req.Password with
  | some err => (db, .error err)
  | none =>
  match ValidateName req.FirstName "First name" with
  | some err => (db, .error err)
  | none =>
  match ValidateName req.LastName "Last name" with
  | some err => (db, .error err)
  | none =>
  match (if req.Phone ≠ "" then ValidatePhone req.Phone else none) with
  | some err => (db, .error err)
  | none =>
    if db.users.any (fun u => u.Email == req.Email) then
      (db, .error "user with this email already exists")
    else
      match lib.HashPassword req.Password with
      | .error err => (db, .error ("failed to hash password: " ++ err))
      | .ok hashedPassword =>
        let phone : Option String := if req.Phone ≠ "" then some req.Phone else none
        match AuthService.insertUser db now req.Email hashedPassword req.FirstName req.LastName
            phone with
        | .error err => (db, .error ("failed to create user: " ++ err))
        | .ok (db, user) =>
          let db := ActivityService.LogActivity db now user.ID ActivitySignup
          (db, .ok { user with PasswordHash := none, GoogleID := none, AvatarURL := none })

/-- Go `Login`; `storeErr` is the outcome of the insert of `storeRefreshToken`.  Scanning
a NULL `password_hash` into a Go `string` fails, which the source reports as a failed
lookup. -/
def AuthService.Login (lib : Lib) (cfg : Config) (db : DB) (now : Time)
    (storeErr : Option String) (req : LoginRequest) : DB × Except String AuthResponse :=
  match ValidateEmail req.Email with
  | some err => (db, .error err)
  | none =>
    match db.users.find? (fun u => u.Email == req.Email) with
    | none => (db, .error "invalid email or password")
    | some row =>
      match row.PasswordHash with
      | none =>
        (db, .error "failed to get user: can't scan into dest[2]: cannot scan NULL into *string")
      | some passwordHash =>
        let user : User := { row with GoogleID := none, AvatarURL := none }
        if !user.IsActive then (db, .error "account is deactivated")
        else if !lib.CheckPasswordHash req.Password passwordHash then
          (db, .error "invalid email or password")
        else
          match JWTService.GenerateAccessToken cfg now user.ID user.Email with
          | .error err => (db, .error ("failed to generate access token: " ++ err))
          | .ok accessToken =>
            match JWTService.GenerateRefreshToken cfg now user.ID user.Email with
            | .error err => (db, .error ("failed to generate refresh token: " ++ err))
            | .ok refreshToken =>
              match AuthService.storeRefreshToken storeErr cfg db now user.ID refreshToken with
              | (db, some err) => (db, .error ("failed to store refresh token: " ++ err))
              | (db, none) =>
                let db := ActivityService.LogActivity db now user.ID ActivityLogin
                (db, .ok { User := user.ToUserResponse
                           AccessToken := accessToken
                           RefreshToken := refreshToken
                           ExpiresIn := JWTService.GetTokenExpiry cfg })

/-- Go `ResetPassword`; `revokeErr` is the outcome of the revoke-all statement, whose
error the source prints and ignores. -/
def AuthService.ResetPassword (lib : Lib) (db : DB) (now : Time) (revokeErr : Option String)
    (req : ResetPasswordRequest) : DB × Option String :=
  match ValidatePassword lib req.NewPassword with
  | some err => (db, some err)
  | none =>
    match OTPService.VerifyOTP db now req.Email req.OTP OTPTypePasswordReset with
    | (db, some err) => (db, some err)
    | (db, none) =>
      match lib.HashPassword req.NewPassword with
      | .error err => (db, some ("failed to hash password: " ++ err))
      | .ok hashedPassword =>
        match db.users.find? (fun u => u.Email == req.Email) with
        | none => (db, some "user not found")
        | some account =>
          let userID := account.ID
          let db :=
            { db with
              users := db.users.map (fun u =>
                if u.Email == req.Email then
                  { u with PasswordHash := some hashedPassword, UpdatedAt := now }
                else u) }
          let db := (AuthService.revokeAllUserRefreshTokens revokeErr db req.Email).1
          let db := ActivityService.LogActivity db now userID ActivityPasswordReset
          (db, none)

/-- Go `RefreshToken`; `revokeErr` is the outcome of revoking the old token, whose error
the source prints and ignores, and `storeErr` the outcome of the insert of the new one. -/
def AuthService.RefreshToken (cfg : Config) (db : DB) (now : Time)
    (revokeErr storeErr : Option String) (req : RefreshTokenRequest) :
    DB × Except String AuthResponse :=
  match JWTService.ValidateToken cfg now req.RefreshToken "refresh" with
  | .error err => (db, .error ("invalid refresh token: " ++ err))
  | .ok claims =>
    match AuthService.validateStoredRefreshToken db now claims.UserID req.RefreshToken with
    | some err => (db, .error err)
    | none =>
      match AuthService.getUserByID db claims.UserID with
      | .error err => (db, .error err)
      | .ok user =>
        if !user.IsActive then (db, .error "account is deactivated")
        else
          match JWTService.GenerateAccessToken cfg now user.ID user.Email with
          | .error err => (db, .error ("failed to generate access token: " ++ err))
          | .ok newAccessToken =>
            match JWTService.GenerateRefreshToken cfg now user.ID user.Email with
            | .error err => (db, .error ("failed to generate refresh token: " ++ err))
            | .ok newRefreshToken =>
              let db := (AuthService.revokeRefreshToken revokeErr db req.RefreshToken).1
              match AuthService.storeRefreshToken storeErr cfg db now user.ID newRefreshToken with
              | (db, some err) => (db, .error ("failed to store refresh token: " ++ err))
              | (db, none) =>
                (db, .ok { User := user.ToUserResponse
                           AccessToken := newAccessToken
                           RefreshToken := newRefreshToken
                           ExpiresIn := JWTService.GetTokenExpiry cfg })

/-! ## Rate limiter (`internal/middleware/rate_limiter.go`) -/

/-- Go `ClientData`. -/
structure ClientData where
  count : Int
  lastReset : Time
deriving DecidableEq, Repr

/-- Go `RateLimiter` (the mutex left out: `isAllowed` runs under the lock).  The map
`requests` is a partial function on client addresses; `window` is in nanoseconds. -/
structure RateLimiter where
  requests : String → Option ClientData
  limit : Int
  window : Int

/-- Go `NewRateLimiter`: the empty map with the given settings. -/
def NewRateLimiter (limit : Int) (window : Int) : RateLimiter :=
  { requests := fun _ => none, limit := limit, window := window }

/-- Go `isAllowed`, returning the limiter after the call and the verdict. -/
def RateLimiter.isAllowed (rl : RateLimiter) (now : Time) (clientIP : String) :
    RateLimiter × Bool :=
  match rl.requests clientIP with
  | some data =>
    if now - data.lastReset > rl.window then
      ({ rl with
         requests := Function.update rl.requests clientIP (some { count := 1, lastReset := now }) },
       true)
    else if data.count ≥ rl.limit then (rl, false)
    else
      ({ rl with
         requests := Function.update rl.requests clientIP
           (some { data with count := data.count + 1 }) },
       true)
  | none =>
    ({ rl with
       requests := Function.update rl.requests clientIP (some { count := 1, lastReset := now }) },
     true)

/-! ## Forgot password and logout (`auth_service.go`, `handlers/auth_basic.go`) -/

/-- Go `models.ForgotPasswordRequest`. -/
structure ForgotPasswordRequest where
  Email : String
deriving DecidableEq, Repr

/-- Go `models.ActivityLogout`. -/
def ActivityLogout : String := "logout"

/-- Go `models.ActivityGoogleLogin`. -/
def ActivityGoogleLogin : String := "google_login"

/-- Go `ForgotPassword`; `draw` and `emailErr` are handed to `SendOTP` when it is called. -/
def AuthService.ForgotPassword (cfg : Config) (db : DB) (now : Time)
    (draw : Except String Nat) (emailErr : Option String) (req : ForgotPasswordRequest) :
    DB × Option String :=
  let userExists := db.users.any (fun u => u.Email == req.Email && u.IsActive)
  if !userExists then (db, none)
  else OTPService.SendOTP cfg db now draw emailErr req.Email OTPTypePasswordReset

/-- The message with which `ValidateToken` reports the nil dereference of a missing
expiry claim. -/
def nilDereference : String :=
  "panic: runtime error: invalid memory address or nil pointer dereference"

/-- Go `AuthService.Logout`: log the activity when the token validates, then return the
result of the revoke; `revokeErr` is the outcome of the revoke statement.  The panic of
`ValidateToken` on a token without expiry is passed on as it is reported. -/
def AuthService.Logout (cfg : Config) (db : DB) (now : Time) (revokeErr : Option String)
    (refreshToken : TokenString) : DB × Option String :=
  match JWTService.ValidateToken cfg now refreshToken "refresh" with
  | .ok claims =>
    let db := ActivityService.LogActivity db now claims.UserID ActivityLogout
    AuthService.revokeRefreshToken revokeErr db refreshToken
  | .error err =>
    if err = nilDereference then (db, some err)
    else AuthService.revokeRefreshToken revokeErr db refreshToken

/-- Go `utils.APIResponse`, without the payload. -/
structure APIResponse where
  Success : Bool
  Message : String
deriving DecidableEq, Repr

/-- What a handler leaves for the client: the JSON response it wrote with its status code,
or a panic, which `gin.Recovery` turns into a bare 500. -/
inductive HandlerResult where
  | response (status : Nat) (body : APIResponse)
  | panic (message : String)
deriving DecidableEq, Repr

/-- Whether the token string has at least 20 bytes, so that `token[:20]` is in range.  The
serialisation of a signed token always has: its header segment encodes at least
`{"alg":"none"}`, 19 characters, and is followed by a dot and two more segments. -/
def TokenString.atLeast20Bytes : TokenString → Bool
  | .malformed raw => decide (20 ≤ raw.utf8ByteSize)
  | .signed _ _ _ => true

/-- Go `AuthHandler.Logout`, for a JSON body carrying `refreshToken`.  Binding fails on an
empty token (`binding:"required"`); the log line slices the first 20 bytes; the token is
decoded for the account id; the service is called and its error only printed; the
background activity logging is taken to run before the response is written. -/
def AuthHandler.Logout (cfg : Config) (db : DB) (now : Time) (revokeErr : Option String)
    (refreshToken : TokenString) : DB × HandlerResult :=
  if refreshToken = .malformed "" then
    (db, .response 400 { Success := false, Message := "Invalid request payload" })
  else if !refreshToken.atLeast20Bytes then
    (db, .panic "runtime error: slice bounds out of range")
  else
    match JWTService.ValidateToken cfg now refreshToken "refresh" with
    | .error err =>
      if err = nilDereference then (db, .panic err)
      else
        let db := (AuthService.Logout cfg db now revokeErr refreshToken).1
        (db, .response 200 { Success := true, Message := "Logged out successfully" })
    | .ok claims =>
      let userID := claims.UserID
      let db := (AuthService.Logout cfg db now revokeErr refreshToken).1
      let db := if userID > 0 then ActivityService.LogActivity db now userID ActivityLogout else db
      (db, .response 200 { Success := true, Message := "Logged out successfully" })

/-! ## Google sign-in (`internal/services/auth_service_google.go`) -/

/-- Go `GoogleUserInfo`, the profile Google returns. -/
structure GoogleUserInfo where
  ID : String
  Email : String
  VerifiedEmail : Bool
  Name : String
  GivenName : String
  FamilyName : String
  Picture : String
  Locale : String
deriving DecidableEq, Repr

/-- Go `strings.Fields`, reading left to right with the word in progress (reversed). -/
def fieldsFrom : List Char → List Char → List (List Char)
  | [], word => if word.isEmpty then [] else [word.reverse]
  | c :: cs, word =>
    if isSpace c then
      if word.isEmpty then fieldsFrom cs [] else word.reverse :: fieldsFrom cs []
    else fieldsFrom cs (c :: word)

/-- Go `strings.Fields`: the maximal runs of non-space runes. -/
def Fields (s : List Char) : List (List Char) := fieldsFrom s []

/-- Go `strings.Join`. -/
def Join (parts : List (List Char)) (sep : List Char) : List Char :=
  List.intercalate sep parts

/-- Go `isValidEmailDomain`. -/
def AuthService.isValidEmailDomain (email : String) : Bool :=
  Contains email.toList "@".toList && Contains email.toList ".".toList

/-- The `newAuthProvider` computed by `processGoogleUser` when it merges into an account
found by e-mail address (lines 122 to 130). -/
def AuthService.newAuthProvider (authProvider : String) : String :=
  if authProvider = "email" then "email,google"
  else if !Contains authProvider.toList "google".toList then authProvider ++ ",google"
  else authProvider

/-- The merge `UPDATE` of `processGoogleUser` applied to the row it matches: a Go string
parameter is never NULL, so `COALESCE($2, avatar_url)` is the picture, and
`COALESCE(NULLIF($4, ''), first_name)` is the Google name unless that is empty.  The
`users` trigger sets `updated_at`. -/
def AuthService.mergeUpdate (now : Time) (googleUser : GoogleUserInfo) (newAuthProvider : String)
    (u : User) : User :=
  { u with
    GoogleID := some googleUser.ID
    AvatarURL := some googleUser.Picture
    IsEmailVerified := true
    AuthProvider := newAuthProvider
    FirstName := if googleUser.GivenName = "" then u.FirstName else googleUser.GivenName
    LastName := if googleUser.FamilyName = "" then u.LastName else googleUser.FamilyName
    LastActivityAt := now
    UpdatedAt := now }

/-- The assignments `processGoogleUser` makes to its `user` struct after the merge
`UPDATE` (lines 156 to 170). -/
def AuthService.mergedUser (googleUser : GoogleUserInfo) (newAuthProvider : String) (user : User) :
    User :=
  { user with
    GoogleID := some googleUser.ID
    AvatarURL := if googleUser.Picture ≠ "" then some googleUser.Picture else user.AvatarURL
    IsEmailVerified := true
    AuthProvider := newAuthProvider
    FirstName :=
      if googleUser.GivenName ≠ "" ∧ (user.FirstName = "User" ∨ user.FirstName = "") then
        googleUser.GivenName
      else user.FirstName
    LastName :=
      if googleUser.FamilyName ≠ "" ∧ (user.LastName = "Google" ∨ user.LastName = "") then
        googleUser.FamilyName
      else user.LastName }

/-- The first and last name `processGoogleUser` gives a new account (lines 181 to 202). -/
def AuthService.newUserNames (googleUser : GoogleUserInfo) : String × String :=
  let firstName := googleUser.GivenName
  let lastName := googleUser.FamilyName
  let names : String × String :=
    if firstName = "" ∧ googleUser.Name ≠ "" then
      match Fields googleUser.Name.toList with
      | [] => (firstName, lastName)
      | [first] => (String.mk first, lastName)
      | first :: rest => (String.mk first, String.mk (Join rest [' ']))
    else (firstName, lastName)
  (if names.1 = "" then "User" else names.1, names.2)

/-- The statement `UPDATE users SET last_activity_at = CURRENT_TIMESTAMP WHERE id = $1`
of `processGoogleUser`; the `users` trigger sets `updated_at`. -/
def AuthService.updateLastActivity (now : Time) (userID : Int) (users : List User) : List User :=
  users.map (fun u =>
    if u.ID == userID then { u with LastActivityAt := now, UpdatedAt := now } else u)

/-- The statements of `processGoogleUser` inside its transaction, up to the activity check
(lines 91 to 228): look the account up by Google id, else by e-mail address and merge the
Google identity into it, else create it.  Returns the tables as the transaction sees them
and the `user` struct; the queries do not read `password_hash`. -/
def AuthService.resolveGoogleUser (db : DB) (now : Time) (googleUser : GoogleUserInfo) :
    DB × User :=
  match db.users.find? (fun u => u.GoogleID == some googleUser.ID) with
  | some row =>
    let user : User := { row with PasswordHash := none }
    ({ db with users := AuthService.updateLastActivity now user.ID db.users },
      { user with LastActivityAt := now })
  | none =>
    match db.users.find? (fun u => u.Email == googleUser.Email) with
    | some row =>
      let user : User := { row with PasswordHash := none }
      let newAuthProvider := AuthService.newAuthProvider user.AuthProvider
      let users := db.users.map (fun u =>
        if u.ID == user.ID then AuthService.mergeUpdate now googleUser newAuthProvider u else u)
      let user := AuthService.mergedUser googleUser newAuthProvider user
      ({ db with users := AuthService.updateLastActivity now user.ID users },
        { user with LastActivityAt := now })
    | none =>
      let names := AuthService.newUserNames googleUser
      let user : User :=
        { ID := db.users_id_seq + 1
          Email := googleUser.Email
          PasswordHash := none
          FirstName := names.1
          LastName := names.2
          Phone := none
          IsEmailVerified := true
          IsActive := true
          GoogleID := some googleUser.ID
          AvatarURL := some googleUser.Picture
          AuthProvider := "google"
          LastActivityAt := now
          CreatedAt := now
          UpdatedAt := now }
      ({ db with users := db.users ++ [user], users_id_seq := db.users_id_seq + 1 }, user)

/-- Go `processGoogleUser`; `storeErr` is the outcome of the insert of `storeRefreshToken`.
The statements between `Begin` and `Commit` act on the transaction's view of the `users`
table, which replaces the table at the commit and is dropped by the deferred rollback
when the function returns earlier. -/
def AuthService.processGoogleUser (cfg : Config) (db : DB) (now : Time)
    (storeErr : Option String) (googleUser : GoogleUserInfo) :
    DB × Except String AuthResponse :=
  if !AuthService.isValidEmailDomain googleUser.Email then
    (db, .error "email domain not allowed")
  else
    let tx := (AuthService.resolveGoogleUser db now googleUser).1
    let user := (AuthService.resolveGoogleUser db now googleUser).2
    if !user.IsActive then (db, .error "account is deactivated")
    else
      let db := tx
      match JWTService.GenerateAccessToken cfg now user.ID user.Email with
      | .error err => (db, .error ("failed to generate access token: " ++ err))
      | .ok accessToken =>
        match JWTService.GenerateRefreshToken cfg now user.ID user.Email with
        | .error err => (db, .error ("failed to generate refresh token: " ++ err))
        | .ok refreshToken =>
          match AuthService.storeRefreshToken storeErr cfg db now user.ID refreshToken with
          | (db, some err) => (db, .error ("failed to store refresh token: " ++ err))
          | (db, none) =>
            let db := ActivityService.LogActivity db now user.ID ActivityGoogleLogin
            (db, .ok { User := user.ToUserResponse
                       AccessToken := accessToken
                       RefreshToken := refreshToken
                       ExpiresIn := JWTService.GetTokenExpiry cfg })

/-! ## Request deduplication (`internal/middleware/deduplication.go`) -/

/-- Go `RequestInfo`. -/
structure RequestInfo where
  InProgress : Bool
  Timestamp : Time
deriving DecidableEq, Repr

/-- Go `RequestTracker` (the mutex left out: each step below runs under the lock).  The
map `requests` is a partial function on signatures. -/
structure RequestTracker where
  requests : String → Option RequestInfo

/-- Go `tracker`, the package-level tracker, created with an empty map. -/
def tracker : RequestTracker := { requests := fun _ => none }

/-- Go `createRequestSignature`: the MD5 digest of `ip:path`, represented by its
preimage. -/
def createRequestSignature (clientIP path : String) : String := clientIP ++ ":" ++ path

/-- The paths the middleware applies to (line 47). -/
def guardedPath (path : String) : Bool :=
  !(path != "/api/v1/auth/logout" && path != "/api/v1/auth/google/callback")

/-- The first locked section of the middleware (lines 55 to 69): refuse when the
signature is marked in progress, otherwise mark it.  Returns the tracker and whether the
request is admitted. -/
def RequestTracker.enter (rt : RequestTracker) (now : Time) (signature : String) :
    RequestTracker × Bool :=
  match rt.requests signature with
  | some info =>
    if info.InProgress then (rt, false)
    else
      ({ requests := Function.update rt.requests signature
          (some { InProgress := true, Timestamp := now }) }, true)
  | none =>
    ({ requests := Function.update rt.requests signature
        (some { InProgress := true, Timestamp := now }) }, true)

/-- The second locked section of the middleware (lines 77 to 82): mark the request as
completed. -/
def RequestTracker.leave (rt : RequestTracker) (now : Time) (signature : String) :
    RequestTracker :=
  match rt.requests signature with
  | some _ =>
    { requests := Function.update rt.requests signature
        (some { InProgress := false, Timestamp := now }) }
  | none => rt

/-- The handler function returned by Go `DeduplicationMiddleware`, for one request whose
remaining handlers `next` (the call `c.Next()`) act on a state `σ`, with no other
request in between.  `now` is the instant of the first locked section and `done` of the
second.  A panic of `next` unwinds through the middleware, which has no deferred call, so
the second locked section is not reached. -/
def DeduplicationMiddleware {σ : Type} (rt : RequestTracker) (now done : Time)
    (clientIP path : String) (next : σ → σ × HandlerResult) (state : σ) :
    RequestTracker × σ × HandlerResult :=
  if !guardedPath path then (rt, next state)
  else
    let signature := createRequestSignature clientIP path
    match rt.enter now signature with
    | (rt, false) =>
      (rt, state, .response 429
        { Success := false, Message := "Request already in progress, please wait" })
    | (rt, true) =>
      match next state with
      | (state, .panic message) => (rt, state, .panic message)
      | (state, .response status body) =>
        (rt.leave done signature, state, .response status body)

/-! ## Signup, the legacy entry point (`internal/services/auth_service.go`) -/

/-- Go `models.SignupRequest`. -/
structure SignupRequest where
  Email : String
  Password : String
  FirstName : String
  LastName : String
  Phone : String
deriving DecidableEq, Repr

/-- Go `Signup`, the legacy entry point: it hands its fields to `CompleteSignup`. -/
def AuthService.Signup (lib : Lib) (db : DB) (now : Time) (req : SignupRequest) :
    DB × Except String User :=
  let completeReq : CompleteSignupRequest :=
    { Email := req.Email
      Password := req.Password
      FirstName := req.FirstName
      LastName := req.LastName
      Phone := req.Phone }
  AuthService.CompleteSignup lib db now completeReq

/-! ## Deduplication sweep (`internal/middleware/deduplication.go`) -/

/-- Go `(*RequestTracker).cleanup`: delete every entry whose timestamp is before the
cutoff, ten minutes before `now`. -/
def RequestTracker.cleanup (rt : RequestTracker) (now : Time) : RequestTracker :=
  let cutoff := now + (-10) * Minute
  { requests := fun key =>
      match rt.requests key with
      | some info => if info.Timestamp < cutoff then none else some info
      | none => none }

/-! ## Google sign-in entry points (`auth_service_google.go`, `google_service.go`) -/

/-- Go `GoogleTokenInfo`, the answer of the token endpoint. -/
structure GoogleTokenInfo where
  AccessToken : String
  ExpiresIn : Int
  RefreshToken : String
  Scope : String
  TokenType : String
  IDToken : String
deriving DecidableEq, Repr

/-- Go `models.GoogleAuthRequest`. -/
structure GoogleAuthRequest where
  AccessToken : String
deriving DecidableEq, Repr

/-- The panic of the slice expression `s[:20]` on a string of fewer than 20 bytes,
reported as an error. -/
def sliceBoundsPanic (length : Nat) : String :=
  "panic: runtime error: slice bounds out of range [:20] with length " ++ toString length

/-- Go `ExchangeCodeForToken`: the log line slices the first 20 bytes of the code; `answer`
is what the exchange with the token endpoint that follows returns. -/
def GoogleService.ExchangeCodeForToken (answer : Except String GoogleTokenInfo) (code : String) :
    Except String GoogleTokenInfo :=
  if code.utf8ByteSize < 20 then .error (sliceBoundsPanic code.utf8ByteSize)
  else answer

/-- Go `GoogleCallbackAuth`.  The first statement slices the first 20 bytes of the code
for a log line, and so does the statement after the exchange with the access token;
`exchange` and `userInfo` are the answers of the Google endpoints. -/
def AuthService.GoogleCallbackAuth (cfg : Config) (db : DB) (now : Time)
    (storeErr : Option String) (exchange : Except String GoogleTokenInfo)
    (userInfo : Except String GoogleUserInfo) (code : String) :
    DB × Except String AuthResponse :=
  if code.utf8ByteSize < 20 then (db, .error (sliceBoundsPanic code.utf8ByteSize))
  else
    match GoogleService.ExchangeCodeForToken exchange code with
    | .error err => (db, .error ("failed to exchange code for token: " ++ err))
    | .ok tokenInfo =>
      if tokenInfo.AccessToken.utf8ByteSize < 20 then
        (db, .error (sliceBoundsPanic tokenInfo.AccessToken.utf8ByteSize))
      else
        match userInfo with
        | .error err => (db, .error ("failed to get Google user info: " ++ err))
        | .ok googleUser => AuthService.processGoogleUser cfg db now storeErr googleUser

/-- Go `GoogleAuth`.  The first statement slices the first 20 bytes of the access token
for a log line; `verify` and `userInfo` are the answers of the Google endpoints. -/
def AuthService.GoogleAuth (cfg : Config) (db : DB) (now : Time)
    (storeErr : Option String) (verify : Except String Bool)
    (userInfo : Except String GoogleUserInfo) (req : GoogleAuthRequest) :
    DB × Except String AuthResponse :=
  if req.AccessToken.utf8ByteSize < 20 then
    (db, .error (sliceBoundsPanic req.AccessToken.utf8ByteSize))
  else
    match verify with
    | .error _ => (db, .error "invalid Google access token")
    | .ok false => (db, .error "invalid Google access token")
    | .ok true =>
      match userInfo with
      | .error err => (db, .error ("failed to get Google user info: " ++ err))
      | .ok googleUser => AuthService.processGoogleUser cfg db now storeErr googleUser

/-! ## OAuth state (`internal/handlers/auth_google.go`) -/

/-- Go `Time.Unix`: the whole seconds since the epoch. -/
def Unix (t : Time) : Int := t / Second

/-- The alphabet of Go `base64.URLEncoding`. -/
def encodeURL : List Char :=
  "ABCDEFGHIJKLMNOPQRSTUVWXYZabcdefghijklmnopqrstuvwxyz0123456789-_".toList

/-- The character of `base64.URLEncoding` for the low six bits of a number. -/
def base64Char (sextet : Nat) : Char := encodeURL.getD (sextet % 64) 'A'

/-- Go `base64.URLEncoding.EncodeToString`, on bytes given as numbers (taken modulo 256):
three bytes make four characters, and a last group of one or two bytes is padded with
`=`. -/
def EncodeToString : List Nat → List Char
  | [] => []
  | [a] =>
    let v := a % 256 * 65536
    [base64Char (v / 262144), base64Char (v / 4096), '=', '=']
  | [a, b] =>
    let v := a % 256 * 65536 + b % 256 * 256
    [base64Char (v / 262144), base64Char (v / 4096), base64Char (v / 64), '=']
  | a :: b :: c :: rest =>
    let v := a % 256 * 65536 + b % 256 * 256 + c % 256
    base64Char (v / 262144) :: base64Char (v / 4096) :: base64Char (v / 64) :: base64Char v ::
      EncodeToString rest

/-- Go `strings.Split(s, sep)` for a separator of one character, on the runes of the
string. -/
def Split : List Char → Char → List (List Char)
  | [], _ => [[]]
  | c :: cs, sep =>
    if c = sep then [] :: Split cs sep
    else
      match Split cs sep with
      | [] => [[c]]
      | piece :: rest => (c :: piece) :: rest

/-- Go `strconv.ParseInt(s, 10, 64)`: an optional sign, then decimal digits and nothing
else, the value within 64 bits. -/
def ParseInt (s : List Char) : Except String Int :=
  let parseUint (digits : List Char) : Except String Nat :=
    if digits.isEmpty then .error "invalid syntax"
    else if !digits.all isAsciiDigit then .error "invalid syntax"
    else .ok (digits.foldl (fun acc c => 10 * acc + (c.toNat - 48)) 0)
  match s with
  | [] => .error "invalid syntax"
  | c :: rest =>
    if c = '-' then
      match parseUint rest with
      | .error err => .error err
      | .ok un => if un > 2 ^ 63 then .error "value out of range" else .ok (-(un : Int))
    else
      match parseUint (if c = '+' then rest else c :: rest) with
      | .error err => .error err
      | .ok un => if un ≥ 2 ^ 63 then .error "value out of range" else .ok (un : Int)

/-- Go `generateSecureState`.  `mac key message` is HMAC-SHA256 as a list of bytes and
`randomBytes` the result of `rand.Read`. -/
def AuthHandler.generateSecureState (mac : String → String → List Nat) (cfg : Config)
    (now : Time) (randomBytes : Except String (List Nat)) : Except String String :=
  let secret := cfg.JWT.Secret
  match randomBytes with
  | .error err => .error err
  | .ok randomBytes =>
    let timestamp := Unix now
    let payload := (toString timestamp).toList ++ '.' :: EncodeToString randomBytes
    let signature := EncodeToString (mac secret (String.mk payload))
    .ok (String.mk (payload ++ '.' :: signature))

/-- Go `validateState`. -/
def AuthHandler.validateState (mac : String → String → List Nat) (cfg : Config)
    (now : Time) (state : String) : Bool :=
  let secret := cfg.JWT.Secret
  match Split state.toList '.' with
  | [part0, part1, part2] =>
    let payload := part0 ++ '.' :: part1
    let receivedSignature := part2
    let expectedSignature := EncodeToString (mac secret (String.mk payload))
    if receivedSignature ≠ expectedSignature then false
    else
      match ParseInt part0 with
      | .error _ => false
      | .ok timestamp =>
        let currentTime := Unix now
        if currentTime - timestamp > 600 then false else true
  | _ => false

/-! ## Entry points that send a code (`auth_service.go`, `handlers/auth_verification.go`) -/

/-- Go `models.ResendOTPRequest`. -/
structure ResendOTPRequest where
  Email : String
  OTPType : String
deriving DecidableEq, Repr

/-- The binding tags of `ResendOTPRequest`: `required,email` on the address and
`required,oneof=email_verification password_reset login` on the purpose.  `isEmail` is
the rule `email` of the validator library. -/
def ResendOTPRequest.binds (isEmail : String → Bool) (req : ResendOTPRequest) : Bool :=
  req.Email != "" && isEmail req.Email && req.OTPType != "" &&
    (req.OTPType == "email_verification" || req.OTPType == "password_reset" ||
      req.OTPType == "login")

/-- Go `AuthHandler.ResendOTP`, for a JSON body with the fields of the request (a field
left out is the empty string), once the rate limiter of the route has let the request
through.  Binding fails before the service is called; an error of the service is
answered with 400 and its message. -/
def AuthHandler.ResendOTP (isEmail : String → Bool) (cfg : Config) (db : DB) (now : Time)
    (draw : Except String Nat) (emailErr : Option String) (req : ResendOTPRequest) :
    DB × HandlerResult :=
  if !req.binds isEmail then
    (db, .response 400 { Success := false, Message := "Invalid request payload" })
  else
    match OTPService.ResendOTP cfg db now draw emailErr req.Email req.OTPType with
    | (db, some err) => (db, .response 400 { Success := false, Message := err })
    | (db, none) => (db, .response 200 { Success := true, Message := "OTP sent successfully" })

/-! ## Token issue with its clock readings apart (`jwt_service.go`, `auth_service.go`) -/

/-- Go `GenerateAccessToken` with each `time.Now()` as a reading of its own, in the order
of the struct literal: `expiryRead` for `ExpiresAt` (line 36), `issuedRead` for `IssuedAt`
(line 37) and `notBeforeRead` for `NotBefore` (line 38).  `JWTService.GenerateAccessToken`
is the case in which the three readings are one instant. -/
def JWTService.GenerateAccessTokenAt (cfg : Config) (expiryRead issuedRead notBeforeRead : Time)
    (userID : Int) (email : String) : Except String TokenString :=
  let claims : JWTClaims :=
    { UserID := userID
      Email := email
      Type_ := "access"
      ExpiresAt := some (NewNumericDate (expiryRead + wrapInt64 (cfg.JWT.AccessExpiry * Minute)))
      IssuedAt := some (NewNumericDate issuedRead)
      NotBefore := some (NewNumericDate notBeforeRead)
      Issuer := cfg.Server.AppName
      Subject := email }
  .ok (.signed .HS256 claims cfg.JWT.Secret)

/-- Go `Login` with the clock readings of its call of `GenerateAccessToken` apart; every
other reading of the call is `now`, as in `AuthService.Login`, which is the case in which
the three readings are `now` as well. -/
def AuthService.LoginAt (lib : Lib) (cfg : Config) (db : DB) (now : Time)
    (expiryRead issuedRead notBeforeRead : Time)
    (storeErr : Option String) (req : LoginRequest) : DB × Except String AuthResponse :=
  match ValidateEmail req.Email with
  | some err => (db, .error err)
  | none =>
    match db.users.find? (fun u => u.Email == req.Email) with
    | none => (db, .error "invalid email or password")
    | some row =>
      match row.PasswordHash with
      | none =>
        (db, .error "failed to get user: can't scan into dest[2]: cannot scan NULL into *string")
      | some passwordHash =>
        let user : User := { row with GoogleID := none, AvatarURL := none }
        if !user.IsActive then (db, .error "account is deactivated")
        else if !lib.CheckPasswordHash req.Password passwordHash then
          (db, .error "invalid email or password")
        else
          match JWTService.GenerateAccessTokenAt cfg expiryRead issuedRead notBeforeRead
              user.ID user.Email with
          | .error err => (db, .error ("failed to generate access token: " ++ err))
          | .ok accessToken =>
            match JWTService.GenerateRefreshToken cfg now user.ID user.Email with
            | .error err => (db, .error ("failed to generate refresh token: " ++ err))
            | .ok refreshToken =>
              match AuthService.storeRefreshToken storeErr cfg db now user.ID refreshToken with
              | (db, some err) => (db, .error ("failed to store refresh token: " ++ err))
              | (db, none) =>
                let db := ActivityService.LogActivity db now user.ID ActivityLogin
                (db, .ok { User := user.ToUserResponse
                           AccessToken := accessToken
                           RefreshToken := refreshToken
                           ExpiresIn := JWTService.GetTokenExpiry cfg })

/-! ## Notions used in the statements -/

/-- The verdicts of `isAllowed` for successive requests of one client, made at the given
instants, starting from the limiter `rl`. -/
def RateLimiter.serve (rl : RateLimiter) (clientIP : String) : List Time → List Bool
  | [] => []
  | now :: rest =>
    (rl.isAllowed now clientIP).2 :: RateLimiter.serve (rl.isAllowed now clientIP).1 clientIP rest

/-- The lazily reset fixed-window counter in the words of the specification, for one
client.  The state is the current window, if any: its start and the requests allowed in
it so far.  A request that arrives with no window open, or after the current window has
elapsed, opens a new window starting at that request; a request is allowed iff fewer than
`limit` requests have been allowed in the window it falls in. -/
def fixedWindow (limit : Int) (window : Int) :
    Option (Time × List Time) → List Time → List Bool
  | _, [] => []
  | current, t :: rest =>
    let opened : Time × List Time :=
      match current with
      | none => (t, [])
      | some (start, allowed) => if t - start > window then (t, []) else (start, allowed)
    if (opened.2.length : Int) < limit then
      true :: fixedWindow limit window (some (opened.1, opened.2 ++ [t])) rest
    else
      false :: fixedWindow limit window (some opened) rest

/-- The limiter entry of a client that corresponds to a window of the reference counter:
the entry counts the requests allowed in the window and remembers the window start. -/
def windowEntry : Option (Time × List Time) → Option ClientData
  | none => none
  | some (start, allowed) => some { count := allowed.length, lastReset := start }

/-- The rows `VerifyOTP` selects from: same e-mail address, code and purpose, not used. -/
def otpCandidates (db : DB) (email otpCode otpType : String) : List OTP :=
  db.otps.filter (fun o =>
    o.Email == email && o.OTPCode == otpCode && o.OTPType == otpType && !o.IsUsed)

/-- A run of sequential `RefreshToken` calls, each presenting the refresh token that the
call before it returned (the first one presenting `token`).  A step gives the instant of
the call and the outcomes of its revoke and insert statements.  The result is the final
store with the latest refresh token, or `none` as soon as one call fails. -/
def AuthService.refreshChain (cfg : Config) :
    DB → TokenString → List (Time × Option String × Option String) → Option (DB × TokenString)
  | db, token, [] => some (db, token)
  | db, token, (now, revokeErr, storeErr) :: rest =>
    match AuthService.RefreshToken cfg db now revokeErr storeErr { RefreshToken := token } with
    | (db, .ok resp) => AuthService.refreshChain cfg db resp.RefreshToken rest
    | (_, .error _) => none

/-- The refresh-token records of an account that are not revoked. -/
def unrevokedOf (db : DB) (userID : Int) : List RefreshToken :=
  db.refresh_tokens.filter (fun r => r.UserID == userID && !r.IsRevoked)

/-- The state of a rotation chain of account `userID` whose latest refresh token is
`token`: the newest record of the table belongs to the account, is unrevoked and carries
the digest of `token`; every older record of the account is revoked; and `token` is a
signed token naming the account. -/
def rotationState (db : DB) (token : TokenString) (userID : Int) : Prop :=
  ∃ earlier last,
    db.refresh_tokens = earlier ++ [last] ∧ last.UserID = userID ∧ last.IsRevoked = false ∧
    last.TokenHash = AuthService.hashToken token ∧
    (∀ r ∈ earlier, r.UserID = userID → r.IsRevoked = true) ∧
    ∃ method claims key, token = .signed method claims key ∧ claims.UserID = userID

/-- A call of one of the service operations modelled above, with the outcomes of its
statements, its random draw and its request. -/
inductive AuthService.Call where
  | completeSignup (req : CompleteSignupRequest)
  | login (storeErr : Option String) (req : LoginRequest)
  | refreshToken (revokeErr storeErr : Option String) (req : RefreshTokenRequest)
  | resetPassword (revokeErr : Option String) (req : ResetPasswordRequest)
  | sendOTP (draw : Except String Nat) (emailErr : Option String) (email otpType : String)
  | verifyOTP (email otpCode otpType : String)
  | resendOTP (draw : Except String Nat) (emailErr : Option String) (email otpType : String)

/-- The store a call leaves behind when made at instant `now`. -/
def AuthService.Call.run (lib : Lib) (cfg : Config) (db : DB) (now : Time) :
    AuthService.Call → DB
  | .completeSignup req => (AuthService.CompleteSignup lib db now req).1
  | .login storeErr req => (AuthService.Login lib cfg db now storeErr req).1
  | .refreshToken revokeErr storeErr req =>
    (AuthService.RefreshToken cfg db now revokeErr storeErr req).1
  | .resetPassword revokeErr req => (AuthService.ResetPassword lib db now revokeErr req).1
  | .sendOTP draw emailErr email otpType =>
    (OTPService.SendOTP cfg db now draw emailErr email otpType).1
  | .verifyOTP email otpCode otpType => (OTPService.VerifyOTP db now email otpCode otpType).1
  | .resendOTP draw emailErr email otpType =>
    (OTPService.ResendOTP cfg db now draw emailErr email otpType).1

/-- The store after a sequence of calls, each made at its instant. -/
def AuthService.runCalls (lib : Lib) (cfg : Config) : DB → List (Time × AuthService.Call) → DB
  | db, [] => db
  | db, (now, call) :: rest => AuthService.runCalls lib cfg (call.run lib cfg db now) rest

/-- How a call made at instant `now` may change the refresh-token table: every row of the
new table either stems from an old row of the same account with the same digest, revoked
if that one was, or carries the digest of a token issued at `now` by
`GenerateRefreshToken` for the account of the row. -/
def tableEvolves (cfg : Config) (now : Time) (old new : List RefreshToken) : Prop :=
  ∀ r ∈ new,
    (∃ r0 ∈ old, r.UserID = r0.UserID ∧ r.TokenHash = r0.TokenHash ∧
      (r0.IsRevoked = true → r.IsRevoked = true)) ∨
    (∃ email, JWTService.GenerateRefreshToken cfg now r.UserID email
      = .ok r.TokenHash.preimage)

/-- Go `strings.Split(s, ",")`, on the runes of the string: the pieces between the commas. -/
def splitOnComma : List Char → List (List Char)
  | [] => [[]]
  | c :: cs =>
    if c = ',' then [] :: splitOnComma cs
    else
      match splitOnComma cs with
      | [] => [[c]]
      | piece :: rest => (c :: piece) :: rest

/-- The providers of an account: the elements of its comma-separated `auth_provider`. -/
def providers (authProvider : String) : List (List Char) := splitOnComma authProvider.toList

/-- The row `updateLastActivity` makes of a row. -/
def touched (now : Time) (userID : Int) (u : User) : User :=
  if u.ID == userID then { u with LastActivityAt := now, UpdatedAt := now } else u

/-- A step of the middleware as seen from the tracker, for requests that run
concurrently: a request reaches the first locked section; the handler of an admitted
request returns and the request runs the second locked section; the handler of an
admitted request panics and the request leaves without it; or the goroutine started by
`DeduplicationMiddleware` (lines 35 to 42) runs the sweep `cleanup`. -/
inductive DedupEvent where
  | arrive (clientIP path : String) (now : Time)
  | complete (clientIP path : String) (now : Time)
  | unwind (clientIP path : String)
  | sweep (now : Time)
deriving DecidableEq, Repr

/-- The tracker together with the signatures whose handler is executing. -/
structure DedupState where
  rt : RequestTracker
  executing : List String

/-- One step of the middleware.  Requests for other paths do not touch the tracker; a
rejected request does not start its handler; `complete` and `unwind` are steps of an
executing request only; the sweep acts on the tracker and stops no handler. -/
def DedupState.step (s : DedupState) : DedupEvent → DedupState
  | .arrive clientIP path now =>
    if !guardedPath path then s
    else
      match s.rt.enter now (createRequestSignature clientIP path) with
      | (rt, true) =>
        { rt := rt, executing := createRequestSignature clientIP path :: s.executing }
      | (_, false) => s
  | .complete clientIP path now =>
    if createRequestSignature clientIP path ∈ s.executing then
      { rt := s.rt.leave now (createRequestSignature clientIP path)
        executing := s.executing.erase (createRequestSignature clientIP path) }
    else s
  | .unwind clientIP path =>
    if createRequestSignature clientIP path ∈ s.executing then
      { s with executing := s.executing.erase (createRequestSignature clientIP path) }
    else s
  | .sweep now => { s with rt := s.rt.cleanup now }

/-- The state after a sequence of steps. -/
def DedupState.run (s : DedupState) (events : List DedupEvent) : DedupState :=
  events.foldl DedupState.step s

/-- What holds of every state the middleware reaches: no signature is executing twice,
and every executing signature is marked in progress. -/
def DedupState.exclusive (s : DedupState) : Prop :=
  ∀ signature, s.executing.count signature ≤ 1 ∧
    (signature ∈ s.executing →
      ∃ info, s.rt.requests signature = some info ∧ info.InProgress = true)

/-- Whether the sweep at `now` deletes no entry of a signature whose handler is
executing: each such entry is at most ten minutes old. -/
def DedupState.sweepSpares (s : DedupState) (now : Time) : Bool :=
  s.executing.all (fun signature =>
    match s.rt.requests signature with
    | some info => !decide (info.Timestamp < now + (-10) * Minute)
    | none => true)

/-- Whether, in a sequence of steps from a state, no sweep deletes the entry of a
signature whose handler is executing at that moment. -/
def DedupState.sparing (s : DedupState) : List DedupEvent → Bool
  | [] => true
  | .sweep now :: rest => s.sweepSpares now && (s.step (.sweep now)).sparing rest
  | e :: rest => (s.step e).sparing rest

/-- The number a string of decimal digits denotes. -/
def decimalValue (digits : List Char) : Nat :=
  digits.foldl (fun acc c => 10 * acc + (c.toNat - 48)) 0

/-- The checks `CompleteSignup` makes of its request before it looks at the store. -/
def CompleteSignupRequest.passesValidation (lib : Lib) (req : CompleteSignupRequest) : Prop :=
  ValidateEmail req.Email = none ∧ ValidatePassword lib req.Password = none ∧
  ValidateName req.FirstName "First name" = none ∧
  ValidateName req.LastName "Last name" = none ∧
  (req.Phone ≠ "" → ValidatePhone req.Phone = none)

/-- The row `CompleteSignup` inserts for a request, the password hashed. -/
def AuthService.signupRow (db : DB) (now : Time) (req : CompleteSignupRequest)
    (hashedPassword : String) : User :=
  { ID := db.users_id_seq + 1
    Email := req.Email
    PasswordHash := some hashedPassword
    FirstName := req.FirstName
    LastName := req.LastName
    Phone := if req.Phone ≠ "" then some req.Phone else none
    IsEmailVerified := true
    IsActive := true
    GoogleID := none
    AvatarURL := none
    AuthProvider := "email"
    LastActivityAt := now
    CreatedAt := now
    UpdatedAt := now }

/-- The character classes of package `unicode` that `ValidatePassword` tests are general
categories of Unicode (Lu, Ll, Nd, P*, S*), which do not overlap. -/
def Lib.classesDisjoint (lib : Lib) : Prop :=
  ∀ c, (lib.IsLower c = true → lib.IsUpper c = false) ∧
    (lib.IsDigit c = true → lib.IsUpper c = false ∧ lib.IsLower c = false) ∧
    ((lib.IsPunct c || lib.IsSymbol c) = true →
      lib.IsUpper c = false ∧ lib.IsLower c = false ∧ lib.IsDigit c = false)

/-- The words `ValidatePassword` rejects as weak. -/
def weakPasswords : List String :=
  ["password", "123456", "qwerty", "abc123", "admin", "letmein",
   "welcome", "monkey", "dragon", "master", "shadow", "sunshine"]

/-- A text value that goes into a `VARCHAR(n)` column as it is: no NUL character and at
most `n` characters. -/
def fitsColumn (n : Nat) (value : String) : Prop := hasNUL value = false ∧ value.length ≤ n

instance (n : Nat) (value : String) : Decidable (fitsColumn n value) :=
  inferInstanceAs (Decidable (_ ∧ _))

/-- The values the code writes to the column `auth_provider`: "email" when
`CompleteSignup` creates the account (it is the default of the column as well), "google"
when `processGoogleUser` creates it, and the list the merge computes from a value written
before. -/
inductive AuthService.providerWritten : String → Prop where
  | signup : AuthService.providerWritten "email"
  | created : AuthService.providerWritten "google"
  | merged (authProvider : String) :
    AuthService.providerWritten authProvider →
    AuthService.providerWritten (AuthService.newAuthProvider authProvider)

/-- The values of the merge `UPDATE` of `processGoogleUser` go into their columns as they
are: the Google id into `google_id VARCHAR(255)`, the merged provider list into
`auth_provider VARCHAR(50)`, the names Google gives into `first_name` and
`last_name VARCHAR(100)`, and the picture, free of NUL, into `avatar_url TEXT`. -/
def AuthService.mergeFits (googleUser : GoogleUserInfo) (row : User) : Prop :=
  fitsColumn 255 googleUser.ID ∧ hasNUL googleUser.Picture = false ∧
  fitsColumn 50 (AuthService.newAuthProvider row.AuthProvider) ∧
  fitsColumn 100 googleUser.GivenName ∧ fitsColumn 100 googleUser.FamilyName

instance (googleUser : GoogleUserInfo) (row : User) :
    Decidable (AuthService.mergeFits googleUser row) :=
  inferInstanceAs (Decidable (_ ∧ _))

/-- What the merge of a Google profile into the accounts with id `userID` makes of a
stored row `before`, as far as the code is of one mind about it: a row of another
account is as it was; in a row of the account the Google id is set, the avatar URL is
the Google picture when the profile has one, and a name is the Google name when that is
not empty and the stored name is empty or the placeholder, and the stored name when the
Google name is empty. -/
def AuthService.mergedRow (googleUser : GoogleUserInfo) (userID : Int) (before after : User) :
    Prop :=
  after.ID = before.ID ∧ after.Email = before.Email ∧
  (before.ID ≠ userID → after = before) ∧
  (before.ID = userID →
    after.GoogleID = some googleUser.ID ∧ after.IsEmailVerified = true ∧
    (googleUser.Picture ≠ "" → after.AvatarURL = some googleUser.Picture) ∧
    (googleUser.GivenName = "" → after.FirstName = before.FirstName) ∧
    (googleUser.GivenName ≠ "" → (before.FirstName = "User" ∨ before.FirstName = "") →
      after.FirstName = googleUser.GivenName) ∧
    (googleUser.FamilyName = "" → after.LastName = before.LastName) ∧
    (googleUser.FamilyName ≠ "" → (before.LastName = "Google" ∨ before.LastName = "") →
      after.LastName = googleUser.FamilyName))

/-! ## Example environment -/

/-- A configuration for the examples: 15-minute access tokens, 7-day refresh tokens,
10-minute six-digit OTPs. -/
def exampleConfig : Config :=
  { Server := { AppName := "GoNextAuth" }
    JWT := { Secret := "s3cret", AccessExpiry := 15, RefreshExpiry := 7 }
    OTP := { Expiry := 10, Length := 6 } }

/-- An instance of the library interface for the examples: the `unicode` classes and
lower-casing on the ASCII range, and a transparent stand-in for bcrypt. -/
def exampleLib : Lib :=
  { IsUpper := fun c => decide (65 ≤ c.toNat) && decide (c.toNat ≤ 90)
    IsLower := fun c => decide (97 ≤ c.toNat) && decide (c.toNat ≤ 122)
    IsDigit := fun c => decide (48 ≤ c.toNat) && decide (c.toNat ≤ 57)
    IsPunct := fun c =>
      [33, 34, 35, 37, 38, 39, 40, 41, 42, 44, 45, 46, 47, 58, 59, 63, 64, 91, 92, 93, 95,
        123, 125].contains c.toNat
    IsSymbol := fun c => [36, 43, 60, 61, 62, 94, 96, 124, 126].contains c.toNat
    ToLower := fun c =>
      if 65 ≤ c.toNat ∧ c.toNat ≤ 90 then Char.ofNat (c.toNat + 32) else c
    HashPassword := fun password => .ok ("bcrypt:" ++ password)
    CheckPasswordHash := fun password hash => hash == "bcrypt:" ++ password }

/-- The empty database. -/
def emptyDB : DB :=
  { users := [], users_id_seq := 0, refresh_tokens := [], refresh_tokens_id_seq := 0,
    otps := [], otps_id_seq := 0, user_activity_logs := [] }

/-- A store reached from the empty one by one `SendOTP` call. -/
def oneCodeDB : DB :=
  (OTPService.SendOTP exampleConfig emptyDB 1700000000000000000 (.ok 123456) none
    "a@x.com" OTPTypeLogin).1

/-- A store reached from the empty one by two `SendOTP` calls for the same address and
purpose, one second apart, whose random draws happen to coincide. -/
def twoEqualCodesDB : DB :=
  (OTPService.SendOTP exampleConfig
    (OTPService.SendOTP exampleConfig emptyDB 1700000000000000000 (.ok 123456) none
      "a@x.com" OTPTypeLogin).1
    1700000001000000000 (.ok 123456) none "a@x.com" OTPTypeLogin).1

/-- An active account with password "Abcdef1!", as `CompleteSignup` under `exampleLib`
stores it. -/
def annAccount : User :=
  { ID := 1, Email := "a@x.com", PasswordHash := some "bcrypt:Abcdef1!", FirstName := "Ann",
    LastName := "Lee", Phone := none, IsEmailVerified := true, IsActive := true,
    GoogleID := none, AvatarURL := none, AuthProvider := "email",
    LastActivityAt := 1700000000000000000, CreatedAt := 1700000000000000000,
    UpdatedAt := 1700000000000000000 }

/-- A deactivated account with the same password. -/
def bobAccount : User :=
  { ID := 2, Email := "b@x.com", PasswordHash := some "bcrypt:Abcdef1!", FirstName := "Bob",
    LastName := "Ray", Phone := none, IsEmailVerified := true, IsActive := false,
    GoogleID := none, AvatarURL := none, AuthProvider := "email",
    LastActivityAt := 1700000000000000000, CreatedAt := 1700000000000000000,
    UpdatedAt := 1700000000000000000 }

/-- A store holding the two accounts and nothing else. -/
def twoAccountsDB : DB :=
  { emptyDB with users := [annAccount, bobAccount], users_id_seq := 2 }

/-- A store holding the active account and nothing else. -/
def annOnlyDB : DB :=
  { emptyDB with users := [annAccount], users_id_seq := 1 }

/-- The account logs in with its password at 1 700 000 100.2 s. -/
def annLogin : DB × Except String AuthResponse :=
  AuthService.Login exampleLib exampleConfig annOnlyDB 1700000100200000000 none
    { Email := "a@x.com", Password := "Abcdef1!" }

/-- The refresh token that login returns: issued in second 1 700 000 100, expiring seven
days later. -/
def annToken : TokenString :=
  .signed .HS256
    { UserID := 1, Email := "a@x.com", Type_ := "refresh",
      ExpiresAt := some 1700604900000000000, IssuedAt := some 1700000100000000000,
      NotBefore := some 1700000100000000000, Issuer := "GoNextAuth", Subject := "a@x.com" }
    "s3cret"

/-- One minute after the login the token is refreshed, every statement executing. -/
def annRefresh : DB × Except String AuthResponse :=
  AuthService.RefreshToken exampleConfig annLogin.1 1700000160000000000 none none
    { RefreshToken := annToken }

/-- The account logs in a second time, from another device, at 1 700 000 200 s, while the
session of `annLogin` is still open. -/
def annSecondLogin : DB × Except String AuthResponse :=
  AuthService.Login exampleLib exampleConfig annLogin.1 1700000200000000000 none
    { Email := "a@x.com", Password := "Abcdef1!" }

/-- The store after `annLogin` and a password-reset challenge with code 123456 sent at
1 700 000 200 s. -/
def resetPendingDB : DB :=
  (OTPService.SendOTP exampleConfig annLogin.1 1700000200000000000 (.ok 123456) none
    "a@x.com" OTPTypePasswordReset).1

/-- The store after `annLogin` and a password-reset challenge with code 123456 sent a
tenth of a second later, in the clock second of the login. -/
def quickResetPendingDB : DB :=
  (OTPService.SendOTP exampleConfig annLogin.1 1700000100300000000 (.ok 123456) none
    "a@x.com" OTPTypePasswordReset).1

/-- The password is reset a minute later with the code sent, every statement executing. -/
def annReset : DB × Option String :=
  AuthService.ResetPassword exampleLib resetPendingDB 1700000260000000000 none
    { Email := "a@x.com", OTP := "123456", NewPassword := "Zyxwvu9?" }

/-- The configuration `exampleConfig` with codes that last an hour. -/
def hourCodeConfig : Config := { exampleConfig with OTP := { Expiry := 60, Length := 6 } }

/-- The configuration `exampleConfig` with codes that last a minute. -/
def minuteCodeConfig : Config := { exampleConfig with OTP := { Expiry := 1, Length := 6 } }

/-- A store reached from the empty one by two `SendOTP` calls for the same address and
purpose a minute apart, the first under `hourCodeConfig` and the second, after the
service was restarted with a shorter code lifetime, under `minuteCodeConfig`; the two
random draws coincide. -/
def mixedExpiryDB : DB :=
  (OTPService.SendOTP minuteCodeConfig
    (OTPService.SendOTP hourCodeConfig emptyDB 1700000000000000000 (.ok 123456) none
      "a@x.com" OTPTypeLogin).1
    1700000060000000000 (.ok 123456) none "a@x.com" OTPTypeLogin).1

/-- The configuration `exampleConfig` with access tokens meant to last 153 722 868 minutes
(some 292 years), the least number of minutes whose nanoseconds exceed 64 bits. -/
def centuriesConfig : Config :=
  { exampleConfig with JWT := { Secret := "s3cret", AccessExpiry := 153722868, RefreshExpiry := 7 } }

/-- The Google profile of the holder of "a@x.com". -/
def annProfile : GoogleUserInfo :=
  { ID := "108000000000000000001", Email := "a@x.com", VerifiedEmail := true,
    Name := "Anna Leigh", GivenName := "Anna", FamilyName := "Leigh",
    Picture := "https://lh3.example/anna.png", Locale := "en" }

/-- A store holding the account `annAccount` with an avatar of its own. -/
def annWithAvatarDB : DB :=
  { emptyDB with
    users := [{ annAccount with AvatarURL := some "https://x.com/ann.png" }], users_id_seq := 1 }

/-- The holder of "a@x.com" signs in with Google for the first time, at 1 700 000 100.2 s. -/
def annGoogleLogin : DB × Except String AuthResponse :=
  AuthService.processGoogleUser exampleConfig annWithAvatarDB 1700000100200000000 none annProfile

/-- The Google profile of the holder of the deactivated account "b@x.com". -/
def bobProfile : GoogleUserInfo :=
  { ID := "108000000000000000002", Email := "b@x.com", VerifiedEmail := true,
    Name := "Bob Ray", GivenName := "Bob", FamilyName := "Ray",
    Picture := "https://lh3.example/bob.png", Locale := "en" }

/-- The store `twoAccountsDB` after the deactivated account was linked to its Google id. -/
def bobLinkedDB : DB :=
  { twoAccountsDB with
    users := [annAccount,
      { bobAccount with GoogleID := some "108000000000000000002", AuthProvider := "email,google" }] }

/-- A Google profile without a given name: family name "Smith", display name "John
Ronald Smith". -/
def smithProfile : GoogleUserInfo :=
  { ID := "108000000000000000003", Email := "j@x.com", VerifiedEmail := true,
    Name := "John Ronald Smith", GivenName := "", FamilyName := "Smith",
    Picture := "", Locale := "en" }

/-- A stand-in for HMAC-SHA256 in the examples: the character codes of key and message. -/
def exampleMac (key message : String) : List Nat :=
  (key ++ message).toList.map Char.toNat

/-- The example configuration with codes of eleven digits (`OTP_LENGTH=11`). -/
def elevenDigitConfig : Config :=
  { exampleConfig with OTP := { Expiry := 10, Length := 11 } }

/-- A signup request whose first name is "Ab" after 99 spaces: 101 characters as
submitted, "Ab" once trimmed. -/
def paddedNameRequest : CompleteSignupRequest :=
  { Email := "a@x.com", Password := "Abcdef1!"
    FirstName := String.mk (List.replicate 99 ' ' ++ ['A', 'b']), LastName := "Lee", Phone := "" }

/-- A signup request whose phone number is written with spaces and a remark: 26
characters as submitted, "+919876543210" once cleaned. -/
def annotatedPhoneRequest : CompleteSignupRequest :=
  { Email := "a@x.com", Password := "Abcdef1!", FirstName := "Ann", LastName := "Lee"
    Phone := "+91 98765 43210 (evenings)" }

/-- The Google profile of the holder of "a@x.com" with the names of the account and a
picture. -/
def annSameNamesProfile : GoogleUserInfo :=
  { ID := "108000000000000000001", Email := "a@x.com", VerifiedEmail := true,
    Name := "Ann Lee", GivenName := "Ann", FamilyName := "Lee",
    Picture := "https://lh3.example/ann.png", Locale := "en" }

/-- The empty store after a Google sign-in with `annSameNamesProfile`, which creates the
account of "a@x.com". -/
def annCreatedByGoogle : DB × Except String AuthResponse :=
  AuthService.processGoogleUser exampleConfig emptyDB 1700000100200000000 none
    annSameNamesProfile

/-- A Google profile for "a@x.com" with another Google id and another picture, as after
the address moved to a new Google account. -/
def annMovedProfile : GoogleUserInfo :=
  { ID := "108000000000000000009", Email := "a@x.com", VerifiedEmail := true,
    Name := "Ann Lee", GivenName := "Ann", FamilyName := "Lee",
    Picture := "https://lh3.example/ann-2.png", Locale := "en" }

/-- An account that signed up with the names "User" and "Google" and has no avatar. -/
def placeholderAccount : User :=
  { annAccount with ID := 1, Email := "u@x.com", FirstName := "User", LastName := "Google" }

/-- A store holding `placeholderAccount`. -/
def placeholderDB : DB :=
  { emptyDB with users := [placeholderAccount], users_id_seq := 1 }

/-- The Google profile of the holder of "u@x.com". -/
def uweProfile : GoogleUserInfo :=
  { ID := "108000000000000000004", Email := "u@x.com", VerifiedEmail := true,
    Name := "Uwe Marsh", GivenName := "Uwe", FamilyName := "Marsh",
    Picture := "https://lh3.example/uwe.png", Locale := "en" }

/-! ## Properties of the JWT service -/

/-- C7: token kinds never cross-validate.  For every configuration, account id and
e-mail address, and whenever the tokens are issued and checked, the refresh token that
`GenerateRefreshToken` returns fails `ValidateToken` with expected kind "access", and the
access token that `GenerateAccessToken` returns fails it with expected kind "refresh". -/
theorem token_kinds_never_cross_validate (cfg : Config) (issuedAt now : Time) (id : Int)
    (email : String) :
    (∃ tok, JWTService.GenerateRefreshToken cfg issuedAt id email = .ok tok ∧
      ∃ err, JWTService.ValidateToken cfg now tok "access" = .error err) ∧
    (∃ tok, JWTService.GenerateAccessToken cfg issuedAt id email = .ok tok ∧
      ∃ err, JWTService.ValidateToken cfg now tok "refresh" = .error err) := by
  refine ⟨⟨_, rfl, ?_⟩, ⟨_, rfl, ?_⟩⟩
  · simp only [JWTService.ValidateToken, ParseWithClaims, SigningMethod.isHMAC]
    split
    · exact ⟨_, rfl⟩
    · rename_i claims hparse
      have hty : claims.Type_ = "refresh" := by
        split_ifs at hparse <;> simp_all
        all_goals (cases hparse; rfl)
      simp [hty]
  · simp only [JWTService.ValidateToken, ParseWithClaims, SigningMethod.isHMAC]
    split
    · exact ⟨_, rfl⟩
    · rename_i claims hparse
      have hty : claims.Type_ = "access" := by
        split_ifs at hparse <;> simp_all
        all_goals (cases hparse; rfl)
      simp [hty]

/-- Truncation to the second never moves an instant forward. -/
theorem NewNumericDate_le (t : Time) : NewNumericDate t ≤ t := by
  unfold NewNumericDate Second
  exact Int.ediv_mul_le t (by norm_num)

/-- A token signed with the configured secret under HS256 validates as its own kind from
its not-before instant until its expiry. -/
theorem ValidateToken_signed (cfg : Config) (now : Time) (claims : JWTClaims) (exp nbf : Time)
    (hexp : claims.ExpiresAt = some exp) (hnbf : claims.NotBefore = some nbf)
    (h1 : nbf ≤ now) (h2 : now < exp) :
    JWTService.ValidateToken cfg now (.signed .HS256 claims cfg.JWT.Secret) claims.Type_
      = .ok claims := by
  have h3 : ¬ now < nbf := not_lt.mpr h1
  have h4 : ¬ exp < now := not_lt.mpr (le_of_lt h2)
  simp [JWTService.ValidateToken, ParseWithClaims, SigningMethod.isHMAC, hexp, hnbf, h2, h3, h4]

/-- C8: issue/validate round trip.  A token from `GenerateAccessToken cfg issuedAt id email`
checked at any instant `now` from its issue up to (excluding) its expiry claim validates
as kind "access", and the claims returned carry the account id, the e-mail address, the
kind "access" and the configured application name as issuer; likewise for
`GenerateRefreshToken` and kind "refresh". -/
theorem issue_validate_round_trip (cfg : Config) (issuedAt now : Time) (id : Int)
    (email : String) (hissued : issuedAt ≤ now) :
    (now < NewNumericDate (issuedAt + wrapInt64 (cfg.JWT.AccessExpiry * Minute)) →
      ∃ tok claims, JWTService.GenerateAccessToken cfg issuedAt id email = .ok tok ∧
        JWTService.ValidateToken cfg now tok "access" = .ok claims ∧
        claims.UserID = id ∧ claims.Email = email ∧ claims.Type_ = "access" ∧
        claims.Issuer = cfg.Server.AppName) ∧
    (now < NewNumericDate (issuedAt + wrapInt64 (cfg.JWT.RefreshExpiry * 24 * Hour)) →
      ∃ tok claims, JWTService.GenerateRefreshToken cfg issuedAt id email = .ok tok ∧
        JWTService.ValidateToken cfg now tok "refresh" = .ok claims ∧
        claims.UserID = id ∧ claims.Email = email ∧ claims.Type_ = "refresh" ∧
        claims.Issuer = cfg.Server.AppName) := by
  have hnbf : NewNumericDate issuedAt ≤ now := le_trans (NewNumericDate_le issuedAt) hissued
  constructor
  · intro hexp
    exact ⟨_, _, rfl, ValidateToken_signed cfg now _ _ _ rfl rfl hnbf hexp, rfl, rfl, rfl, rfl⟩
  · intro hexp
    exact ⟨_, _, rfl, ValidateToken_signed cfg now _ _ _ rfl rfl hnbf hexp, rfl, rfl, rfl, rfl⟩

/-- Witness for C8: a token pair issued half a second past 1 700 000 000 s and checked one
second later, under the example configuration. -/
theorem issue_validate_round_trip_witness :
    ((1700000000500000000 : Time) ≤ 1700000001500000000 ∧
      (1700000001500000000 : Time) <
        NewNumericDate (1700000000500000000 + wrapInt64 (exampleConfig.JWT.AccessExpiry * Minute))) ∧
    (∃ tok claims,
      JWTService.GenerateAccessToken exampleConfig 1700000000500000000 42 "a@x.com" = .ok tok ∧
      JWTService.ValidateToken exampleConfig 1700000001500000000 tok "access" = .ok claims ∧
      claims.UserID = 42 ∧ claims.Email = "a@x.com" ∧ claims.Type_ = "access" ∧
      claims.Issuer = exampleConfig.Server.AppName) ∧
    (∃ tok claims,
      JWTService.GenerateRefreshToken exampleConfig 1700000000500000000 42 "a@x.com" = .ok tok ∧
      JWTService.ValidateToken exampleConfig 1700000001500000000 tok "refresh" = .ok claims ∧
      claims.UserID = 42 ∧ claims.Email = "a@x.com" ∧ claims.Type_ = "refresh" ∧
      claims.Issuer = exampleConfig.Server.AppName) :=
  ⟨⟨by decide, by decide⟩,
    (issue_validate_round_trip exampleConfig 1700000000500000000 1700000001500000000 42
      "a@x.com" (by decide)).1 (by decide),
    (issue_validate_round_trip exampleConfig 1700000000500000000 1700000001500000000 42
      "a@x.com" (by decide)).2 (by decide)⟩

/-! ## Properties of the rate limiter -/

/-- Refinement step, generalised over the state: whenever the entry of the client matches
the reference window, the verdicts agree on every sequence of requests. -/
theorem serve_eq_fixedWindow_of_entry (client : String) (times : List Time) :
    ∀ (rl : RateLimiter) (current : Option (Time × List Time)), 1 ≤ rl.limit →
      rl.requests client = windowEntry current →
      rl.serve client times = fixedWindow rl.limit rl.window current times := by
  induction times with
  | nil => intro rl current _ _; cases current <;> rfl
  | cons t rest ih =>
    intro rl current hL hentry
    cases current with
    | none =>
      have hreq : rl.requests client = none := hentry
      have hlim : (0 : Int) < rl.limit := by omega
      simp only [RateLimiter.serve, RateLimiter.isAllowed, hreq, fixedWindow, List.length_nil,
        Nat.cast_zero, hlim, if_true, List.nil_append]
      congr 1
      exact ih _ (some (t, [t])) hL (by simp [windowEntry])
    | some w =>
      obtain ⟨start, allowed⟩ := w
      have hreq : rl.requests client = some { count := allowed.length, lastReset := start } :=
        hentry
      by_cases hel : t - start > rl.window
      · have hlim : (0 : Int) < rl.limit := by omega
        simp only [RateLimiter.serve, RateLimiter.isAllowed, hreq, fixedWindow, hel, if_true,
          List.length_nil, Nat.cast_zero, hlim, List.nil_append]
        congr 1
        exact ih _ (some (t, [t])) hL (by simp [windowEntry])
      · by_cases hfull : (allowed.length : Int) ≥ rl.limit
        · have hnot : ¬ (allowed.length : Int) < rl.limit := by omega
          simp only [RateLimiter.serve, RateLimiter.isAllowed, hreq, fixedWindow, hel, if_false,
            hfull, if_true, hnot]
          congr 1
          exact ih rl (some (start, allowed)) hL hentry
        · have hlt : (allowed.length : Int) < rl.limit := by omega
          simp only [RateLimiter.serve, RateLimiter.isAllowed, hreq, fixedWindow, hel, if_false,
            hfull, hlt, if_true]
          congr 1
          exact ih _ (some (start, allowed ++ [t])) hL (by simp [windowEntry])

/-- C9: `isAllowed` is a lazily reset fixed-window counter.  For a limiter with limit at
least 1 and no entry yet for the client, the verdicts on any sequence of request instants
are those of the reference counter `fixedWindow`: a request is allowed iff fewer than
`limit` requests have been allowed in its window, a new window starting at the first
request that arrives after the current one has elapsed.  In particular, with limit 3 and
a window of 60 s, of four requests inside one window the fourth is rejected, and the
first request after the window has elapsed is allowed. -/
theorem rate_limiter_is_fixed_window (rl : RateLimiter) (client : String)
    (hlimit : 1 ≤ rl.limit) (hfresh : rl.requests client = none) :
    (∀ times : List Time,
      rl.serve client times = fixedWindow rl.limit rl.window none times) ∧
    (∀ t1 t2 t3 t4 t5 : Time, t1 ≤ t2 → t2 ≤ t3 → t3 ≤ t4 → t4 - t1 ≤ 60 * Second →
      t5 - t1 > 60 * Second →
      (NewRateLimiter 3 (60 * Second)).serve client [t1, t2, t3, t4, t5]
        = [true, true, true, false, true]) := by
  constructor
  · intro times
    exact serve_eq_fixedWindow_of_entry client times rl none hlimit hfresh
  · intro t1 t2 t3 t4 t5 h12 h23 h34 hin hout
    rw [serve_eq_fixedWindow_of_entry client _ (NewRateLimiter 3 (60 * Second)) none
      (by simp [NewRateLimiter]) rfl]
    have hS : Second = 1000000000 := rfl
    rw [hS] at hin hout ⊢
    have e2 : ¬ 60000000000 < t2 - t1 := by linarith
    have e3 : ¬ 60000000000 < t3 - t1 := by linarith
    have e4 : ¬ 60000000000 < t4 - t1 := by linarith
    have e5 : 60000000000 < t5 - t1 := by linarith
    simp [fixedWindow, NewRateLimiter, e2, e3, e4, e5]

/-- Witness for C9: the OTP limiter (3 requests per minute) serving one client at
0 s, 10 s, 20 s, 60 s and 60.000000001 s. -/
theorem rate_limiter_is_fixed_window_witness :
    (1 ≤ (NewRateLimiter 3 (60 * Second)).limit ∧
      (NewRateLimiter 3 (60 * Second)).requests "203.0.113.7" = none) ∧
    (NewRateLimiter 3 (60 * Second)).serve "203.0.113.7"
        [0, 10000000000, 20000000000, 60000000000, 60000000001]
      = fixedWindow 3 (60 * Second) none
        [0, 10000000000, 20000000000, 60000000000, 60000000001] ∧
    (NewRateLimiter 3 (60 * Second)).serve "203.0.113.7"
        [0, 10000000000, 20000000000, 60000000000, 60000000001]
      = [true, true, true, false, true] :=
  ⟨⟨by decide, rfl⟩,
    (rate_limiter_is_fixed_window (NewRateLimiter 3 (60 * Second)) "203.0.113.7"
      (by decide) rfl).1 _,
    (rate_limiter_is_fixed_window (NewRateLimiter 3 (60 * Second)) "203.0.113.7"
      (by decide) rfl).2 0 10000000000 20000000000 60000000000 60000000001
      (by decide) (by decide) (by decide) (by decide) (by decide)⟩

/-! ## Properties of the text columns -/

/-- A value without NUL of at most `n` characters goes into a `VARCHAR(n)` column as it
is. -/
theorem varchar_of_fits (n : Nat) (value : String) (hnul : hasNUL value = false)
    (hlen : value.length ≤ n) : varchar n value = .ok value := by
  unfold varchar
  simp only [hnul, Bool.false_eq_true, if_false, hlen, if_true]

/-- What a `VARCHAR(n)` column holds after a statement that executed: the value, or its
first `n` characters when it is longer and ends in spaces from there on. -/
theorem varchar_ok (n : Nat) (value stored : String) (h : varchar n value = .ok stored) :
    (stored = value ∧ value.length ≤ n) ∨
    (n < value.length ∧ stored = String.mk (value.toList.take n) ∧
      ∀ c ∈ value.toList.drop n, c = ' ') := by
  unfold varchar at h
  split_ifs at h with h1 h2 h3
  · left
    exact ⟨(Except.ok.inj h).symm, h2⟩
  · right
    refine ⟨by omega, (Except.ok.inj h).symm, ?_⟩
    intro c hc
    have := List.all_eq_true.1 h3 c hc
    simpa using this

/-- A value longer than `n` characters with a character other than the space beyond the
`n`-th is refused by a `VARCHAR(n)` column. -/
theorem varchar_too_long (n : Nat) (value : String) (c : Char) (hc : c ∈ value.toList.drop n)
    (hne : c ≠ ' ') : ∃ err, varchar n value = .error err := by
  unfold varchar
  have hlen : ¬ value.length ≤ n := by
    intro hle
    have : value.toList.drop n = [] := List.drop_eq_nil_of_le hle
    rw [this] at hc
    exact absurd hc (List.not_mem_nil _)
  have hall : ¬ (value.toList.drop n).all (fun c => c == ' ') = true := by
    intro h
    have := List.all_eq_true.1 h c hc
    exact hne (by simpa using this)
  split_ifs
  · exact ⟨_, rfl⟩
  · exact ⟨_, rfl⟩

/-- A value made of characters other than the space is stored as it is or refused. -/
theorem varchar_ok_of_no_space (n : Nat) (value stored : String)
    (hns : ∀ c ∈ value.toList, c ≠ ' ') (h : varchar n value = .ok stored) :
    stored = value ∧ value.length ≤ n := by
  rcases varchar_ok n value stored h with h1 | ⟨hlt, _, hsp⟩
  · exact h1
  · exfalso
    have hne : value.toList.drop n ≠ [] := by
      intro hnil
      have := List.drop_eq_nil_iff.1 hnil
      have hl : value.toList.length = value.length := rfl
      omega
    obtain ⟨c, hc⟩ := List.exists_mem_of_ne_nil _ hne
    exact hns c (List.mem_of_mem_drop hc) (hsp c hc)

/-- The insert of `SendOTP` when it executes: one row is appended to `otps`, unused,
holding what the columns store of the address, the code and the purpose; nothing else
changes. -/
theorem insertOTP_ok (db db1 : DB) (now : Time) (email otpCode otpType : String)
    (expiresAt : Time) (h : OTPService.insertOTP db now email otpCode otpType expiresAt = .ok db1) :
    ∃ storedEmail storedCode storedType,
      varchar 255 email = .ok storedEmail ∧ varchar 10 otpCode = .ok storedCode ∧
      varchar 50 otpType = .ok storedType ∧
      db1 = { db with
              otps := db.otps ++
                [{ ID := db.otps_id_seq + 1, Email := storedEmail, OTPCode := storedCode,
                   OTPType := storedType, ExpiresAt := expiresAt, CreatedAt := now,
                   IsUsed := false }]
              otps_id_seq := db.otps_id_seq + 1 } := by
  unfold OTPService.insertOTP at h
  cases h1 : varchar 255 email with
  | error e => rw [h1] at h; exact Except.noConfusion h
  | ok storedEmail =>
    cases h2 : varchar 10 otpCode with
    | error e => rw [h1, h2] at h; exact Except.noConfusion h
    | ok storedCode =>
      cases h3 : varchar 50 otpType with
      | error e => rw [h1, h2, h3] at h; exact Except.noConfusion h
      | ok storedType =>
        rw [h1, h2, h3] at h
        exact ⟨storedEmail, storedCode, storedType, rfl, rfl, rfl, (Except.ok.inj h).symm⟩

/-- The insert of `SendOTP` for an address, a code and a purpose that go into their
columns as they are. -/
theorem insertOTP_of_fits (db : DB) (now : Time) (email otpCode otpType : String)
    (expiresAt : Time) (h1 : varchar 255 email = .ok email) (h2 : varchar 10 otpCode = .ok otpCode)
    (h3 : varchar 50 otpType = .ok otpType) :
    OTPService.insertOTP db now email otpCode otpType expiresAt =
      .ok { db with
            otps := db.otps ++
              [{ ID := db.otps_id_seq + 1, Email := email, OTPCode := otpCode,
                 OTPType := otpType, ExpiresAt := expiresAt, CreatedAt := now,
                 IsUsed := false }]
            otps_id_seq := db.otps_id_seq + 1 } := by
  unfold OTPService.insertOTP
  rw [h1, h2, h3]

/-- The insert of `SendOTP` when a column refuses its value. -/
theorem insertOTP_error (db : DB) (now : Time) (email otpCode otpType : String)
    (expiresAt : Time)
    (h : (∃ e, varchar 255 email = .error e) ∨ (∃ e, varchar 10 otpCode = .error e) ∨
      (∃ e, varchar 50 otpType = .error e)) :
    ∃ err, OTPService.insertOTP db now email otpCode otpType expiresAt = .error err := by
  unfold OTPService.insertOTP
  cases h1 : varchar 255 email with
  | error e => exact ⟨e, rfl⟩
  | ok storedEmail =>
    cases h2 : varchar 10 otpCode with
    | error e => exact ⟨e, rfl⟩
    | ok storedCode =>
      cases h3 : varchar 50 otpType with
      | error e => exact ⟨e, rfl⟩
      | ok storedType =>
        rcases h with ⟨e, he⟩ | ⟨e, he⟩ | ⟨e, he⟩
        · rw [h1] at he; exact Except.noConfusion he
        · rw [h2] at he; exact Except.noConfusion he
        · rw [h3] at he; exact Except.noConfusion he

/-- What `SendOTP` returns: the error of the draw or of the insert with the store as it
was, or, the row inserted, the outcome of the dispatch on the purpose. -/
theorem SendOTP_cases (cfg : Config) (db : DB) (now : Time) (draw : Except String Nat)
    (emailErr : Option String) (email otpType : String) :
    (∃ err, OTPService.GenerateOTP cfg draw = .error err ∧
      OTPService.SendOTP cfg db now draw emailErr email otpType =
        (db, some ("failed to generate OTP: " ++ err))) ∨
    (∃ code err, OTPService.GenerateOTP cfg draw = .ok code ∧
      OTPService.insertOTP db now email code otpType
        (now + wrapInt64 (cfg.OTP.Expiry * Minute)) = .error err ∧
      OTPService.SendOTP cfg db now draw emailErr email otpType =
        (db, some ("failed to save OTP: " ++ err))) ∨
    (∃ code db1, OTPService.GenerateOTP cfg draw = .ok code ∧
      OTPService.insertOTP db now email code otpType
        (now + wrapInt64 (cfg.OTP.Expiry * Minute)) = .ok db1 ∧
      OTPService.SendOTP cfg db now draw emailErr email otpType =
        (db1, if otpType = OTPTypeEmailVerification ∨ otpType = OTPTypePasswordReset ∨
                otpType = OTPTypeLogin then emailErr
              else some ("unsupported OTP type: " ++ otpType))) := by
  unfold OTPService.SendOTP
  cases hgen : OTPService.GenerateOTP cfg draw with
  | error err => exact Or.inl ⟨err, rfl, rfl⟩
  | ok code =>
    cases hins : OTPService.insertOTP db now email code otpType
        (now + wrapInt64 (cfg.OTP.Expiry * Minute)) with
    | error err => exact Or.inr (Or.inl ⟨code, err, rfl, hins, by simp only [hins]⟩)
    | ok db1 =>
      refine Or.inr (Or.inr ⟨code, db1, rfl, hins, ?_⟩)
      simp only [hins]
      split_ifs <;> simp_all

/-- `SendOTP` touches the table `otps` only. -/
theorem SendOTP_frame (cfg : Config) (db : DB) (now : Time) (draw : Except String Nat)
    (emailErr : Option String) (email otpType : String) :
    (OTPService.SendOTP cfg db now draw emailErr email otpType).1.users = db.users ∧
    (OTPService.SendOTP cfg db now draw emailErr email otpType).1.refresh_tokens
      = db.refresh_tokens ∧
    (OTPService.SendOTP cfg db now draw emailErr email otpType).1.user_activity_logs
      = db.user_activity_logs := by
  rcases SendOTP_cases cfg db now draw emailErr email otpType with
    ⟨_, _, h⟩ | ⟨_, _, _, _, h⟩ | ⟨code, db1, _, hins, h⟩
  · rw [h]; exact ⟨rfl, rfl, rfl⟩
  · rw [h]; exact ⟨rfl, rfl, rfl⟩
  · rw [h]
    obtain ⟨_, _, _, _, _, _, hdb⟩ := insertOTP_ok db db1 now email code otpType _ hins
    rw [hdb]
    exact ⟨rfl, rfl, rfl⟩

/-- The insert of `CompleteSignup` when it executes: the row is appended to `users`
with the next id, holding what the columns store of the values, verified, active and
with the provider list "email"; nothing else changes. -/
theorem insertUser_ok (db db1 : DB) (now : Time) (email hashedPassword firstName lastName : String)
    (phone : Option String) (user : User)
    (h : AuthService.insertUser db now email hashedPassword firstName lastName phone
      = .ok (db1, user)) :
    db1 = { db with users := db.users ++ [user], users_id_seq := db.users_id_seq + 1 } ∧
    user.ID = db.users_id_seq + 1 ∧ varchar 255 email = .ok user.Email ∧
    (∃ storedHash, varchar 255 hashedPassword = .ok storedHash ∧
      user.PasswordHash = some storedHash) ∧
    varchar 100 firstName = .ok user.FirstName ∧ varchar 100 lastName = .ok user.LastName ∧
    (phone = none → user.Phone = none) ∧
    (∀ p, phone = some p → ∃ storedPhone, varchar 20 p = .ok storedPhone ∧
      user.Phone = some storedPhone) ∧
    user.IsEmailVerified = true ∧ user.IsActive = true ∧ user.AuthProvider = "email" ∧
    user.GoogleID = none ∧ user.AvatarURL = none ∧ user.LastActivityAt = now ∧
    user.CreatedAt = now ∧ user.UpdatedAt = now := by
  unfold AuthService.insertUser at h
  cases h1 : varchar 255 email with
  | error e => rw [h1] at h; exact Except.noConfusion h
  | ok storedEmail =>
  cases h2 : varchar 255 hashedPassword with
  | error e => rw [h1, h2] at h; exact Except.noConfusion h
  | ok storedHash =>
  cases h3 : varchar 100 firstName with
  | error e => rw [h1, h2, h3] at h; exact Except.noConfusion h
  | ok storedFirstName =>
  cases h4 : varchar 100 lastName with
  | error e => rw [h1, h2, h3, h4] at h; exact Except.noConfusion h
  | ok storedLastName =>
  rw [h1, h2, h3, h4] at h
  cases phone with
  | none =>
    simp only [Except.ok.injEq, Prod.mk.injEq] at h
    obtain ⟨hdb, huser⟩ := h
    subst huser
    exact ⟨hdb.symm, rfl, rfl, ⟨_, rfl, rfl⟩, rfl, rfl, fun _ => rfl,
      fun p hp => Option.noConfusion hp, rfl, rfl, rfl, rfl, rfl, rfl, rfl, rfl⟩
  | some p =>
    simp only at h
    cases h5 : varchar 20 p with
    | error e =>
      rw [h5] at h
      exact Except.noConfusion h
    | ok storedPhone =>
      rw [h5] at h
      simp only [Except.map, Except.ok.injEq, Prod.mk.injEq] at h
      obtain ⟨hdb, huser⟩ := h
      subst huser
      refine ⟨hdb.symm, rfl, rfl, ⟨_, rfl, rfl⟩, rfl, rfl, fun hp => Option.noConfusion hp,
        ?_, rfl, rfl, rfl, rfl, rfl, rfl, rfl, rfl⟩
      intro q hq
      cases hq
      exact ⟨storedPhone, h5, rfl⟩

/-! ## Properties of the OTP service -/

/-- The row `latestOTP` returns is one of the rows given. -/
theorem latestOTP_mem : ∀ (l : List OTP) (o : OTP), latestOTP l = some o → o ∈ l := by
  intro l
  induction l with
  | nil => intro o h; simp [latestOTP] at h
  | cons a rest ih =>
    intro o h
    simp only [latestOTP] at h
    cases hrest : latestOTP rest with
    | none =>
      rw [hrest] at h
      simp only [Option.some.injEq] at h
      simp [h]
    | some best =>
      rw [hrest] at h
      simp only at h
      split_ifs at h
      · simp only [Option.some.injEq] at h
        subst h
        exact List.mem_cons_of_mem _ (ih _ hrest)
      · simp only [Option.some.injEq] at h
        simp [h]

/-- The function `latestOTP` finds no row only in an empty list. -/
theorem latestOTP_eq_none : ∀ (l : List OTP), latestOTP l = none ↔ l = [] := by
  intro l
  cases l with
  | nil => simp [latestOTP]
  | cons a rest =>
    simp only [latestOTP]
    cases latestOTP rest with
    | none => simp
    | some best => simp only; split_ifs <;> simp

/-- `VerifyOTP` fails with "invalid or expired OTP" when no unused row matches. -/
theorem VerifyOTP_of_no_candidate (db : DB) (now : Time) (email otpCode otpType : String)
    (h : otpCandidates db email otpCode otpType = []) :
    OTPService.VerifyOTP db now email otpCode otpType = (db, some "invalid or expired OTP") := by
  unfold otpCandidates at h
  simp [OTPService.VerifyOTP, h, latestOTP]

/-- C3 (amended): OTP verification consumes the row it matched.  If `VerifyOTP` succeeds
for an e-mail address, code and purpose on a store that holds at most one unused row with
these three values, then a following `VerifyOTP` with the same three arguments, at
whatever instant, fails with "invalid or expired OTP". -/
theorem verify_otp_at_most_once (db : DB) (now later : Time) (email otpCode otpType : String)
    (hsingle : (otpCandidates db email otpCode otpType).length ≤ 1)
    (hok : (OTPService.VerifyOTP db now email otpCode otpType).2 = none) :
    (OTPService.VerifyOTP (OTPService.VerifyOTP db now email otpCode otpType).1 later
      email otpCode otpType).2 = some "invalid or expired OTP" := by
  unfold otpCandidates at hsingle
  cases hsel : latestOTP (db.otps.filter (fun o =>
      o.Email == email && o.OTPCode == otpCode && o.OTPType == otpType && !o.IsUsed)) with
  | none => simp [OTPService.VerifyOTP, hsel] at hok
  | some otp =>
    have hmem := latestOTP_mem _ _ hsel
    have hexp : ¬ now > otp.ExpiresAt := by
      intro hgt
      simp [OTPService.VerifyOTP, hsel, hgt] at hok
    have hdb : (OTPService.VerifyOTP db now email otpCode otpType).1 =
        { db with otps := db.otps.map (fun o =>
            if o.ID == otp.ID then { o with IsUsed := true } else o) } := by
      simp [OTPService.VerifyOTP, hsel, hexp]
    rw [hdb, VerifyOTP_of_no_candidate]
    unfold otpCandidates
    rw [List.filter_eq_nil_iff]
    intro o ho
    simp only [List.mem_map] at ho
    obtain ⟨o0, ho0, rfl⟩ := ho
    by_cases hid : o0.ID = otp.ID
    · simp [hid]
    · simp only [beq_iff_eq, hid, if_false]
      intro hcand
      have hin : o0 ∈ db.otps.filter (fun o =>
          o.Email == email && o.OTPCode == otpCode && o.OTPType == otpType && !o.IsUsed) :=
        List.mem_filter.mpr ⟨ho0, hcand⟩
      have hl : ∀ l : List OTP, l.length ≤ 1 → o0 ∈ l → otp ∈ l → o0 = otp := by
        intro l hlen h1 h2
        match l, hlen, h1, h2 with
        | [x], _, h1, h2 =>
          simp only [List.mem_singleton] at h1 h2
          rw [h1, h2]
      exact hid (congrArg OTP.ID (hl _ hsingle hin hmem))

/-- Counterexample to C3 as stated: on a store holding two unused challenges with the
same address, code and purpose, `VerifyOTP` succeeds and the immediately following
`VerifyOTP` with the same arguments succeeds as well. -/
theorem verify_otp_twice_succeeds :
    (OTPService.VerifyOTP twoEqualCodesDB 1700000002000000000 "a@x.com" "123456" "login").2
      = none ∧
    (OTPService.VerifyOTP
      (OTPService.VerifyOTP twoEqualCodesDB 1700000002000000000 "a@x.com" "123456" "login").1
      1700000002000000000 "a@x.com" "123456" "login").2 = none := by
  decide

/-- Witness for C3 (amended): one challenge, verified two seconds after it was sent. -/
theorem verify_otp_at_most_once_witness :
    ((otpCandidates oneCodeDB "a@x.com" "123456" "login").length ≤ 1 ∧
      (OTPService.VerifyOTP oneCodeDB 1700000002000000000 "a@x.com" "123456" "login").2
        = none) ∧
    (OTPService.VerifyOTP
      (OTPService.VerifyOTP oneCodeDB 1700000002000000000 "a@x.com" "123456" "login").1
      1700000002000000000 "a@x.com" "123456" "login").2 = some "invalid or expired OTP" :=
  ⟨⟨by decide, by decide⟩,
    verify_otp_at_most_once oneCodeDB 1700000002000000000 1700000002000000000
      "a@x.com" "123456" "login" (by decide) (by decide)⟩

/-- After the invalidating update of `ResendOTP` no row of the address and purpose is
unused, whatever its code. -/
theorem otpCandidates_after_invalidate (db : DB) (email otpCode otpType : String) :
    (db.otps.map (fun o =>
        if o.Email == email && o.OTPType == otpType && !o.IsUsed then { o with IsUsed := true }
        else o)).filter (fun o =>
      o.Email == email && o.OTPCode == otpCode && o.OTPType == otpType && !o.IsUsed) = [] := by
  rw [List.filter_eq_nil_iff]
  intro o ho
  simp only [List.mem_map] at ho
  obtain ⟨o0, _, rfl⟩ := ho
  by_cases hc : (o0.Email == email && o0.OTPType == otpType && !o0.IsUsed) = true
  · simp [hc]
  · simp only [hc]
    intro hcand
    apply hc
    simp only [Bool.and_eq_true] at hcand ⊢
    exact ⟨⟨hcand.1.1.1, hcand.1.2⟩, hcand.2⟩

/-! ## Properties of signup and password login -/

/-- C5, the code at the failing input: on the empty store, which holds no challenge at
all, `CompleteSignup` with a well-formed request returns the created account and the
store then holds it, marked as e-mail verified. -/
theorem complete_signup_without_challenge :
    emptyDB.otps = [] ∧
    (∃ user, (AuthService.CompleteSignup exampleLib emptyDB 1700000000000000000
      { Email := "a@x.com", Password := "Abcdef1!", FirstName := "Ann", LastName := "Lee",
        Phone := "" }).2 = .ok user) ∧
    (AuthService.CompleteSignup exampleLib emptyDB 1700000000000000000
      { Email := "a@x.com", Password := "Abcdef1!", FirstName := "Ann", LastName := "Lee",
        Phone := "" }).1.users.map (fun u => (u.ID, u.Email, u.IsEmailVerified))
      = [(1, "a@x.com", true)] := by
  refine ⟨rfl, ⟨_, rfl⟩, ?_⟩
  decide

/-- Counterexample to C10 as stated.  For the deactivated account a wrong password yields
"account is deactivated", not "invalid email or password"; and an empty e-mail address,
which no account has, yields "email is required". -/
theorem login_error_depends_on_account_state :
    (AuthService.Login exampleLib exampleConfig twoAccountsDB 1700000100000000000 none
      { Email := "b@x.com", Password := "wrong" }).2 = .error "account is deactivated" ∧
    exampleLib.CheckPasswordHash "wrong" "bcrypt:Abcdef1!" = false ∧
    (AuthService.Login exampleLib exampleConfig twoAccountsDB 1700000100000000000 none
      { Email := "", Password := "wrong" }).2 = .error "email is required" := by
  refine ⟨?_, ?_, ?_⟩ <;> decide

/-- C10 (amended): password login does not distinguish a missing account from a wrong
password on an active account.  For a request whose e-mail address passes
`ValidateEmail`: if no account has the address, or the account found is active, has a
stored password hash and the submitted password does not verify against it, `Login`
fails with "invalid email or password" and leaves the store as it was.  Moreover every
failing `Login` leaves the store unchanged, so no refresh token is persisted. -/
theorem login_invalid_credentials (lib : Lib) (cfg : Config) (db : DB) (now : Time)
    (storeErr : Option String) (req : LoginRequest) :
    (ValidateEmail req.Email = none →
      ((∀ u ∈ db.users, u.Email ≠ req.Email) ∨
        ∃ account hash, db.users.find? (fun u => u.Email == req.Email) = some account ∧
          account.IsActive = true ∧ account.PasswordHash = some hash ∧
          lib.CheckPasswordHash req.Password hash = false) →
      AuthService.Login lib cfg db now storeErr req = (db, .error "invalid email or password")) ∧
    (∀ err, (AuthService.Login lib cfg db now storeErr req).2 = .error err →
      (AuthService.Login lib cfg db now storeErr req).1 = db) := by
  constructor
  · intro hemail hcred
    rcases hcred with hnone | ⟨account, hash, hfind, hactive, hhash, hcheck⟩
    · have hfind : db.users.find? (fun u => u.Email == req.Email) = none := by
        rw [List.find?_eq_none]
        intro u hu
        simpa using hnone u hu
      simp [AuthService.Login, hemail, hfind]
    · simp [AuthService.Login, hemail, hfind, hhash, hactive, hcheck]
  · intro err herr
    unfold AuthService.Login at herr ⊢
    cases hemail : ValidateEmail req.Email with
    | some e => rfl
    | none =>
      simp only [hemail] at herr ⊢
      cases hfind : db.users.find? (fun u => u.Email == req.Email) with
      | none => rfl
      | some row =>
        simp only [hfind] at herr ⊢
        cases hhash : row.PasswordHash with
        | none => rfl
        | some passwordHash =>
          simp only [hhash] at herr ⊢
          split_ifs at herr ⊢
          · rfl
          · rfl
          · simp only [JWTService.GenerateAccessToken, JWTService.GenerateRefreshToken,
              AuthService.storeRefreshToken] at herr ⊢
            cases storeErr with
            | some e => rfl
            | none => simp at herr

/-- Witness for C10 (amended): the active account with a wrong password, and an address
no account has. -/
theorem login_invalid_credentials_witness :
    (ValidateEmail "a@x.com" = none ∧
      twoAccountsDB.users.find? (fun u => u.Email == "a@x.com") = some annAccount ∧
      exampleLib.CheckPasswordHash "wrong" "bcrypt:Abcdef1!" = false) ∧
    AuthService.Login exampleLib exampleConfig twoAccountsDB 1700000100000000000 none
      { Email := "a@x.com", Password := "wrong" }
      = (twoAccountsDB, .error "invalid email or password") ∧
    (ValidateEmail "c@x.com" = none ∧ ∀ u ∈ twoAccountsDB.users, u.Email ≠ "c@x.com") ∧
    AuthService.Login exampleLib exampleConfig twoAccountsDB 1700000100000000000 none
      { Email := "c@x.com", Password := "Abcdef1!" }
      = (twoAccountsDB, .error "invalid email or password") :=
  ⟨⟨by decide, by decide, by decide⟩,
    (login_invalid_credentials exampleLib exampleConfig twoAccountsDB 1700000100000000000 none
      { Email := "a@x.com", Password := "wrong" }).1 (by decide)
      (Or.inr ⟨annAccount, "bcrypt:Abcdef1!", by decide, by decide, by decide, by decide⟩),
    ⟨by decide, by decide⟩,
    (login_invalid_credentials exampleLib exampleConfig twoAccountsDB 1700000100000000000 none
      { Email := "c@x.com", Password := "Abcdef1!" }).1 (by decide) (Or.inl (by decide))⟩

/-! ## Properties of refresh rotation and password reset -/

/-- A token that validates is a signed token carrying the claims returned. -/
theorem ValidateToken_ok_signed (cfg : Config) (now : Time) (tok : TokenString) (ty : String)
    (claims : JWTClaims) (h : JWTService.ValidateToken cfg now tok ty = .ok claims) :
    ∃ method key, tok = .signed method claims key := by
  cases tok with
  | malformed raw => simp [JWTService.ValidateToken, ParseWithClaims] at h
  | signed method c key =>
    refine ⟨method, key, ?_⟩
    simp only [JWTService.ValidateToken, ParseWithClaims] at h
    split at h
    · simp at h
    · rename_i parsed hparse
      have hc : parsed = c := by
        split at hparse
        · simp at hparse
        · split_ifs at hparse
          simp only [Except.ok.injEq] at hparse
          exact hparse.symm
      subst hc
      split_ifs at h
      split at h
      · simp at h
      · split_ifs at h
        simp only [Except.ok.injEq] at h
        rw [h]

/-- `LogActivity` does not touch the refresh-token table. -/
theorem LogActivity_refresh_tokens (db : DB) (now : Time) (userID : Int) (ty : String) :
    (ActivityService.LogActivity db now userID ty).refresh_tokens = db.refresh_tokens := by
  unfold ActivityService.LogActivity
  split_ifs <;> rfl

/-- What a successful `Login` leaves in the refresh-token table: the rows it found and one
new unrevoked row for the account, carrying the digest of the returned refresh token. -/
theorem Login_ok_refresh_tokens (lib : Lib) (cfg : Config) (db db1 : DB) (now : Time)
    (storeErr : Option String) (req : LoginRequest) (resp : AuthResponse)
    (h : AuthService.Login lib cfg db now storeErr req = (db1, .ok resp)) :
    ∃ row claims, db1.refresh_tokens = db.refresh_tokens ++ [row] ∧
      row.UserID = resp.User.ID ∧ row.IsRevoked = false ∧
      row.TokenHash = AuthService.hashToken resp.RefreshToken ∧
      resp.RefreshToken = .signed .HS256 claims cfg.JWT.Secret ∧
      claims.UserID = resp.User.ID := by
  unfold AuthService.Login at h
  cases hemail : ValidateEmail req.Email with
  | some e => simp [hemail] at h
  | none =>
    simp only [hemail] at h
    cases hfind : db.users.find? (fun u => u.Email == req.Email) with
    | none => simp [hfind] at h
    | some account =>
      simp only [hfind] at h
      cases hhash : account.PasswordHash with
      | none => simp [hhash] at h
      | some passwordHash =>
        simp only [hhash] at h
        split_ifs at h
        · simp at h
        · simp at h
        · simp only [JWTService.GenerateAccessToken, JWTService.GenerateRefreshToken,
            AuthService.storeRefreshToken] at h
          cases storeErr with
          | some e => simp at h
          | none =>
            simp only [Prod.mk.injEq, Except.ok.injEq] at h
            obtain ⟨hdb, hresp⟩ := h
            subst hdb hresp
            exact ⟨_, _, by rw [LogActivity_refresh_tokens], rfl, rfl, rfl, rfl, rfl⟩

/-- What a successful `RefreshToken` does: the presented token validated as a refresh
token, and the table afterwards is the table after the revoke statement followed by one
new unrevoked row of the same account, carrying the digest of the returned refresh token,
which was issued at the instant of the call. -/
theorem RefreshToken_ok (cfg : Config) (db db1 : DB) (now : Time)
    (revokeErr storeErr : Option String) (tok : TokenString) (resp : AuthResponse)
    (h : AuthService.RefreshToken cfg db now revokeErr storeErr { RefreshToken := tok }
      = (db1, .ok resp)) :
    ∃ claims row fresh,
      JWTService.ValidateToken cfg now tok "refresh" = .ok claims ∧
      resp.User.ID = claims.UserID ∧
      db1.refresh_tokens
        = (AuthService.revokeRefreshToken revokeErr db tok).1.refresh_tokens ++ [row] ∧
      row.UserID = claims.UserID ∧ row.IsRevoked = false ∧
      row.TokenHash = AuthService.hashToken resp.RefreshToken ∧
      resp.RefreshToken = .signed .HS256 fresh cfg.JWT.Secret ∧
      fresh.UserID = claims.UserID ∧ fresh.IssuedAt = some (NewNumericDate now) := by
  unfold AuthService.RefreshToken at h
  cases hval : JWTService.ValidateToken cfg now tok "refresh" with
  | error e => simp [hval] at h
  | ok claims =>
    simp only [hval] at h
    cases hstored : AuthService.validateStoredRefreshToken db now claims.UserID tok with
    | some e => simp [hstored] at h
    | none =>
      simp only [hstored] at h
      unfold AuthService.getUserByID at h
      cases hfind : db.users.find? (fun u => u.ID == claims.UserID) with
      | none => simp [hfind] at h
      | some user =>
        have hid : user.ID = claims.UserID := by
          have := List.find?_some hfind
          simpa using this
        simp only [hfind] at h
        split_ifs at h
        · simp at h
        · simp only [JWTService.GenerateAccessToken, JWTService.GenerateRefreshToken,
            AuthService.storeRefreshToken] at h
          cases storeErr with
          | some e => simp at h
          | none =>
            simp only [Prod.mk.injEq, Except.ok.injEq] at h
            obtain ⟨hdb, hresp⟩ := h
            subst hdb hresp
            exact ⟨claims, _, _, rfl, hid, rfl, hid, rfl, rfl, rfl, hid, rfl⟩

/-- `RefreshToken` fails, leaving the store as it was, when every record of the account
named by the token that carries the digest of the token is revoked. -/
theorem RefreshToken_fails_of_no_valid_record (cfg : Config) (db : DB) (now : Time)
    (revokeErr storeErr : Option String) (tok : TokenString)
    (h : ∀ claims, JWTService.ValidateToken cfg now tok "refresh" = .ok claims →
      ∀ r ∈ db.refresh_tokens, r.UserID = claims.UserID →
        r.TokenHash = AuthService.hashToken tok → r.IsRevoked = true) :
    ∃ err, AuthService.RefreshToken cfg db now revokeErr storeErr { RefreshToken := tok }
      = (db, .error err) := by
  unfold AuthService.RefreshToken
  cases hval : JWTService.ValidateToken cfg now tok "refresh" with
  | error e => exact ⟨_, rfl⟩
  | ok claims =>
    have hstored : AuthService.validateStoredRefreshToken db now claims.UserID tok
        = some "refresh token is invalid or expired" := by
      unfold AuthService.validateStoredRefreshToken
      have hnone : db.refresh_tokens.any (fun r =>
          r.UserID == claims.UserID && r.TokenHash == AuthService.hashToken tok &&
            !r.IsRevoked && decide (r.ExpiresAt > now)) = false := by
        rw [List.any_eq_false]
        intro r hr hcond
        simp only [Bool.and_eq_true, beq_iff_eq, Bool.not_eq_true'] at hcond
        have := h claims hval r hr hcond.1.1.1 hcond.1.1.2
        rw [this] at hcond
        simp at hcond
      simp [hnone]
    simp only [hstored]
    exact ⟨_, rfl⟩

/-- `VerifyOTP` writes the OTP table only. -/
theorem VerifyOTP_frame (db : DB) (now : Time) (email otpCode otpType : String) :
    (OTPService.VerifyOTP db now email otpCode otpType).1.users = db.users ∧
    (OTPService.VerifyOTP db now email otpCode otpType).1.refresh_tokens = db.refresh_tokens := by
  unfold OTPService.VerifyOTP
  split
  · exact ⟨rfl, rfl⟩
  · split_ifs <;> exact ⟨rfl, rfl⟩

/-- Truncation to the second is monotone. -/
theorem NewNumericDate_mono (a b : Time) (h : a ≤ b) : NewNumericDate a ≤ NewNumericDate b := by
  unfold NewNumericDate Second
  exact Int.mul_le_mul_of_nonneg_right (Int.ediv_le_ediv (by norm_num) h) (by norm_num)

/-- A table evolves into itself. -/
theorem tableEvolves_refl (cfg : Config) (now : Time) (l : List RefreshToken) :
    tableEvolves cfg now l l :=
  fun r hr => Or.inl ⟨r, hr, rfl, rfl, id⟩

/-- Revoking some rows is an evolution of the table. -/
theorem tableEvolves_revoke (cfg : Config) (now : Time) (l : List RefreshToken)
    (c : RefreshToken → Bool) :
    tableEvolves cfg now l (l.map (fun r => if c r then { r with IsRevoked := true } else r)) := by
  intro r hr
  simp only [List.mem_map] at hr
  obtain ⟨r0, hr0, rfl⟩ := hr
  refine Or.inl ⟨r0, hr0, ?_, ?_, ?_⟩
  · split_ifs <;> rfl
  · split_ifs <;> rfl
  · intro h
    split_ifs
    · rfl
    · exact h

/-- Appending the record of a token issued at `now` to an evolved table is an evolution. -/
theorem tableEvolves_store (cfg : Config) (now : Time) (old new : List RefreshToken)
    (row : RefreshToken) (email : String) (h : tableEvolves cfg now old new)
    (hrow : JWTService.GenerateRefreshToken cfg now row.UserID email
      = .ok row.TokenHash.preimage) :
    tableEvolves cfg now old (new ++ [row]) := by
  intro r hr
  rcases List.mem_append.mp hr with hin | hin
  · exact h r hin
  · rw [List.mem_singleton] at hin
    subst hin
    exact Or.inr ⟨email, hrow⟩

/-- `Login` evolves the refresh-token table. -/
theorem Login_tableEvolves (lib : Lib) (cfg : Config) (db : DB) (now : Time)
    (storeErr : Option String) (req : LoginRequest) :
    tableEvolves cfg now db.refresh_tokens
      (AuthService.Login lib cfg db now storeErr req).1.refresh_tokens := by
  unfold AuthService.Login
  cases hemail : ValidateEmail req.Email with
  | some e => exact tableEvolves_refl _ _ _
  | none =>
    simp only
    cases hfind : db.users.find? (fun u => u.Email == req.Email) with
    | none => exact tableEvolves_refl _ _ _
    | some row =>
      simp only
      cases hhash : row.PasswordHash with
      | none => exact tableEvolves_refl _ _ _
      | some passwordHash =>
        simp only
        split_ifs
        · exact tableEvolves_refl _ _ _
        · exact tableEvolves_refl _ _ _
        · simp only [JWTService.GenerateAccessToken, JWTService.GenerateRefreshToken,
            AuthService.storeRefreshToken]
          cases storeErr with
          | some e => exact tableEvolves_refl _ _ _
          | none =>
            simp only [LogActivity_refresh_tokens]
            refine tableEvolves_store cfg now _ _ _ row.Email (tableEvolves_refl _ _ _) ?_
            rfl

/-- `RefreshToken` evolves the refresh-token table. -/
theorem RefreshToken_tableEvolves (cfg : Config) (db : DB) (now : Time)
    (revokeErr storeErr : Option String) (req : RefreshTokenRequest) :
    tableEvolves cfg now db.refresh_tokens
      (AuthService.RefreshToken cfg db now revokeErr storeErr req).1.refresh_tokens := by
  have hrevoke : tableEvolves cfg now db.refresh_tokens
      (AuthService.revokeRefreshToken revokeErr db req.RefreshToken).1.refresh_tokens := by
    unfold AuthService.revokeRefreshToken
    cases revokeErr with
    | some e => exact tableEvolves_refl _ _ _
    | none => exact tableEvolves_revoke cfg now _ _
  unfold AuthService.RefreshToken
  cases hval : JWTService.ValidateToken cfg now req.RefreshToken "refresh" with
  | error e => exact tableEvolves_refl _ _ _
  | ok claims =>
    simp only
    cases hstored : AuthService.validateStoredRefreshToken db now claims.UserID req.RefreshToken with
    | some e => exact tableEvolves_refl _ _ _
    | none =>
      simp only
      cases huser : AuthService.getUserByID db claims.UserID with
      | error e => exact tableEvolves_refl _ _ _
      | ok user =>
        simp only
        split_ifs
        · exact tableEvolves_refl _ _ _
        · simp only [JWTService.GenerateAccessToken, JWTService.GenerateRefreshToken,
            AuthService.storeRefreshToken]
          cases storeErr with
          | some e => exact hrevoke
          | none =>
            refine tableEvolves_store cfg now _ _ _ user.Email hrevoke ?_
            rfl

/-- `ResetPassword` evolves the refresh-token table. -/
theorem ResetPassword_tableEvolves (lib : Lib) (cfg : Config) (db : DB) (now : Time)
    (revokeErr : Option String) (req : ResetPasswordRequest) :
    tableEvolves cfg now db.refresh_tokens
      (AuthService.ResetPassword lib db now revokeErr req).1.refresh_tokens := by
  unfold AuthService.ResetPassword
  cases hpw : ValidatePassword lib req.NewPassword with
  | some e => exact tableEvolves_refl _ _ _
  | none =>
    simp only
    obtain ⟨_, htokens⟩ := VerifyOTP_frame db now req.Email req.OTP OTPTypePasswordReset
    cases hv : OTPService.VerifyOTP db now req.Email req.OTP OTPTypePasswordReset with
    | mk dbv res =>
      rw [hv] at htokens
      simp only at htokens
      cases res with
      | some e => simp only [htokens]; exact tableEvolves_refl _ _ _
      | none =>
        simp only
        cases hhash : lib.HashPassword req.NewPassword with
        | error e => simp only [htokens]; exact tableEvolves_refl _ _ _
        | ok hashed =>
          simp only
          cases hfind : dbv.users.find? (fun u => u.Email == req.Email) with
          | none => simp only [htokens]; exact tableEvolves_refl _ _ _
          | some account =>
            simp only [LogActivity_refresh_tokens, AuthService.revokeAllUserRefreshTokens]
            cases revokeErr with
            | some e => simp only [htokens]; exact tableEvolves_refl _ _ _
            | none =>
              simp only
              split
              · simp only [htokens]; exact tableEvolves_refl _ _ _
              · simp only [htokens]; exact tableEvolves_revoke cfg now _ _

/-- `CompleteSignup` leaves the refresh-token table as it is. -/
theorem CompleteSignup_refresh_tokens (lib : Lib) (db : DB) (now : Time)
    (req : CompleteSignupRequest) :
    (AuthService.CompleteSignup lib db now req).1.refresh_tokens = db.refresh_tokens := by
  unfold AuthService.CompleteSignup
  cases ValidateEmail req.Email with
  | some e => rfl
  | none =>
  cases ValidatePassword lib req.Password with
  | some e => rfl
  | none =>
  cases ValidateName req.FirstName "First name" with
  | some e => rfl
  | none =>
  cases ValidateName req.LastName "Last name" with
  | some e => rfl
  | none =>
  cases (if req.Phone ≠ "" then ValidatePhone req.Phone else none) with
  | some e => rfl
  | none =>
  simp only
  generalize (if req.Phone ≠ "" then some req.Phone else none : Option String) = phone
  by_cases htaken : db.users.any (fun u => u.Email == req.Email) = true
  · rw [if_pos htaken]
  · rw [if_neg htaken]
    cases lib.HashPassword req.Password with
    | error e => rfl
    | ok hashedPassword =>
      simp only
      cases hins : AuthService.insertUser db now req.Email hashedPassword req.FirstName
          req.LastName phone with
      | error e => rfl
      | ok pair =>
        obtain ⟨db1, user⟩ := pair
        simp only [LogActivity_refresh_tokens]
        rw [(insertUser_ok db db1 now _ _ _ _ _ user hins).1]

/-- Every call evolves the refresh-token table. -/
theorem Call_run_tableEvolves (lib : Lib) (cfg : Config) (db : DB) (now : Time)
    (call : AuthService.Call) :
    tableEvolves cfg now db.refresh_tokens (call.run lib cfg db now).refresh_tokens := by
  cases call with
  | completeSignup req =>
    simp only [AuthService.Call.run, CompleteSignup_refresh_tokens]
    exact tableEvolves_refl _ _ _
  | login storeErr req => exact Login_tableEvolves lib cfg db now storeErr req
  | refreshToken revokeErr storeErr req =>
    exact RefreshToken_tableEvolves cfg db now revokeErr storeErr req
  | resetPassword revokeErr req => exact ResetPassword_tableEvolves lib cfg db now revokeErr req
  | sendOTP draw emailErr email otpType =>
    have h : (OTPService.SendOTP cfg db now draw emailErr email otpType).1.refresh_tokens
        = db.refresh_tokens := by
      exact (SendOTP_frame cfg db now draw emailErr email otpType).2.1
    simp only [AuthService.Call.run, h]
    exact tableEvolves_refl _ _ _
  | verifyOTP email otpCode otpType =>
    simp only [AuthService.Call.run, (VerifyOTP_frame db now email otpCode otpType).2]
    exact tableEvolves_refl _ _ _
  | resendOTP draw emailErr email otpType =>
    have h : (OTPService.ResendOTP cfg db now draw emailErr email otpType).1.refresh_tokens
        = db.refresh_tokens := by
      unfold OTPService.ResendOTP
      exact (SendOTP_frame cfg _ now draw emailErr email otpType).2.1
    simp only [AuthService.Call.run, h]
    exact tableEvolves_refl _ _ _

/-- The records of account `userID` carrying the digest of `tok` stay revoked when the
table evolves at an instant at which `GenerateRefreshToken` cannot issue `tok` for the
account. -/
theorem revoked_digest_preserved (cfg : Config) (now : Time) (tok : TokenString) (userID : Int)
    (old new : List RefreshToken) (hev : tableEvolves cfg now old new)
    (hissue : ∀ email, JWTService.GenerateRefreshToken cfg now userID email ≠ .ok tok)
    (hold : ∀ r ∈ old, r.UserID = userID → r.TokenHash = AuthService.hashToken tok →
      r.IsRevoked = true) :
    ∀ r ∈ new, r.UserID = userID → r.TokenHash = AuthService.hashToken tok →
      r.IsRevoked = true := by
  intro r hr huser hdigest
  rcases hev r hr with ⟨r0, hr0, hsameUser, hsame, hrev⟩ | ⟨email, hgen⟩
  · exact hrev (hold r0 hr0 (by rw [← hsameUser]; exact huser) (by rw [← hsame]; exact hdigest))
  · exfalso
    apply hissue email
    rw [← huser, hgen, hdigest]
    rfl

/-- The records of account `userID` carrying the digest of `tok` stay revoked through a
sequence of calls none of which is made at an instant at which `tok` can be issued for
the account. -/
theorem runCalls_revoked_digest (lib : Lib) (cfg : Config) (tok : TokenString) (userID : Int) :
    ∀ (calls : List (Time × AuthService.Call)) (db : DB),
      (∀ c ∈ calls, ∀ email,
        JWTService.GenerateRefreshToken cfg c.1 userID email ≠ .ok tok) →
      (∀ r ∈ db.refresh_tokens, r.UserID = userID →
        r.TokenHash = AuthService.hashToken tok → r.IsRevoked = true) →
      ∀ r ∈ (AuthService.runCalls lib cfg db calls).refresh_tokens, r.UserID = userID →
        r.TokenHash = AuthService.hashToken tok → r.IsRevoked = true := by
  intro calls
  induction calls with
  | nil => intro db _ h; exact h
  | cons c rest ih =>
    intro db hissue hold
    obtain ⟨now, call⟩ := c
    simp only [AuthService.runCalls]
    apply ih
    · exact fun c hc => hissue c (List.mem_cons_of_mem _ hc)
    · exact revoked_digest_preserved cfg now tok userID _ _
        (Call_run_tableEvolves lib cfg db now call)
        (hissue (now, call) (List.mem_cons_self _ _)) hold

/-- A token issued in an earlier clock second than `now` cannot be issued again at `now`
or later. -/
theorem GenerateRefreshToken_ne_of_earlier (cfg : Config) (now : Time) (tok : TokenString)
    (hearlier : ∀ method claims key, tok = .signed method claims key →
      ∃ iat, claims.IssuedAt = some iat ∧ iat < NewNumericDate now) :
    ∀ t : Time, now ≤ t → ∀ userID email,
      JWTService.GenerateRefreshToken cfg t userID email ≠ .ok tok := by
  intro t ht userID email hgen
  simp only [JWTService.GenerateRefreshToken, Except.ok.injEq] at hgen
  obtain ⟨iat, hiat, hlt⟩ := hearlier _ _ _ hgen.symm
  simp only [Option.some.injEq] at hiat
  have := NewNumericDate_mono now t ht
  rw [hiat] at this
  exact absurd hlt (not_lt.mpr this)

/-- C2 (amended): a rotated-out refresh token does not validate again.  Let `RefreshToken`
succeed with token `tok` at instant `now`, its revoke statement having executed, where
`tok` was issued in an earlier clock second than `now`.  Then after any sequence of
further calls of the service made at `now` or later (signup, login, refresh, password
reset and OTP calls, whatever the outcomes of their statements), every `RefreshToken`
call presenting `tok`, at whatever instant, fails and leaves the store as it is, so it
issues no new tokens. -/
theorem rotated_out_token_rejected (lib : Lib) (cfg : Config) (db db1 : DB) (now : Time)
    (storeErr : Option String) (tok : TokenString) (resp : AuthResponse)
    (calls : List (Time × AuthService.Call)) (later : Time)
    (revokeErr2 storeErr2 : Option String)
    (hok : AuthService.RefreshToken cfg db now none storeErr { RefreshToken := tok }
      = (db1, .ok resp))
    (hearlier : ∀ method claims key, tok = .signed method claims key →
      ∃ iat, claims.IssuedAt = some iat ∧ iat < NewNumericDate now)
    (hlater : ∀ c ∈ calls, now ≤ c.1) :
    ∃ err, AuthService.RefreshToken cfg (AuthService.runCalls lib cfg db1 calls) later
      revokeErr2 storeErr2 { RefreshToken := tok }
        = (AuthService.runCalls lib cfg db1 calls, .error err) := by
  have hissue := GenerateRefreshToken_ne_of_earlier cfg now tok hearlier
  obtain ⟨claims, row, fresh, _, _, htable, _, _, hhash, hfresh, _, hfreshIat⟩ :=
    RefreshToken_ok cfg db db1 now none storeErr tok resp hok
  have hstart : ∀ r ∈ db1.refresh_tokens, r.TokenHash = AuthService.hashToken tok →
      r.IsRevoked = true := by
    intro r hr hdigest
    rw [htable] at hr
    simp only [AuthService.revokeRefreshToken, List.mem_append, List.mem_map,
      List.mem_singleton] at hr
    rcases hr with ⟨r0, _, rfl⟩ | rfl
    · by_cases hr0 : r0.TokenHash = AuthService.hashToken tok
      · simp [hr0]
      · simp [hr0] at hdigest
    · exfalso
      rw [hhash] at hdigest
      have heq : resp.RefreshToken = tok := by
        simpa [AuthService.hashToken] using hdigest
      rw [hfresh] at heq
      obtain ⟨iat, hiat, hlt⟩ := hearlier _ _ _ heq.symm
      rw [hfreshIat, Option.some.injEq] at hiat
      rw [hiat] at hlt
      exact lt_irrefl _ hlt
  apply RefreshToken_fails_of_no_valid_record
  intro claims1 _ r hr huser hdigest
  exact runCalls_revoked_digest lib cfg tok claims1.UserID calls db1
    (fun c hc email => hissue c.1 (hlater c hc) _ email)
    (fun r hr _ hd => hstart r hr hd) r hr huser hdigest

/-- Counterexample to C2 as stated.  The login token is refreshed half a second after it
was issued, in the same clock second: the replacement is the same string, its new record
is unrevoked, and presenting the rotated-out token a second later succeeds again.  And
when the revoke statement of a refresh fails (a minute after the login), the refresh
still succeeds and the old token validates once more afterwards. -/
theorem rotated_out_token_validates_again :
    annLogin.2.map (fun resp => resp.RefreshToken) = .ok annToken ∧
    (AuthService.RefreshToken exampleConfig annLogin.1 1700000100700000000 none none
      { RefreshToken := annToken }).2.map (fun resp => resp.RefreshToken) = .ok annToken ∧
    (AuthService.RefreshToken exampleConfig
      (AuthService.RefreshToken exampleConfig annLogin.1 1700000100700000000 none none
        { RefreshToken := annToken }).1
      1700000101700000000 none none { RefreshToken := annToken }).2.toBool = true ∧
    (AuthService.RefreshToken exampleConfig annLogin.1 1700000160000000000
      (some "context deadline exceeded") none { RefreshToken := annToken }).2.toBool = true ∧
    (AuthService.RefreshToken exampleConfig
      (AuthService.RefreshToken exampleConfig annLogin.1 1700000160000000000
        (some "context deadline exceeded") none { RefreshToken := annToken }).1
      1700000161000000000 none none { RefreshToken := annToken }).2.toBool = true := by
  refine ⟨?_, ?_, ?_, ?_, ?_⟩ <;> decide

/-- Witness for C2 (amended): the login token is refreshed a minute after it was issued;
the account then logs in again and refreshes the replacement token; the rotated-out
token, presented afterwards, is rejected. -/
theorem rotated_out_token_rejected_witness :
    ∃ resp err,
      AuthService.RefreshToken exampleConfig annLogin.1 1700000160000000000 none none
        { RefreshToken := annToken } = (annRefresh.1, .ok resp) ∧
      (∀ method claims key, annToken = .signed method claims key →
        ∃ iat, claims.IssuedAt = some iat ∧ iat < NewNumericDate 1700000160000000000) ∧
      AuthService.RefreshToken exampleConfig
        (AuthService.runCalls exampleLib exampleConfig annRefresh.1
          [(1700000200000000000, .login none { Email := "a@x.com", Password := "Abcdef1!" }),
           (1700000220000000000, .refreshToken none none { RefreshToken := resp.RefreshToken })])
        1700000300000000000 none none { RefreshToken := annToken }
        = (AuthService.runCalls exampleLib exampleConfig annRefresh.1
          [(1700000200000000000, .login none { Email := "a@x.com", Password := "Abcdef1!" }),
           (1700000220000000000, .refreshToken none none { RefreshToken := resp.RefreshToken })],
          .error err) := by
  have hearlier : ∀ method claims key, annToken = .signed method claims key →
      ∃ iat, claims.IssuedAt = some iat ∧ iat < NewNumericDate 1700000160000000000 := by
    intro method claims key h
    cases h
    exact ⟨1700000100000000000, rfl, by decide⟩
  have hok : ∃ resp, AuthService.RefreshToken exampleConfig annLogin.1 1700000160000000000
      none none { RefreshToken := annToken } = (annRefresh.1, .ok resp) := ⟨_, rfl⟩
  obtain ⟨resp, hok⟩ := hok
  obtain ⟨err, herr⟩ := rotated_out_token_rejected exampleLib exampleConfig annLogin.1
    annRefresh.1 1700000160000000000 none annToken resp
    [(1700000200000000000, .login none { Email := "a@x.com", Password := "Abcdef1!" }),
     (1700000220000000000, .refreshToken none none { RefreshToken := resp.RefreshToken })]
    1700000300000000000 none none hok hearlier
    (by intro c hc; simp at hc; rcases hc with rfl | rfl <;> simp)
  exact ⟨resp, err, hok, hearlier, herr⟩

/-- One successful `RefreshToken` whose revoke statement executed takes a rotation state
to a rotation state of the same account, for the token it returns. -/
theorem rotationState_step (cfg : Config) (db db1 : DB) (now : Time) (storeErr : Option String)
    (tok : TokenString) (resp : AuthResponse) (userID : Int)
    (hstate : rotationState db tok userID)
    (hok : AuthService.RefreshToken cfg db now none storeErr { RefreshToken := tok }
      = (db1, .ok resp)) :
    rotationState db1 resp.RefreshToken userID := by
  obtain ⟨earlier, last, htable, hlastUser, _, hlastHash, hearlier, method, claims, key, htok,
    hclaims⟩ := hstate
  obtain ⟨claims1, row, fresh, hval, _, htable1, hrowUser, hrowRev, hrowHash, hfresh, hfreshUser,
    _⟩ := RefreshToken_ok cfg db db1 now none storeErr tok resp hok
  obtain ⟨method1, key1, htok1⟩ := ValidateToken_ok_signed cfg now tok "refresh" claims1 hval
  have hsame : claims1 = claims := by
    rw [htok] at htok1
    injection htok1 with _ hc _
    exact hc.symm
  have huser : claims1.UserID = userID := by rw [hsame]; exact hclaims
  refine ⟨_, row, htable1, by rw [hrowUser, huser], hrowRev, hrowHash, ?_,
    ⟨_, fresh, _, hfresh, by rw [hfreshUser, huser]⟩⟩
  intro r hr hrUser
  simp only [AuthService.revokeRefreshToken, List.mem_map] at hr
  obtain ⟨r0, hr0, rfl⟩ := hr
  rw [htable] at hr0
  by_cases hdig : r0.TokenHash = AuthService.hashToken tok
  · simp [hdig]
  · simp only [beq_iff_eq, hdig, if_false] at hrUser ⊢
    rcases List.mem_append.mp hr0 with hin | hin
    · exact hearlier r0 hin hrUser
    · rw [List.mem_singleton] at hin
      rw [hin] at hdig
      exact absurd hlastHash hdig

/-- A chain of successful refreshes whose revoke statements all executed preserves the
rotation state. -/
theorem rotationState_chain (cfg : Config) (userID : Int) :
    ∀ (steps : List (Time × Option String × Option String)) (db : DB) (tok : TokenString)
      (db1 : DB) (tok1 : TokenString),
      (∀ s ∈ steps, s.2.1 = none) → rotationState db tok userID →
      AuthService.refreshChain cfg db tok steps = some (db1, tok1) →
      rotationState db1 tok1 userID := by
  intro steps
  induction steps with
  | nil =>
    intro db tok db1 tok1 _ hstate hchain
    simp only [AuthService.refreshChain, Option.some.injEq, Prod.mk.injEq] at hchain
    obtain ⟨rfl, rfl⟩ := hchain
    exact hstate
  | cons step rest ih =>
    intro db tok db1 tok1 hrev hstate hchain
    obtain ⟨now, revokeErr, storeErr⟩ := step
    have hnone : revokeErr = none := hrev (now, revokeErr, storeErr) (List.mem_cons_self _ _)
    subst hnone
    simp only [AuthService.refreshChain] at hchain
    cases hcall : AuthService.RefreshToken cfg db now none storeErr { RefreshToken := tok } with
    | mk db2 res =>
      rw [hcall] at hchain
      cases res with
      | error e => simp at hchain
      | ok resp =>
        simp only at hchain
        exact ih db2 resp.RefreshToken db1 tok1
          (fun s hs => hrev s (List.mem_cons_of_mem _ hs))
          (rotationState_step cfg db db2 now storeErr tok resp userID hstate hcall) hchain

/-- C1 (amended): refresh rotation keeps exactly one valid record.  Start from a
successful `Login` on an account none of whose refresh-token records was unrevoked
before it.  After any number of sequential successful `RefreshToken` calls, each
presenting the refresh token the previous call returned and each with its revoke
statement executing, the newest record of the table is the record of the latest token,
belongs to the account and is unrevoked, every earlier record of the account is revoked,
and so exactly one record of the account is unrevoked. -/
theorem refresh_rotation_single_valid_record (lib : Lib) (cfg : Config) (db0 db1 db2 : DB)
    (t0 : Time) (storeErr0 : Option String) (req : LoginRequest) (resp : AuthResponse)
    (steps : List (Time × Option String × Option String)) (tok : TokenString)
    (hlogin : AuthService.Login lib cfg db0 t0 storeErr0 req = (db1, .ok resp))
    (hclean : ∀ r ∈ db0.refresh_tokens, r.UserID = resp.User.ID → r.IsRevoked = true)
    (hrevoke : ∀ s ∈ steps, s.2.1 = none)
    (hchain : AuthService.refreshChain cfg db1 resp.RefreshToken steps = some (db2, tok)) :
    ∃ earlier last,
      db2.refresh_tokens = earlier ++ [last] ∧ last.UserID = resp.User.ID ∧
      last.IsRevoked = false ∧ last.TokenHash = AuthService.hashToken tok ∧
      (∀ r ∈ earlier, r.UserID = resp.User.ID → r.IsRevoked = true) ∧
      unrevokedOf db2 resp.User.ID = [last] := by
  obtain ⟨row, claims, htable, hrowUser, hrowRev, hrowHash, htoken, hclaims⟩ :=
    Login_ok_refresh_tokens lib cfg db0 db1 t0 storeErr0 req resp hlogin
  have hstart : rotationState db1 resp.RefreshToken resp.User.ID :=
    ⟨_, row, htable, hrowUser, hrowRev, hrowHash, hclean, _, claims, _, htoken, hclaims⟩
  obtain ⟨earlier, last, h1, h2, h3, h4, h5, _⟩ :=
    rotationState_chain cfg resp.User.ID steps db1 resp.RefreshToken db2 tok hrevoke hstart hchain
  refine ⟨earlier, last, h1, h2, h3, h4, h5, ?_⟩
  unfold unrevokedOf
  rw [h1, List.filter_append]
  have hnone : earlier.filter (fun r => r.UserID == resp.User.ID && !r.IsRevoked) = [] := by
    rw [List.filter_eq_nil_iff]
    intro r hr hcond
    simp only [Bool.and_eq_true, beq_iff_eq, Bool.not_eq_true'] at hcond
    have := h5 r hr hcond.1
    rw [this] at hcond
    simp at hcond
  rw [hnone]
  simp [h2, h3]

/-- Counterexample to C1 as stated.  The account holds an open session, logs in again
and refreshes the new token once: two records of the account are unrevoked, the one of
the older session and the one of the latest token.  And after a login on a fresh account
followed by one successful refresh whose revoke statement failed, two records of the
account are unrevoked as well. -/
theorem refresh_rotation_leaves_two_valid_records :
    (annSecondLogin.2.toOption.bind (fun resp =>
      (AuthService.refreshChain exampleConfig annSecondLogin.1 resp.RefreshToken
        [(1700000300000000000, none, none)]).map
        (fun run => (unrevokedOf run.1 resp.User.ID).length))) = some 2 ∧
    (annLogin.2.toOption.bind (fun resp =>
      (AuthService.refreshChain exampleConfig annLogin.1 resp.RefreshToken
        [(1700000160000000000, some "context deadline exceeded", none)]).map
        (fun run => (unrevokedOf run.1 resp.User.ID).length))) = some 2 := by
  constructor <;> decide

/-- Witness for C1 (amended): a login on an account without refresh-token records,
followed by two refreshes a minute apart. -/
theorem refresh_rotation_single_valid_record_witness :
    ∃ resp db2 tok earlier last,
      AuthService.Login exampleLib exampleConfig annOnlyDB 1700000100200000000 none
        { Email := "a@x.com", Password := "Abcdef1!" } = (annLogin.1, .ok resp) ∧
      (∀ r ∈ annOnlyDB.refresh_tokens, r.UserID = resp.User.ID → r.IsRevoked = true) ∧
      AuthService.refreshChain exampleConfig annLogin.1 resp.RefreshToken
        [(1700000160000000000, none, none), (1700000220000000000, none, none)]
        = some (db2, tok) ∧
      db2.refresh_tokens = earlier ++ [last] ∧ last.UserID = resp.User.ID ∧
      last.IsRevoked = false ∧ last.TokenHash = AuthService.hashToken tok ∧
      (∀ r ∈ earlier, r.UserID = resp.User.ID → r.IsRevoked = true) ∧
      unrevokedOf db2 resp.User.ID = [last] := by
  have hlogin : ∃ resp, AuthService.Login exampleLib exampleConfig annOnlyDB
      1700000100200000000 none { Email := "a@x.com", Password := "Abcdef1!" }
      = (annLogin.1, .ok resp) := ⟨_, rfl⟩
  obtain ⟨resp, hlogin⟩ := hlogin
  have hclean : ∀ r ∈ annOnlyDB.refresh_tokens, r.UserID = resp.User.ID → r.IsRevoked = true := by
    intro r hr
    simp [annOnlyDB, emptyDB] at hr
  have hresp : resp.RefreshToken = annToken := by
    have h2 : annLogin.2.map (fun r => r.RefreshToken) = .ok annToken := by decide
    simp only [annLogin] at h2
    rw [hlogin] at h2
    simpa [Except.map] using h2
  have hchain : ∃ db2 tok, AuthService.refreshChain exampleConfig annLogin.1 resp.RefreshToken
      [(1700000160000000000, none, none), (1700000220000000000, none, none)]
      = some (db2, tok) := by
    rw [hresp]
    exact ⟨_, _, rfl⟩
  obtain ⟨db2, tok, hchain⟩ := hchain
  obtain ⟨earlier, last, h⟩ := refresh_rotation_single_valid_record exampleLib exampleConfig
    annOnlyDB annLogin.1 db2 1700000100200000000 none
    { Email := "a@x.com", Password := "Abcdef1!" } resp
    [(1700000160000000000, none, none), (1700000220000000000, none, none)] tok hlogin hclean
    (by intro s hs; simp at hs; rcases hs with rfl | rfl <;> rfl) hchain
  exact ⟨resp, db2, tok, earlier, last, hlogin, hclean, hchain, h⟩

/-- C6 (amended): password reset revokes all sessions when its revoke statement executes.
Whenever `ResetPassword` returns success and the revoke-all statement did not fail, every
refresh-token record of the account with the request's e-mail address is revoked in the
resulting store; every `RefreshToken` call on that store presenting a token issued for
the account fails and leaves the store as it is; and a token issued for the account in an
earlier clock second than the reset keeps failing after any further calls of the service
made at the instant of the reset or later. -/
theorem reset_password_revokes_all_sessions (lib : Lib) (db db1 : DB) (now : Time)
    (req : ResetPasswordRequest)
    (hok : AuthService.ResetPassword lib db now none req = (db1, none)) :
    ∃ account, db.users.find? (fun u => u.Email == req.Email) = some account ∧
      (∀ r ∈ db1.refresh_tokens, r.UserID = account.ID → r.IsRevoked = true) ∧
      (∀ (cfg : Config) (later : Time) (revokeErr storeErr : Option String)
        (method : SigningMethod) (claims : JWTClaims) (key : String),
        claims.UserID = account.ID →
        ∃ err, AuthService.RefreshToken cfg db1 later revokeErr storeErr
          { RefreshToken := .signed method claims key } = (db1, .error err)) ∧
      (∀ (cfg : Config) (calls : List (Time × AuthService.Call)) (later : Time)
        (revokeErr storeErr : Option String) (method : SigningMethod) (claims : JWTClaims)
        (key : String) (iat : Time),
        claims.UserID = account.ID → claims.IssuedAt = some iat → iat < NewNumericDate now →
        (∀ c ∈ calls, now ≤ c.1) →
        ∃ err, AuthService.RefreshToken cfg (AuthService.runCalls lib cfg db1 calls) later
          revokeErr storeErr { RefreshToken := .signed method claims key }
            = (AuthService.runCalls lib cfg db1 calls, .error err)) := by
  unfold AuthService.ResetPassword at hok
  cases hpw : ValidatePassword lib req.NewPassword with
  | some e => simp [hpw] at hok
  | none =>
    simp only [hpw] at hok
    obtain ⟨husers, htokens⟩ := VerifyOTP_frame db now req.Email req.OTP OTPTypePasswordReset
    cases hv : OTPService.VerifyOTP db now req.Email req.OTP OTPTypePasswordReset with
    | mk dbv res =>
      rw [hv] at hok husers htokens
      simp only at husers htokens
      cases res with
      | some e => simp at hok
      | none =>
        simp only at hok
        cases hhash : lib.HashPassword req.NewPassword with
        | error e => simp [hhash] at hok
        | ok hashed =>
          simp only [hhash] at hok
          cases hfind : dbv.users.find? (fun u => u.Email == req.Email) with
          | none => simp [hfind] at hok
          | some account =>
            have hfind2 : (dbv.users.map (fun u =>
                if u.Email == req.Email then
                  { u with PasswordHash := some hashed, UpdatedAt := now }
                else u)).find? (fun u => u.Email == req.Email)
                = some { account with PasswordHash := some hashed, UpdatedAt := now } := by
              rw [List.find?_map]
              have hcomp : ((fun u : User => u.Email == req.Email) ∘ (fun u : User =>
                  if u.Email == req.Email then
                    { u with PasswordHash := some hashed, UpdatedAt := now }
                  else u)) = (fun u : User => u.Email == req.Email) := by
                funext u
                simp only [Function.comp]
                split_ifs <;> rfl
              rw [hcomp, hfind]
              have hacc := List.find?_some hfind
              simp only [Option.map_some', hacc, if_true]
            simp only [hfind, AuthService.revokeAllUserRefreshTokens, hfind2, Prod.mk.injEq,
              and_true] at hok
            have hrev : ∀ r ∈ db1.refresh_tokens, r.UserID = account.ID → r.IsRevoked = true := by
              intro r hr hruser
              rw [← hok, LogActivity_refresh_tokens] at hr
              simp only [List.mem_map] at hr
              obtain ⟨r0, _, rfl⟩ := hr
              by_cases hid : r0.UserID = account.ID
              · simp [hid]
              · simp [hid] at hruser
            refine ⟨account, by rw [← husers]; exact hfind, hrev, ?_, ?_⟩
            · intro cfg later revokeErr storeErr method claims key hclaims
              apply RefreshToken_fails_of_no_valid_record
              intro claims1 hval r hr hruser _
              obtain ⟨m1, k1, h1⟩ := ValidateToken_ok_signed cfg later _ "refresh" claims1 hval
              injection h1 with _ hc _
              rw [← hc, hclaims] at hruser
              exact hrev r hr hruser
            · intro cfg calls later revokeErr storeErr method claims key iat hclaims hiat hlt
                hlater
              have hissue := GenerateRefreshToken_ne_of_earlier cfg now
                (.signed method claims key) (by
                  intro m c k h
                  injection h with _ hc _
                  exact ⟨iat, by rw [← hc]; exact hiat, hlt⟩)
              apply RefreshToken_fails_of_no_valid_record
              intro claims1 hval r hr hruser hdigest
              obtain ⟨m1, k1, h1⟩ := ValidateToken_ok_signed cfg later _ "refresh" claims1 hval
              injection h1 with _ hc _
              rw [← hc, hclaims] at hruser
              exact runCalls_revoked_digest lib cfg _ account.ID calls db1
                (fun c hc email => hissue c.1 (hlater c hc) _ email)
                (fun r hr hu _ => hrev r hr hu) r hr hruser hdigest

/-- Counterexample to C6 as stated.  When the revoke-all statement fails, `ResetPassword`
still returns success, the record of the session stays unrevoked, and the refresh token
issued before the reset is accepted by `RefreshToken` afterwards.  And when login, reset
(its revoke executing) and a new login all fall into one clock second, the second login
issues the string of the first token again, so the token issued before the reset is
accepted after it. -/
theorem reset_password_may_leave_sessions_valid :
    ((AuthService.ResetPassword exampleLib resetPendingDB 1700000260000000000
      (some "context deadline exceeded")
      { Email := "a@x.com", OTP := "123456", NewPassword := "Zyxwvu9?" }).2 = none ∧
    (unrevokedOf (AuthService.ResetPassword exampleLib resetPendingDB 1700000260000000000
      (some "context deadline exceeded")
      { Email := "a@x.com", OTP := "123456", NewPassword := "Zyxwvu9?" }).1 1).length = 1 ∧
    (AuthService.RefreshToken exampleConfig
      (AuthService.ResetPassword exampleLib resetPendingDB 1700000260000000000
        (some "context deadline exceeded")
        { Email := "a@x.com", OTP := "123456", NewPassword := "Zyxwvu9?" }).1
      1700000300000000000 none none { RefreshToken := annToken }).2.toBool = true) ∧
    ((AuthService.ResetPassword exampleLib quickResetPendingDB 1700000100500000000 none
      { Email := "a@x.com", OTP := "123456", NewPassword := "Zyxwvu9?" }).2 = none ∧
    (AuthService.RefreshToken exampleConfig
      (AuthService.runCalls exampleLib exampleConfig
        (AuthService.ResetPassword exampleLib quickResetPendingDB 1700000100500000000 none
          { Email := "a@x.com", OTP := "123456", NewPassword := "Zyxwvu9?" }).1
        [(1700000100800000000, .login none { Email := "a@x.com", Password := "Zyxwvu9?" })])
      1700000101200000000 none none { RefreshToken := annToken }).2.toBool = true) := by
  refine ⟨⟨?_, ?_, ?_⟩, ?_, ?_⟩ <;> decide

/-- Witness for C6 (amended): the reset of `annReset`, after which the session token of
`annLogin` is rejected, also once the account has logged in with the new password. -/
theorem reset_password_revokes_all_sessions_witness :
    AuthService.ResetPassword exampleLib resetPendingDB 1700000260000000000 none
      { Email := "a@x.com", OTP := "123456", NewPassword := "Zyxwvu9?" } = (annReset.1, none) ∧
    (unrevokedOf resetPendingDB 1).length = 1 ∧
    ∃ account, resetPendingDB.users.find? (fun u => u.Email == "a@x.com") = some account ∧
      account.ID = 1 ∧
      (∀ r ∈ annReset.1.refresh_tokens, r.UserID = account.ID → r.IsRevoked = true) ∧
      (∃ err, AuthService.RefreshToken exampleConfig annReset.1 1700000300000000000 none none
        { RefreshToken := annToken } = (annReset.1, .error err)) ∧
      (∃ err, AuthService.RefreshToken exampleConfig
        (AuthService.runCalls exampleLib exampleConfig annReset.1
          [(1700000280000000000, .login none { Email := "a@x.com", Password := "Zyxwvu9?" })])
        1700000300000000000 none none { RefreshToken := annToken }
        = (AuthService.runCalls exampleLib exampleConfig annReset.1
          [(1700000280000000000, .login none { Email := "a@x.com", Password := "Zyxwvu9?" })],
          .error err)) := by
  have hok : AuthService.ResetPassword exampleLib resetPendingDB 1700000260000000000 none
      { Email := "a@x.com", OTP := "123456", NewPassword := "Zyxwvu9?" } = (annReset.1, none) := by
    decide
  obtain ⟨account, hfind, hrev, hfail, hlater⟩ := reset_password_revokes_all_sessions exampleLib
    resetPendingDB annReset.1 1700000260000000000
    { Email := "a@x.com", OTP := "123456", NewPassword := "Zyxwvu9?" } hok
  have hid : account.ID = 1 := by
    have h2 : (resetPendingDB.users.find? (fun u => u.Email == "a@x.com")).map (fun u => u.ID)
        = some 1 := by decide
    rw [hfind] at h2
    simpa using h2
  exact ⟨hok, by decide, account, hfind, hid, hrev,
    hfail exampleConfig 1700000300000000000 none none _ _ _ (by rw [hid]),
    hlater exampleConfig _ 1700000300000000000 none none _ _ _ 1700000100000000000
      (by rw [hid]) rfl (by decide) (by intro c hc; simp at hc; subst hc; simp)⟩

/-! ## Properties of code verification and forgotten passwords -/

/-- The row `latestOTP` returns was created no earlier than any of the rows given. -/
theorem latestOTP_max : ∀ (l : List OTP) (o : OTP), latestOTP l = some o →
    ∀ x ∈ l, x.CreatedAt ≤ o.CreatedAt := by
  intro l
  induction l with
  | nil => intro o _ x hx; simp at hx
  | cons a rest ih =>
    intro o h x hx
    simp only [latestOTP] at h
    cases hrest : latestOTP rest with
    | none =>
      rw [hrest] at h
      simp only [Option.some.injEq] at h
      have hnil := (latestOTP_eq_none rest).1 hrest
      subst hnil
      simp only [List.mem_singleton] at hx
      rw [hx, h]
    | some best =>
      rw [hrest] at h
      simp only at h
      have hbest := ih best hrest
      rcases List.mem_cons.1 hx with hxa | hxr
      · subst hxa
        split_ifs at h with hlt
        · simp only [Option.some.injEq] at h
          subst h
          exact le_of_lt hlt
        · simp only [Option.some.injEq] at h
          rw [h]
      · split_ifs at h with hlt
        · simp only [Option.some.injEq] at h
          subst h
          exact hbest x hxr
        · simp only [Option.some.injEq] at h
          subst h
          exact le_trans (hbest x hxr) (not_lt.1 hlt)

/-- `VerifyOTP` succeeds exactly when the latest unused matching row is not past its
expiry. -/
theorem VerifyOTP_ok_iff (db : DB) (now : Time) (email otpCode otpType : String) :
    (OTPService.VerifyOTP db now email otpCode otpType).2 = none ↔
      ∃ otp, latestOTP (otpCandidates db email otpCode otpType) = some otp ∧
        ¬ now > otp.ExpiresAt := by
  unfold OTPService.VerifyOTP otpCandidates
  cases h : latestOTP (db.otps.filter (fun o =>
      o.Email == email && o.OTPCode == otpCode && o.OTPType == otpType && !o.IsUsed)) with
  | none => simp
  | some otp =>
    simp only [Option.some.injEq, exists_eq_left']
    split_ifs with hexp
    · simp [hexp]
    · simp [hexp]

/-- C15 (amended): `VerifyOTP` looks at one row only, the most recently created unused row
with the e-mail address, code and purpose given.  It succeeds exactly when that row is not
past its expiry, and then marks the rows carrying the id of that row used.  On a store in
which a later-created unused matching row never expires before an earlier-created one
(every store written under one code lifetime), this is the same as: it succeeds exactly
when some unused matching row is not past its expiry. -/
theorem verify_otp_selects_latest_unused (db : DB) (now : Time) (email otpCode otpType : String) :
    ((OTPService.VerifyOTP db now email otpCode otpType).2 = none ↔
      ∃ otp, latestOTP (otpCandidates db email otpCode otpType) = some otp ∧
        ¬ now > otp.ExpiresAt) ∧
    (∀ otp, latestOTP (otpCandidates db email otpCode otpType) = some otp →
      otp ∈ db.otps ∧ otp.Email = email ∧ otp.OTPCode = otpCode ∧ otp.OTPType = otpType ∧
      otp.IsUsed = false ∧
      (∀ o ∈ otpCandidates db email otpCode otpType, o.CreatedAt ≤ otp.CreatedAt) ∧
      ((OTPService.VerifyOTP db now email otpCode otpType).2 = none →
        (OTPService.VerifyOTP db now email otpCode otpType).1 =
          { db with otps := db.otps.map (fun o =>
              if o.ID == otp.ID then { o with IsUsed := true } else o) })) ∧
    ((∀ o1 ∈ otpCandidates db email otpCode otpType,
        ∀ o2 ∈ otpCandidates db email otpCode otpType,
          o1.CreatedAt ≤ o2.CreatedAt → o1.ExpiresAt ≤ o2.ExpiresAt) →
      ((OTPService.VerifyOTP db now email otpCode otpType).2 = none ↔
        ∃ o ∈ otpCandidates db email otpCode otpType, ¬ now > o.ExpiresAt)) := by
  refine ⟨VerifyOTP_ok_iff db now email otpCode otpType, ?_, ?_⟩
  · intro otp hlatest
    have hmem := latestOTP_mem _ _ hlatest
    have hmax := latestOTP_max _ _ hlatest
    have hmem2 := hmem
    unfold otpCandidates at hmem2
    simp only [List.mem_filter, Bool.and_eq_true, beq_iff_eq, Bool.not_eq_true',
      Bool.not_eq_eq_eq_not, Bool.not_true] at hmem2
    refine ⟨hmem2.1, hmem2.2.1.1.1, hmem2.2.1.1.2, hmem2.2.1.2, hmem2.2.2, hmax, ?_⟩
    intro hok
    unfold otpCandidates at hlatest
    unfold OTPService.VerifyOTP at hok ⊢
    simp only [hlatest] at hok ⊢
    split_ifs at hok ⊢ with hexp
    rfl
  · intro hmono
    rw [VerifyOTP_ok_iff]
    constructor
    · rintro ⟨otp, hlatest, hexp⟩
      exact ⟨otp, latestOTP_mem _ _ hlatest, hexp⟩
    · rintro ⟨o, ho, hexp⟩
      cases hlatest : latestOTP (otpCandidates db email otpCode otpType) with
      | none =>
        rw [(latestOTP_eq_none _).1 hlatest] at ho
        simp at ho
      | some otp =>
        refine ⟨otp, rfl, ?_⟩
        have h1 := hmono o ho otp (latestOTP_mem _ _ hlatest) (latestOTP_max _ _ hlatest o ho)
        intro hgt
        exact hexp (lt_of_le_of_lt h1 hgt)

/-- C15 (counterexample): five minutes after the first of the two challenges of
`mixedExpiryDB` was sent, the store holds an unused, unexpired row for the code (the
first, valid for an hour), yet `VerifyOTP` fails: it looks at the later row only, which
expired after a minute. -/
theorem verify_otp_ignores_older_unexpired_row :
    (∃ o ∈ mixedExpiryDB.otps, o.Email = "a@x.com" ∧ o.OTPCode = "123456" ∧
      o.OTPType = OTPTypeLogin ∧ o.IsUsed = false ∧ ¬ 1700000300000000000 > o.ExpiresAt) ∧
    OTPService.VerifyOTP mixedExpiryDB 1700000300000000000 "a@x.com" "123456" OTPTypeLogin
      = (mixedExpiryDB, some "OTP has expired") := by
  decide

/-- C15 (witness): on `twoEqualCodesDB`, whose two rows were written under one code
lifetime, `VerifyOTP` succeeds two minutes after the first challenge and marks the later
row, with id 2, used. -/
theorem verify_otp_selects_latest_unused_witness :
    (∃ otp, latestOTP (otpCandidates twoEqualCodesDB "a@x.com" "123456" OTPTypeLogin) = some otp ∧
      otp.ID = 2 ∧
      (OTPService.VerifyOTP twoEqualCodesDB 1700000120000000000 "a@x.com" "123456"
        OTPTypeLogin).1 =
        { twoEqualCodesDB with otps := twoEqualCodesDB.otps.map (fun o =>
            if o.ID == otp.ID then { o with IsUsed := true } else o) }) ∧
    ((OTPService.VerifyOTP twoEqualCodesDB 1700000120000000000 "a@x.com" "123456"
        OTPTypeLogin).2 = none ↔
      ∃ o ∈ otpCandidates twoEqualCodesDB "a@x.com" "123456" OTPTypeLogin,
        ¬ 1700000120000000000 > o.ExpiresAt) := by
  have h := verify_otp_selects_latest_unused twoEqualCodesDB 1700000120000000000 "a@x.com"
    "123456" OTPTypeLogin
  have hok : (OTPService.VerifyOTP twoEqualCodesDB 1700000120000000000 "a@x.com" "123456"
      OTPTypeLogin).2 = none := by decide
  obtain ⟨otp, hlatest, _⟩ := h.1.1 hok
  have hid : otp.ID = 2 := by
    have h2 : (latestOTP (otpCandidates twoEqualCodesDB "a@x.com" "123456" OTPTypeLogin)).map
        (fun o => o.ID) = some 2 := by decide
    rw [hlatest] at h2
    simpa using h2
  refine ⟨⟨otp, hlatest, hid, (h.2.1 otp hlatest).2.2.2.2.2.2 hok⟩, h.2.2 ?_⟩
  decide

/-- C16 (amended): `VerifyOTP` fails in two ways that the caller can tell apart.  When no
unused row matches the e-mail address, code and purpose the error is "invalid or expired
OTP"; when the latest unused matching row is past its expiry the error is "OTP has
expired".  There is no other error, and a failed call leaves the store unchanged. -/
theorem verify_otp_failure_errors (db : DB) (now : Time) (email otpCode otpType : String) :
    (otpCandidates db email otpCode otpType = [] →
      OTPService.VerifyOTP db now email otpCode otpType = (db, some "invalid or expired OTP")) ∧
    (∀ otp, latestOTP (otpCandidates db email otpCode otpType) = some otp →
      now > otp.ExpiresAt →
      OTPService.VerifyOTP db now email otpCode otpType = (db, some "OTP has expired")) ∧
    (∀ err, (OTPService.VerifyOTP db now email otpCode otpType).2 = some err →
      (OTPService.VerifyOTP db now email otpCode otpType).1 = db ∧
      ((err = "invalid or expired OTP" ∧ otpCandidates db email otpCode otpType = []) ∨
       (err = "OTP has expired" ∧
        ∃ otp, latestOTP (otpCandidates db email otpCode otpType) = some otp ∧
          now > otp.ExpiresAt))) := by
  refine ⟨VerifyOTP_of_no_candidate db now email otpCode otpType, ?_, ?_⟩
  · intro otp hlatest hexp
    unfold otpCandidates at hlatest
    unfold OTPService.VerifyOTP
    simp only [hlatest]
    rw [if_pos hexp]
  · intro err herr
    cases hlatest : latestOTP (otpCandidates db email otpCode otpType) with
    | none =>
      have hnil := (latestOTP_eq_none _).1 hlatest
      have hv := VerifyOTP_of_no_candidate db now email otpCode otpType hnil
      rw [hv] at herr ⊢
      simp only [Option.some.injEq] at herr
      exact ⟨rfl, Or.inl ⟨herr.symm, hnil⟩⟩
    | some otp =>
      have hl := hlatest
      unfold otpCandidates at hl
      unfold OTPService.VerifyOTP at herr ⊢
      simp only [hl] at herr ⊢
      split_ifs at herr ⊢ with hexp
      simp only [Option.some.injEq] at herr
      exact ⟨rfl, Or.inr ⟨herr.symm, otp, rfl, hexp⟩⟩

/-- C16 (counterexample): a code that was never sent and a code that has expired fail
with different errors. -/
theorem verify_otp_errors_differ :
    OTPService.VerifyOTP oneCodeDB 1700003600000000000 "a@x.com" "654321" OTPTypeLogin
      = (oneCodeDB, some "invalid or expired OTP") ∧
    OTPService.VerifyOTP oneCodeDB 1700003600000000000 "a@x.com" "123456" OTPTypeLogin
      = (oneCodeDB, some "OTP has expired") ∧
    "invalid or expired OTP" ≠ "OTP has expired" := by
  decide

/-- C16 (witness): on `oneCodeDB`, an hour after the challenge was sent, a code that was
never sent gives the first error and the code sent gives the second. -/
theorem verify_otp_failure_errors_witness :
    otpCandidates oneCodeDB "a@x.com" "654321" OTPTypeLogin = [] ∧
    OTPService.VerifyOTP oneCodeDB 1700003600000000000 "a@x.com" "654321" OTPTypeLogin
      = (oneCodeDB, some "invalid or expired OTP") ∧
    latestOTP (otpCandidates oneCodeDB "a@x.com" "123456" OTPTypeLogin) =
      some { ID := 1, Email := "a@x.com", OTPCode := "123456", OTPType := "login",
             ExpiresAt := 1700000600000000000, CreatedAt := 1700000000000000000,
             IsUsed := false } ∧
    OTPService.VerifyOTP oneCodeDB 1700003600000000000 "a@x.com" "123456" OTPTypeLogin
      = (oneCodeDB, some "OTP has expired") :=
  ⟨by decide,
   (verify_otp_failure_errors oneCodeDB 1700003600000000000 "a@x.com" "654321" OTPTypeLogin).1
      (by decide),
   by decide,
   (verify_otp_failure_errors oneCodeDB 1700003600000000000 "a@x.com" "123456" OTPTypeLogin).2.1
      { ID := 1, Email := "a@x.com", OTPCode := "123456", OTPType := "login",
        ExpiresAt := 1700000600000000000, CreatedAt := 1700000000000000000, IsUsed := false }
      (by decide) (by decide)⟩

/-! ## Properties of login lifetimes and logout -/

/-- A value in the 64-bit range is not changed by wrapping. -/
theorem wrapInt64_of_fits (x : Int) (hlo : -2 ^ 63 ≤ x) (hhi : x < 2 ^ 63) : wrapInt64 x = x := by
  unfold wrapInt64
  norm_num at hlo hhi ⊢
  omega

/-- Truncation to the second commutes with adding whole seconds. -/
theorem NewNumericDate_add_seconds (t : Time) (k : Int) :
    NewNumericDate (t + k * Second) = NewNumericDate t + k * Second := by
  unfold NewNumericDate Second
  simp only [Time] at *
  rw [Int.add_mul_ediv_right t k (by norm_num), add_mul]

/-- What a successful `Login` returns: the access token `GenerateAccessToken` issues at
the instant of the call and the number `GetTokenExpiry` gives. -/
theorem Login_ok_response (lib : Lib) (cfg : Config) (db db1 : DB) (now : Time)
    (storeErr : Option String) (req : LoginRequest) (resp : AuthResponse)
    (h : AuthService.Login lib cfg db now storeErr req = (db1, .ok resp)) :
    resp.ExpiresIn = JWTService.GetTokenExpiry cfg ∧
    JWTService.GenerateAccessToken cfg now resp.User.ID resp.User.Email = .ok resp.AccessToken := by
  unfold AuthService.Login at h
  cases hemail : ValidateEmail req.Email with
  | some e => simp [hemail] at h
  | none =>
    simp only [hemail] at h
    cases hfind : db.users.find? (fun u => u.Email == req.Email) with
    | none => simp [hfind] at h
    | some account =>
      simp only [hfind] at h
      cases hhash : account.PasswordHash with
      | none => simp [hhash] at h
      | some passwordHash =>
        simp only [hhash] at h
        split_ifs at h
        · simp at h
        · simp at h
        · simp only [JWTService.GenerateAccessToken, JWTService.GenerateRefreshToken,
            AuthService.storeRefreshToken] at h
          cases storeErr with
          | some e => simp at h
          | none =>
            simp only [Prod.mk.injEq, Except.ok.injEq] at h
            obtain ⟨_, hresp⟩ := h
            subst hresp
            exact ⟨rfl, rfl⟩

/-- `GenerateAccessToken` is `GenerateAccessTokenAt` with its three readings at one
instant, and `Login` is `LoginAt` with them at the instant of the call. -/
theorem LoginAt_same_instant (lib : Lib) (cfg : Config) (db : DB) (now : Time)
    (storeErr : Option String) (req : LoginRequest) (userID : Int) (email : String) :
    JWTService.GenerateAccessTokenAt cfg now now now userID email =
      JWTService.GenerateAccessToken cfg now userID email ∧
    AuthService.LoginAt lib cfg db now now now now storeErr req =
      AuthService.Login lib cfg db now storeErr req :=
  ⟨rfl, rfl⟩

/-- What a successful `LoginAt` returns: the access token `GenerateAccessTokenAt` issues
with the three readings and the number `GetTokenExpiry` gives. -/
theorem LoginAt_ok_response (lib : Lib) (cfg : Config) (db db1 : DB) (now : Time)
    (expiryRead issuedRead notBeforeRead : Time)
    (storeErr : Option String) (req : LoginRequest) (resp : AuthResponse)
    (h : AuthService.LoginAt lib cfg db now expiryRead issuedRead notBeforeRead storeErr req
      = (db1, .ok resp)) :
    resp.ExpiresIn = JWTService.GetTokenExpiry cfg ∧
    JWTService.GenerateAccessTokenAt cfg expiryRead issuedRead notBeforeRead resp.User.ID
      resp.User.Email = .ok resp.AccessToken := by
  unfold AuthService.LoginAt at h
  cases hemail : ValidateEmail req.Email with
  | some e => simp [hemail] at h
  | none =>
    simp only [hemail] at h
    cases hfind : db.users.find? (fun u => u.Email == req.Email) with
    | none => simp [hfind] at h
    | some account =>
      simp only [hfind] at h
      cases hhash : account.PasswordHash with
      | none => simp [hhash] at h
      | some passwordHash =>
        simp only [hhash] at h
        split_ifs at h
        · simp at h
        · simp at h
        · simp only [JWTService.GenerateAccessTokenAt, JWTService.GenerateRefreshToken,
            AuthService.storeRefreshToken] at h
          cases storeErr with
          | some e => simp at h
          | none =>
            simp only [Prod.mk.injEq, Except.ok.injEq] at h
            obtain ⟨_, hresp⟩ := h
            subst hresp
            exact ⟨rfl, rfl⟩

/-- Between two readings less than a second apart the truncated instants differ by at
most a second. -/
theorem NewNumericDate_within_second (t1 t2 : Time) (hle : t1 ≤ t2) (hlt : t2 - t1 < Second) :
    NewNumericDate t2 - NewNumericDate t1 ≤ Second := by
  unfold NewNumericDate Second at *
  simp only [Time] at *
  omega

/-- Two readings in the same second truncate to the same instant. -/
theorem NewNumericDate_same_second (t1 t2 : Time) (h : t2 / Second = t1 / Second) :
    NewNumericDate t2 = NewNumericDate t1 := by
  unfold NewNumericDate
  rw [h]

/-- C20 (amended): when the configured access-token minutes, taken in nanoseconds, fit a
64-bit duration (fewer than 153 722 868 minutes in absolute value), the `ExpiresIn` of
every successful `Login` is the configured minutes times 60.  The access token returned
with it has its expiry computed from one reading of the clock and its issued-at from a
later one, both truncated to the second: its lifetime (expiry minus issued-at) is
`ExpiresIn` less the whole seconds between the two truncated readings, so it is at most
`ExpiresIn`, equal to it when both readings fall in the same second, and at most one
second short when the readings are less than a second apart. -/
theorem login_expires_in_is_access_lifetime (lib : Lib) (cfg : Config) (db db1 : DB)
    (now expiryRead issuedRead notBeforeRead : Time) (storeErr : Option String)
    (req : LoginRequest) (resp : AuthResponse)
    (hlo : -2 ^ 63 ≤ cfg.JWT.AccessExpiry * Minute) (hhi : cfg.JWT.AccessExpiry * Minute < 2 ^ 63)
    (horder : expiryRead ≤ issuedRead)
    (hok : AuthService.LoginAt lib cfg db now expiryRead issuedRead notBeforeRead storeErr req
      = (db1, .ok resp)) :
    resp.ExpiresIn = cfg.JWT.AccessExpiry * 60 ∧
    ∃ claims exp iat, resp.AccessToken = .signed .HS256 claims cfg.JWT.Secret ∧
      claims.Type_ = "access" ∧ claims.ExpiresAt = some exp ∧ claims.IssuedAt = some iat ∧
      exp - iat =
        resp.ExpiresIn * Second - (NewNumericDate issuedRead - NewNumericDate expiryRead) ∧
      exp - iat ≤ resp.ExpiresIn * Second ∧
      (issuedRead / Second = expiryRead / Second → exp - iat = resp.ExpiresIn * Second) ∧
      (issuedRead - expiryRead < Second → resp.ExpiresIn * Second - Second ≤ exp - iat) := by
  obtain ⟨hexp, htok⟩ := LoginAt_ok_response lib cfg db db1 now expiryRead issuedRead
    notBeforeRead storeErr req resp hok
  have h60 : wrapInt64 (cfg.JWT.AccessExpiry * 60) = cfg.JWT.AccessExpiry * 60 := by
    apply wrapInt64_of_fits
    · simp only [Minute, Second] at hlo hhi
      norm_num at hlo hhi ⊢
      omega
    · simp only [Minute, Second] at hlo hhi
      norm_num at hlo hhi ⊢
      omega
  have hin : resp.ExpiresIn = cfg.JWT.AccessExpiry * 60 := by
    rw [hexp, JWTService.GetTokenExpiry, h60]
  refine ⟨hin, ?_⟩
  unfold JWTService.GenerateAccessTokenAt at htok
  simp only [Except.ok.injEq] at htok
  have hmin : cfg.JWT.AccessExpiry * Minute = cfg.JWT.AccessExpiry * 60 * Second := by
    unfold Minute
    ring
  have hlife : NewNumericDate (expiryRead + wrapInt64 (cfg.JWT.AccessExpiry * Minute)) -
      NewNumericDate issuedRead =
      resp.ExpiresIn * Second - (NewNumericDate issuedRead - NewNumericDate expiryRead) := by
    rw [wrapInt64_of_fits _ hlo hhi, hin, hmin, NewNumericDate_add_seconds]
    ring
  have hmono : NewNumericDate expiryRead ≤ NewNumericDate issuedRead :=
    NewNumericDate_mono expiryRead issuedRead horder
  refine ⟨_, _, _, htok.symm, rfl, rfl, rfl, hlife, ?_, ?_, ?_⟩
  · rw [hlife]
    linarith
  · intro hsame
    rw [hlife, NewNumericDate_same_second expiryRead issuedRead hsame]
    ring
  · intro hclose
    rw [hlife]
    have := NewNumericDate_within_second expiryRead issuedRead horder hclose
    linarith

/-- Counterexample to C20 as stated.  Under `exampleConfig`, 15 minutes, a login whose
clock reading for the expiry falls in the last nanosecond of second 1 700 000 100 and
whose reading for the issued-at falls two nanoseconds later returns `ExpiresIn` 900 with
an access token that expires 899 seconds after it was issued.  And with 153 722 868
configured minutes a login returns `ExpiresIn` 9 223 372 080, the minutes times 60, while
the access token it returns expires 9 223 371 994 seconds before it was issued: the
duration in nanoseconds wrapped around. -/
theorem login_lifetime_differs_from_expires_in :
    (∃ db1 resp claims,
      AuthService.LoginAt exampleLib exampleConfig annOnlyDB 1700000100200000000
        1700000100999999999 1700000101000000001 1700000101000000002 none
        { Email := "a@x.com", Password := "Abcdef1!" } = (db1, .ok resp) ∧
      resp.ExpiresIn = 900 ∧
      resp.AccessToken = .signed .HS256 claims "s3cret" ∧
      claims.IssuedAt = some (1700000101 * Second) ∧
      claims.ExpiresAt = some (1700000101 * Second + 899 * Second)) ∧
    (∃ db1 resp claims,
      AuthService.LoginAt exampleLib centuriesConfig annOnlyDB 1700000100200000000
        1700000100200000000 1700000100200000000 1700000100200000000 none
        { Email := "a@x.com", Password := "Abcdef1!" } = (db1, .ok resp) ∧
      resp.ExpiresIn = 153722868 * 60 ∧
      resp.AccessToken = .signed .HS256 claims "s3cret" ∧
      claims.IssuedAt = some 1700000100000000000 ∧
      claims.ExpiresAt = some (1700000100000000000 - 9223371994 * Second) ∧
      (1700000100000000000 - 9223371994 * Second) - 1700000100000000000
        ≠ resp.ExpiresIn * Second) :=
  ⟨⟨_, _, _, rfl, by decide, rfl, by decide, by decide⟩,
   ⟨_, _, _, rfl, by decide, rfl, by decide, by decide, by decide⟩⟩

/-- C20 (witness): under `exampleConfig`, 15 minutes, a login of "a@x.com" whose two
readings fall in second 1 700 000 100 returns `ExpiresIn` 900 with an access token
issued in that second and expiring 900 seconds later. -/
theorem login_expires_in_is_access_lifetime_witness :
    ∃ db1 resp,
      AuthService.LoginAt exampleLib exampleConfig annOnlyDB 1700000100200000000
        1700000100200000100 1700000100200000200 1700000100200000300 none
        { Email := "a@x.com", Password := "Abcdef1!" } = (db1, .ok resp) ∧
      resp.ExpiresIn = 15 * 60 ∧
      ∃ claims exp iat, resp.AccessToken = .signed .HS256 claims "s3cret" ∧
        claims.Type_ = "access" ∧ claims.ExpiresAt = some exp ∧ claims.IssuedAt = some iat ∧
        exp - iat = resp.ExpiresIn * Second := by
  have hok : ∃ db1 resp, AuthService.LoginAt exampleLib exampleConfig annOnlyDB
      1700000100200000000 1700000100200000100 1700000100200000200 1700000100200000300 none
      { Email := "a@x.com", Password := "Abcdef1!" } = (db1, .ok resp) := ⟨_, _, rfl⟩
  obtain ⟨db1, resp, hresp⟩ := hok
  obtain ⟨hin, claims, exp, iat, htok, hty, hexp, hiat, _, _, hsame, _⟩ :=
    login_expires_in_is_access_lifetime exampleLib exampleConfig annOnlyDB db1
      1700000100200000000 1700000100200000100 1700000100200000200 1700000100200000300 none
      { Email := "a@x.com", Password := "Abcdef1!" } resp (by decide) (by decide) (by decide)
      hresp
  exact ⟨db1, resp, hresp, hin, claims, exp, iat, htok, hty, hexp, hiat, hsame (by decide)⟩

/-- A token string of at least 20 bytes is not the empty string. -/
theorem atLeast20Bytes_ne_empty (tok : TokenString) (h : tok.atLeast20Bytes = true) :
    tok ≠ .malformed "" := by
  intro he
  subst he
  revert h
  decide

/-- C11 (amended): the HTTP handler of logout answers 200 "Logged out successfully" for
every refresh-token string of at least 20 bytes (valid, expired, malformed or unknown)
that does not make the decoder panic, whether or not the revoke statement succeeds.  The
service method it calls is not non-failing: it returns the outcome of the revoke
statement, which the handler prints and drops.  An empty token is answered with 400. -/
theorem logout_handler_reports_success (cfg : Config) (db : DB) (now : Time)
    (revokeErr : Option String) (tok : TokenString)
    (hlen : tok.atLeast20Bytes = true)
    (hdecode : JWTService.ValidateToken cfg now tok "refresh" ≠ .error nilDereference) :
    (AuthHandler.Logout cfg db now revokeErr tok).2 =
      .response 200 { Success := true, Message := "Logged out successfully" } ∧
    (AuthService.Logout cfg db now revokeErr tok).2 = revokeErr ∧
    AuthHandler.Logout cfg db now revokeErr (.malformed "") =
      (db, .response 400 { Success := false, Message := "Invalid request payload" }) := by
  have hne := atLeast20Bytes_ne_empty tok hlen
  refine ⟨?_, ?_, rfl⟩
  · unfold AuthHandler.Logout
    rw [if_neg hne]
    simp only [hlen, Bool.not_true, Bool.false_eq_true, if_false]
    cases hv : JWTService.ValidateToken cfg now tok "refresh" with
    | error err =>
      have herr : err ≠ nilDereference := by
        intro he
        subst he
        exact hdecode hv
      simp only [if_neg herr]
    | ok claims => simp only
  · unfold AuthService.Logout
    cases hv : JWTService.ValidateToken cfg now tok "refresh" with
    | error err =>
      have herr : err ≠ nilDereference := by
        intro he
        subst he
        exact hdecode hv
      simp only [if_neg herr]
      unfold AuthService.revokeRefreshToken
      cases revokeErr <;> rfl
    | ok claims =>
      simp only
      unfold AuthService.revokeRefreshToken
      cases revokeErr <;> rfl

/-- C11 (counterexample): logout is not non-failing for every caller and every string.
With the valid token of `annLogin` and a failing revoke statement the service method
returns the error to the handler and the token's record stays unrevoked; and the handler
answers an empty token with 400. -/
theorem logout_reports_failure :
    (AuthService.Logout exampleConfig annLogin.1 1700000160000000000
      (some "connection refused") annToken).2 = some "connection refused" ∧
    (AuthService.Logout exampleConfig annLogin.1 1700000160000000000
      (some "connection refused") annToken).1.refresh_tokens = annLogin.1.refresh_tokens ∧
    AuthHandler.Logout exampleConfig annLogin.1 1700000160000000000 none (.malformed "")
      = (annLogin.1, .response 400 { Success := false, Message := "Invalid request payload" }) := by
  decide

/-- C11 (witness): the handler answers 200 for the valid token of `annLogin` when the
revoke statement fails, and for a string that is no token at all. -/
theorem logout_handler_reports_success_witness :
    ((AuthHandler.Logout exampleConfig annLogin.1 1700000160000000000
        (some "connection refused") annToken).2 =
      .response 200 { Success := true, Message := "Logged out successfully" } ∧
     (AuthService.Logout exampleConfig annLogin.1 1700000160000000000
        (some "connection refused") annToken).2 = some "connection refused") ∧
    ((AuthHandler.Logout exampleConfig annLogin.1 1700000160000000000 none
        (.malformed "not-a-token-just-some-text")).2 =
      .response 200 { Success := true, Message := "Logged out successfully" } ∧
     (AuthService.Logout exampleConfig annLogin.1 1700000160000000000 none
        (.malformed "not-a-token-just-some-text")).2 = none) := by
  have h1 := logout_handler_reports_success exampleConfig annLogin.1 1700000160000000000
    (some "connection refused") annToken (by decide) (by decide)
  have h2 := logout_handler_reports_success exampleConfig annLogin.1 1700000160000000000 none
    (.malformed "not-a-token-just-some-text") (by decide) (by decide)
  exact ⟨⟨h1.1, h1.2.1⟩, ⟨h2.1, h2.2.1⟩⟩

/-! ## Properties of Google sign-in -/

/-- The function `Contains` decides whether its second argument is a contiguous part of
the first. -/
theorem Contains_iff_part (sub : List Char) : ∀ (s : List Char),
    Contains s sub = true ↔ sub <:+: s := by
  intro s
  induction s with
  | nil => simp [Contains, List.isEmpty_iff]
  | cons c cs ih =>
    simp only [Contains, Bool.or_eq_true, ih, List.infix_cons_iff, List.isPrefixOf_iff_prefix]

/-- The first piece `splitOnComma` returns is a prefix of the string. -/
theorem splitOnComma_head : ∀ (s : List Char),
    ∃ piece rest, splitOnComma s = piece :: rest ∧ piece <+: s := by
  intro s
  induction s with
  | nil => exact ⟨[], [], rfl, List.prefix_refl _⟩
  | cons c cs ih =>
    obtain ⟨piece, rest, hsplit, hpre⟩ := ih
    by_cases hc : c = ','
    · exact ⟨[], splitOnComma cs, by simp [splitOnComma, hc], List.nil_prefix⟩
    · refine ⟨c :: piece, rest, by simp [splitOnComma, hc, hsplit], ?_⟩
      exact (List.cons_prefix_cons).2 ⟨rfl, hpre⟩

/-- Every piece `splitOnComma` returns is a contiguous part of the string. -/
theorem splitOnComma_part : ∀ (s : List Char), ∀ p ∈ splitOnComma s, p <:+: s := by
  intro s
  induction s with
  | nil =>
    intro p hp
    simp only [splitOnComma, List.mem_singleton] at hp
    subst hp
    exact List.infix_refl _
  | cons c cs ih =>
    intro p hp
    obtain ⟨piece, rest, hsplit, hpre⟩ := splitOnComma_head cs
    by_cases hc : c = ','
    · simp only [splitOnComma, hc, if_true, List.mem_cons] at hp
      rcases hp with hp | hp
      · subst hp
        exact List.nil_infix
      · exact List.infix_cons (ih p hp)
    · simp only [splitOnComma, hc, if_false, hsplit, List.mem_cons] at hp
      rcases hp with hp | hp
      · subst hp
        exact ((List.cons_prefix_cons).2 ⟨rfl, hpre⟩).isInfix
      · exact List.infix_cons (ih p (by rw [hsplit]; exact List.mem_cons_of_mem _ hp))

/-- Splitting at a comma: the pieces of `a,b` are the pieces of `a` followed by those of
`b`. -/
theorem splitOnComma_append_comma (b : List Char) : ∀ (a : List Char),
    splitOnComma (a ++ ',' :: b) = splitOnComma a ++ splitOnComma b := by
  intro a
  induction a with
  | nil => simp [splitOnComma]
  | cons c cs ih =>
    obtain ⟨piece, rest, hsplit, _⟩ := splitOnComma_head cs
    by_cases hc : c = ','
    · simp [splitOnComma, hc, ih]
    · simp [splitOnComma, hc, ih, hsplit]

/-- Appending ",google" to a provider list appends the provider "google". -/
theorem providers_append_google (s : String) :
    providers (s ++ ",google") = providers s ++ ["google".toList] := by
  unfold providers
  have h : (s ++ ",google").toList = s.toList ++ ',' :: "google".toList := by
    simp [String.toList]
  rw [h, splitOnComma_append_comma]
  rfl

/-- A provider list that does not contain the text "google" does not have the provider
"google". -/
theorem google_not_provider (s : String) (h : Contains s.toList "google".toList = false) :
    (providers s).count "google".toList = 0 := by
  rw [List.count_eq_zero]
  intro hmem
  have hin := splitOnComma_part _ _ hmem
  rw [← Contains_iff_part] at hin
  rw [hin] at h
  exact Bool.noConfusion h

/-- A list other than "email" that contains the text "google" is merged to itself. -/
theorem newAuthProvider_of_contains (s : String) (hemail : s ≠ "email")
    (hc : Contains s.toList "google".toList = true) : AuthService.newAuthProvider s = s := by
  unfold AuthService.newAuthProvider
  rw [if_neg hemail, hc]
  rfl

/-- A list other than "email" that does not contain the text "google" gets ",google"
appended. -/
theorem newAuthProvider_of_not_contains (s : String) (hemail : s ≠ "email")
    (hc : Contains s.toList "google".toList = false) :
    AuthService.newAuthProvider s = s ++ ",google" := by
  unfold AuthService.newAuthProvider
  rw [if_neg hemail, hc]
  rfl

/-- The merge on any string, written by the code or not: it never drops a provider and
is idempotent, and its result has "google" exactly once as an element precisely when the
string either did not contain the text "google" at all or already had "google" exactly
once as an element. -/
theorem newAuthProvider_general (authProvider : String) :
    (∀ p ∈ providers authProvider, p ∈ providers (AuthService.newAuthProvider authProvider)) ∧
    AuthService.newAuthProvider (AuthService.newAuthProvider authProvider) =
      AuthService.newAuthProvider authProvider ∧
    ((providers (AuthService.newAuthProvider authProvider)).count "google".toList = 1 ↔
      (Contains authProvider.toList "google".toList = false ∨
        (providers authProvider).count "google".toList = 1)) ∧
    AuthService.newAuthProvider "email" = "email,google" ∧
    AuthService.newAuthProvider "email,google" = "email,google" := by
  refine ⟨?_, ?_, ?_, by decide, by decide⟩
  · intro p hp
    unfold AuthService.newAuthProvider
    split_ifs with hemail hnot
    · subst hemail
      revert p
      decide
    · rw [providers_append_google]
      exact List.mem_append_left _ hp
    · exact hp
  · by_cases hemail : authProvider = "email"
    · subst hemail
      decide
    · cases hc : Contains authProvider.toList "google".toList with
      | true => rw [newAuthProvider_of_contains _ hemail hc, newAuthProvider_of_contains _ hemail hc]
      | false =>
        have hnew := newAuthProvider_of_not_contains _ hemail hc
        have hhas : Contains (authProvider ++ ",google").toList "google".toList = true := by
          rw [Contains_iff_part]
          refine ⟨authProvider.toList ++ [','], [], ?_⟩
          simp [String.toList]
        have hne : authProvider ++ ",google" ≠ "email" := by
          intro he
          rw [he] at hhas
          revert hhas
          decide
        rw [hnew, newAuthProvider_of_contains _ hne hhas]
  · by_cases hemail : authProvider = "email"
    · subst hemail
      decide
    · cases hc : Contains authProvider.toList "google".toList with
      | true =>
        rw [newAuthProvider_of_contains _ hemail hc]
        constructor
        · exact Or.inr
        · rintro (h | h)
          · exact absurd h (by decide)
          · exact h
      | false =>
        have hnew := newAuthProvider_of_not_contains _ hemail hc
        rw [hnew, providers_append_google, List.count_append, google_not_provider _ hc]
        simp

/-- The values written to `auth_provider` are "email", "google" and "email,google". -/
theorem providerWritten_iff (authProvider : String) :
    AuthService.providerWritten authProvider ↔
      authProvider = "email" ∨ authProvider = "google" ∨ authProvider = "email,google" := by
  constructor
  · intro h
    induction h with
    | signup => exact Or.inl rfl
    | created => exact Or.inr (Or.inl rfl)
    | merged p _ ih =>
      rcases ih with rfl | rfl | rfl
      · exact Or.inr (Or.inr (by decide))
      · exact Or.inr (Or.inl (by decide))
      · exact Or.inr (Or.inr (by decide))
  · rintro (rfl | rfl | rfl)
    · exact .signup
    · exact .created
    · exact .merged "email" .signup

/-- The accounts `resolveGoogleUser` leaves in the store carry provider lists the code
writes, when those before did. -/
theorem resolveGoogleUser_providerWritten (db : DB) (now : Time) (g : GoogleUserInfo)
    (h : ∀ u ∈ db.users, AuthService.providerWritten u.AuthProvider) :
    ∀ u ∈ (AuthService.resolveGoogleUser db now g).1.users,
      AuthService.providerWritten u.AuthProvider := by
  have htouch : ∀ (userID : Int) (users : List User),
      (∀ u ∈ users, AuthService.providerWritten u.AuthProvider) →
      ∀ u ∈ AuthService.updateLastActivity now userID users,
        AuthService.providerWritten u.AuthProvider := by
    intro userID users hu u hmem
    unfold AuthService.updateLastActivity at hmem
    obtain ⟨u0, hu0, rfl⟩ := List.mem_map.1 hmem
    split_ifs
    · exact hu u0 hu0
    · exact hu u0 hu0
  unfold AuthService.resolveGoogleUser
  cases hg : db.users.find? (fun u => u.GoogleID == some g.ID) with
  | some row => exact htouch _ _ h
  | none =>
    cases he : db.users.find? (fun u => u.Email == g.Email) with
    | some row =>
      apply htouch
      intro u hmem
      obtain ⟨u0, hu0, rfl⟩ := List.mem_map.1 hmem
      split_ifs
      · exact .merged _ (h row (List.mem_of_find?_eq_some he))
      · exact h u0 hu0
    | none =>
      intro u hmem
      rcases List.mem_append.1 hmem with hmem | hmem
      · exact h u hmem
      · rw [List.mem_singleton.1 hmem]
        exact .created

/-- C13: the merge keeps the provider list a set.  For every provider list the code
writes to an account ("email" at signup, "google" when a Google sign-in creates the
account, and what the merge makes of such a list), the merged comma-separated list
contains every provider the account had before and contains "google" exactly once as an
element, and merging the result again yields the same list; "email" gives
"email,google", and "email,google" stays "email,google". -/
theorem merged_auth_provider_keeps_set (authProvider : String)
    (hwritten : AuthService.providerWritten authProvider) :
    (∀ p ∈ providers authProvider, p ∈ providers (AuthService.newAuthProvider authProvider)) ∧
    (providers (AuthService.newAuthProvider authProvider)).count "google".toList = 1 ∧
    AuthService.newAuthProvider (AuthService.newAuthProvider authProvider) =
      AuthService.newAuthProvider authProvider ∧
    AuthService.newAuthProvider "email" = "email,google" ∧
    AuthService.newAuthProvider "email,google" = "email,google" := by
  rcases (providerWritten_iff authProvider).1 hwritten with rfl | rfl | rfl <;> decide

/-- C13 (witness): the provider list "email" of an account created by signup merges to
"email,google", which holds "email" and holds "google" once, and merging again changes
nothing. -/
theorem merged_auth_provider_keeps_set_witness :
    AuthService.providerWritten "email" ∧
    providers (AuthService.newAuthProvider "email") = ["email".toList, "google".toList] ∧
    (providers (AuthService.newAuthProvider "email")).count "google".toList = 1 ∧
    AuthService.newAuthProvider (AuthService.newAuthProvider "email") = "email,google" :=
  ⟨.signup, by decide, (merged_auth_provider_keeps_set "email" .signup).2.1,
    (merged_auth_provider_keeps_set "email" .signup).2.2.1.trans (by decide)⟩

/-- The `users` table after `LogActivity`: the account's last activity is updated. -/
theorem LogActivity_users (db : DB) (now : Time) (userID : Int) (ty : String) :
    (ActivityService.LogActivity db now userID ty).users =
      AuthService.updateLastActivity now userID db.users := by
  unfold ActivityService.LogActivity AuthService.updateLastActivity
  split_ifs with h
  · rfl
  · symm
    have hall : ∀ u ∈ db.users, (u.ID == userID) = false := by
      intro u hu
      cases hb : (u.ID == userID) with
      | false => rfl
      | true => exact absurd (List.any_eq_true.2 ⟨u, hu, hb⟩) h
    calc List.map _ db.users = List.map id db.users := by
          apply List.map_congr_left
          intro u hu
          simp [hall u hu]
      _ = db.users := List.map_id _

/-- What a successful `processGoogleUser` did: the e-mail address passed the domain
check, the account resolved inside the transaction is active, the committed `users` table
is the one the transaction saw with the account's last activity updated, and the account
returned is the `user` struct. -/
theorem processGoogleUser_ok (cfg : Config) (db db1 : DB) (now : Time)
    (storeErr : Option String) (g : GoogleUserInfo) (resp : AuthResponse)
    (h : AuthService.processGoogleUser cfg db now storeErr g = (db1, .ok resp)) :
    AuthService.isValidEmailDomain g.Email = true ∧
    (AuthService.resolveGoogleUser db now g).2.IsActive = true ∧
    db1.users = AuthService.updateLastActivity now (AuthService.resolveGoogleUser db now g).2.ID
      (AuthService.resolveGoogleUser db now g).1.users ∧
    resp.User = (AuthService.resolveGoogleUser db now g).2.ToUserResponse := by
  cases hdom : AuthService.isValidEmailDomain g.Email with
  | false => simp [AuthService.processGoogleUser, hdom] at h
  | true =>
    cases hact : (AuthService.resolveGoogleUser db now g).2.IsActive with
    | false => simp [AuthService.processGoogleUser, hdom, hact] at h
    | true =>
      simp only [AuthService.processGoogleUser, hdom, hact, JWTService.GenerateAccessToken,
        JWTService.GenerateRefreshToken, AuthService.storeRefreshToken, Bool.not_true,
        Bool.false_eq_true, if_false] at h
      cases storeErr with
      | some e => simp at h
      | none =>
        simp only [Prod.mk.injEq, Except.ok.injEq] at h
        obtain ⟨hdb, hresp⟩ := h
        subst hdb hresp
        exact ⟨rfl, rfl, by rw [LogActivity_users], rfl⟩

/-- The `users` table after `processGoogleUser`, whatever its result: the table before,
or the one its transaction saw, possibly with the account's last activity updated. -/
theorem processGoogleUser_users (cfg : Config) (db : DB) (now : Time)
    (storeErr : Option String) (g : GoogleUserInfo) :
    (AuthService.processGoogleUser cfg db now storeErr g).1.users = db.users ∨
    (AuthService.processGoogleUser cfg db now storeErr g).1.users =
      (AuthService.resolveGoogleUser db now g).1.users ∨
    (AuthService.processGoogleUser cfg db now storeErr g).1.users =
      AuthService.updateLastActivity now (AuthService.resolveGoogleUser db now g).2.ID
        (AuthService.resolveGoogleUser db now g).1.users := by
  cases hdom : AuthService.isValidEmailDomain g.Email with
  | false => left; simp [AuthService.processGoogleUser, hdom]
  | true =>
    cases hact : (AuthService.resolveGoogleUser db now g).2.IsActive with
    | false => left; simp [AuthService.processGoogleUser, hdom, hact]
    | true =>
      simp only [AuthService.processGoogleUser, hdom, hact, JWTService.GenerateAccessToken,
        JWTService.GenerateRefreshToken, AuthService.storeRefreshToken, Bool.not_true,
        Bool.false_eq_true, if_false]
      cases storeErr with
      | some e => right; left; rfl
      | none => right; right; simp only [LogActivity_users]

/-- With the domain check passed, the resolved account active and the insert of the
refresh token executing, `processGoogleUser` succeeds. -/
theorem processGoogleUser_succeeds (cfg : Config) (db : DB) (now : Time) (g : GoogleUserInfo)
    (hdom : AuthService.isValidEmailDomain g.Email = true)
    (hact : (AuthService.resolveGoogleUser db now g).2.IsActive = true) :
    ∃ db1 resp, AuthService.processGoogleUser cfg db now none g = (db1, .ok resp) := by
  simp only [AuthService.processGoogleUser, hdom, hact, JWTService.GenerateAccessToken,
    JWTService.GenerateRefreshToken, AuthService.storeRefreshToken, Bool.not_true,
    Bool.false_eq_true, if_false]
  exact ⟨_, _, rfl⟩

/-- Updating the last activity keeps the id. -/
theorem touched_ID (now : Time) (userID : Int) (u : User) : (touched now userID u).ID = u.ID := by
  unfold touched; split_ifs <;> rfl

/-- Updating the last activity keeps the active flag. -/
theorem touched_IsActive (now : Time) (userID : Int) (u : User) :
    (touched now userID u).IsActive = u.IsActive := by
  unfold touched; split_ifs <;> rfl

/-- Updating the last activity keeps the Google id. -/
theorem touched_GoogleID (now : Time) (userID : Int) (u : User) :
    (touched now userID u).GoogleID = u.GoogleID := by
  unfold touched; split_ifs <;> rfl

/-- Updating the last activity keeps the avatar URL. -/
theorem touched_AvatarURL (now : Time) (userID : Int) (u : User) :
    (touched now userID u).AvatarURL = u.AvatarURL := by
  unfold touched; split_ifs <;> rfl

/-- The statement `updateLastActivity` maps `touched` over the table. -/
theorem updateLastActivity_eq_map (now : Time) (userID : Int) (users : List User) :
    AuthService.updateLastActivity now userID users = users.map (touched now userID) := rfl

/-- Looking an account up by Google id after `updateLastActivity` finds the same row, with
its last activity updated. -/
theorem find_google_updateLastActivity (now : Time) (userID : Int) (users : List User)
    (gid : String) :
    (AuthService.updateLastActivity now userID users).find? (fun u => u.GoogleID == some gid) =
      (users.find? (fun u => u.GoogleID == some gid)).map (touched now userID) := by
  have hpred : ((fun u : User => u.GoogleID == some gid) ∘ touched now userID) =
      (fun u : User => u.GoogleID == some gid) := by
    funext u
    simp [Function.comp, touched_GoogleID]
  rw [updateLastActivity_eq_map, List.find?_map, hpred]

/-- Two predicates that agree on the rows of a table find the same row. -/
theorem find_congr_mem (p q : User → Bool) : ∀ (l : List User), (∀ x ∈ l, p x = q x) →
    l.find? p = l.find? q := by
  intro l
  induction l with
  | nil => intro _; rfl
  | cons a rest ih =>
    intro h
    have ha := h a (List.mem_cons_self _ _)
    have hrest := ih (fun x hx => h x (List.mem_cons_of_mem _ hx))
    simp only [List.find?, ha, hrest]

/-- The transaction of `processGoogleUser` when an account has the Google id. -/
theorem resolveGoogleUser_of_known (db : DB) (now : Time) (g : GoogleUserInfo) (row : User)
    (hg : db.users.find? (fun u => u.GoogleID == some g.ID) = some row) :
    AuthService.resolveGoogleUser db now g =
      ({ db with users := AuthService.updateLastActivity now row.ID db.users },
        { row with PasswordHash := none, LastActivityAt := now }) := by
  unfold AuthService.resolveGoogleUser
  simp only [hg]

/-- The transaction of `processGoogleUser` when no account has the Google id and one
has the e-mail address. -/
theorem resolveGoogleUser_of_merge (db : DB) (now : Time) (g : GoogleUserInfo) (row : User)
    (hg : db.users.find? (fun u => u.GoogleID == some g.ID) = none)
    (he : db.users.find? (fun u => u.Email == g.Email) = some row) :
    AuthService.resolveGoogleUser db now g =
      ({ db with users := (AuthService.updateLastActivity now row.ID
          (db.users.map (fun u =>
            if u.ID == row.ID then
              AuthService.mergeUpdate now g (AuthService.newAuthProvider row.AuthProvider) u
            else u))) },
        { (AuthService.mergedUser g (AuthService.newAuthProvider row.AuthProvider)
            { row with PasswordHash := none }) with LastActivityAt := now }) := by
  unfold AuthService.resolveGoogleUser
  simp only [hg, he]
  rfl

/-- After a successful `processGoogleUser` the account it returned is the one found by
the Google id of the profile; it is active when account ids are unique. -/
theorem processGoogleUser_ok_account (cfg : Config) (db db1 : DB) (now : Time)
    (storeErr : Option String) (g : GoogleUserInfo) (resp : AuthResponse)
    (hok : AuthService.processGoogleUser cfg db now storeErr g = (db1, .ok resp)) :
    ∃ account, db1.users.find? (fun u => u.GoogleID == some g.ID) = some account ∧
      account.ID = resp.User.ID ∧
      ((db.users.map (fun u => u.ID)).Nodup → account.IsActive = true) := by
  obtain ⟨_, hact, husers, hresp⟩ := processGoogleUser_ok cfg db db1 now storeErr g resp hok
  cases hg : db.users.find? (fun u => u.GoogleID == some g.ID) with
  | some row =>
    rw [resolveGoogleUser_of_known db now g row hg] at hact husers hresp
    try simp only at hact husers hresp
    refine ⟨touched now row.ID (touched now row.ID row), ?_, ?_, ?_⟩
    · rw [husers, find_google_updateLastActivity, find_google_updateLastActivity, hg]
      rfl
    · rw [hresp, touched_ID, touched_ID]
      rfl
    · intro _
      rw [touched_IsActive, touched_IsActive]
      exact hact
  | none =>
    cases he : db.users.find? (fun u => u.Email == g.Email) with
    | some row =>
      rw [resolveGoogleUser_of_merge db now g row hg he] at hact husers hresp
      try simp only at hact husers hresp
      have hrow : row ∈ db.users := List.mem_of_find?_eq_some he
      have hnone := List.find?_eq_none.1 hg
      have hsome : (db.users.find? (fun u => u.ID == row.ID)).isSome = true := by
        rw [List.find?_isSome]
        exact ⟨row, hrow, by simp⟩
      obtain ⟨first, hfirst⟩ := Option.isSome_iff_exists.1 hsome
      have hfirstID : first.ID = row.ID := by
        have := List.find?_some hfirst
        simpa using this
      have hfirstMem : first ∈ db.users := List.mem_of_find?_eq_some hfirst
      have hfind : (db.users.map (fun u =>
            if u.ID == row.ID then
              AuthService.mergeUpdate now g (AuthService.newAuthProvider row.AuthProvider) u
            else u)).find? (fun u => u.GoogleID == some g.ID) =
          some (AuthService.mergeUpdate now g (AuthService.newAuthProvider row.AuthProvider)
            first) := by
        rw [List.find?_map]
        have hpred : ∀ u ∈ db.users,
            ((fun u : User => u.GoogleID == some g.ID) ∘ (fun u =>
              if u.ID == row.ID then
                AuthService.mergeUpdate now g (AuthService.newAuthProvider row.AuthProvider) u
              else u)) u = (fun u : User => u.ID == row.ID) u := by
          intro u hu
          have hun := hnone u hu
          simp only [Function.comp]
          cases hid : (u.ID == row.ID) with
          | true => simp [AuthService.mergeUpdate]
          | false => simpa using hun
        rw [find_congr_mem _ _ db.users hpred, hfirst]
        simp [hfirstID]
      refine ⟨touched now row.ID (touched now row.ID
        (AuthService.mergeUpdate now g (AuthService.newAuthProvider row.AuthProvider) first)),
        ?_, ?_, ?_⟩
      · rw [husers]
        have hid : (AuthService.mergedUser g (AuthService.newAuthProvider row.AuthProvider)
            { row with PasswordHash := none }).ID = row.ID := rfl
        rw [hid, find_google_updateLastActivity, find_google_updateLastActivity, hfind]
        rfl
      · rw [hresp, touched_ID, touched_ID]
        exact hfirstID
      · intro hnodup
        have heq : first = row :=
          List.inj_on_of_nodup_map hnodup hfirstMem hrow hfirstID
        rw [touched_IsActive, touched_IsActive, heq]
        exact hact
    | none =>
      have hres : AuthService.resolveGoogleUser db now g =
          ({ db with
             users := db.users ++ [(AuthService.resolveGoogleUser db now g).2],
             users_id_seq := db.users_id_seq + 1 }, (AuthService.resolveGoogleUser db now g).2) ∧
          (AuthService.resolveGoogleUser db now g).2.GoogleID = some g.ID := by
        simp [AuthService.resolveGoogleUser, hg, he]
      rw [hres.1] at husers
      simp only at husers
      refine ⟨touched now (AuthService.resolveGoogleUser db now g).2.ID
        (AuthService.resolveGoogleUser db now g).2, ?_, ?_, ?_⟩
      · rw [husers, find_google_updateLastActivity, List.find?_append, hg]
        simp [List.find?, hres.2]
      · rw [hresp, touched_ID]
        rfl
      · intro _
        rw [touched_IsActive]
        exact hact

/-- When an account has the Google id of the profile, `processGoogleUser` keeps the number
of accounts, returns that account if it returns any, and succeeds when the account is
active and the insert of the refresh token executes. -/
theorem processGoogleUser_of_known (cfg : Config) (db : DB) (now : Time)
    (storeErr : Option String) (g : GoogleUserInfo) (account : User)
    (hg : db.users.find? (fun u => u.GoogleID == some g.ID) = some account) :
    (AuthService.processGoogleUser cfg db now storeErr g).1.users.length = db.users.length ∧
    (∀ resp, (AuthService.processGoogleUser cfg db now storeErr g).2 = .ok resp →
      resp.User.ID = account.ID) ∧
    (AuthService.isValidEmailDomain g.Email = true → account.IsActive = true →
      ∃ db2 resp, AuthService.processGoogleUser cfg db now none g = (db2, .ok resp)) := by
  have hres := resolveGoogleUser_of_known db now g account hg
  refine ⟨?_, ?_, ?_⟩
  · rcases processGoogleUser_users cfg db now storeErr g with h | h | h
    · rw [h]
    · rw [h, hres]
      simp [updateLastActivity_eq_map]
    · rw [h, hres]
      simp [updateLastActivity_eq_map]
  · intro resp hresp
    have hpair : AuthService.processGoogleUser cfg db now storeErr g =
        ((AuthService.processGoogleUser cfg db now storeErr g).1, .ok resp) := by
      rw [← hresp]
    obtain ⟨_, _, _, huser⟩ := processGoogleUser_ok cfg db _ now storeErr g resp hpair
    rw [huser, hres]
    rfl
  · intro hdom hact
    apply processGoogleUser_succeeds cfg db now g hdom
    rw [hres]
    exact hact

/-- C12: repeating the Google sign-in never creates a second account.  After
`processGoogleUser` has succeeded for a profile, the lookup by the Google id of that
profile finds an account with the id of the account returned.  Every later
`processGoogleUser` for the profile on that store therefore takes the lookup by Google id:
it leaves the number of accounts unchanged, returns the same account id whenever it
returns an account, and does return one when the insert of its refresh token executes
(the account being active, as it is when account ids are unique). -/
theorem google_login_twice_same_account (cfg : Config) (db db1 : DB) (now : Time)
    (storeErr : Option String) (g : GoogleUserInfo) (resp : AuthResponse)
    (hok : AuthService.processGoogleUser cfg db now storeErr g = (db1, .ok resp)) :
    ∃ account, db1.users.find? (fun u => u.GoogleID == some g.ID) = some account ∧
      account.ID = resp.User.ID ∧
      ((db.users.map (fun u => u.ID)).Nodup → account.IsActive = true) ∧
      ∀ (later : Time) (storeErr2 : Option String),
        (AuthService.processGoogleUser cfg db1 later storeErr2 g).1.users.length
          = db1.users.length ∧
        (∀ resp2, (AuthService.processGoogleUser cfg db1 later storeErr2 g).2 = .ok resp2 →
          resp2.User.ID = resp.User.ID) ∧
        (account.IsActive = true →
          ∃ db2 resp2, AuthService.processGoogleUser cfg db1 later none g = (db2, .ok resp2) ∧
            resp2.User.ID = resp.User.ID ∧ db2.users.length = db1.users.length) := by
  obtain ⟨account, hfind, hid, hactive⟩ :=
    processGoogleUser_ok_account cfg db db1 now storeErr g resp hok
  obtain ⟨hdom, _, _, _⟩ := processGoogleUser_ok cfg db db1 now storeErr g resp hok
  refine ⟨account, hfind, hid, hactive, ?_⟩
  intro later storeErr2
  obtain ⟨hlen, hsame, hsucc⟩ := processGoogleUser_of_known cfg db1 later storeErr2 g account hfind
  refine ⟨hlen, fun resp2 h2 => (hsame resp2 h2).trans hid, ?_⟩
  intro hact
  obtain ⟨db2, resp2, h2⟩ := hsucc hdom hact
  obtain ⟨hlen2, hsame2, _⟩ := processGoogleUser_of_known cfg db1 later none g account hfind
  rw [h2] at hlen2 hsame2
  exact ⟨db2, resp2, h2, (hsame2 resp2 rfl).trans hid, hlen2⟩

/-- C12 (witness): the holder of "a@x.com" signs in with Google twice.  The first call
merges the Google identity into account 1; the second finds account 1 by Google id,
returns it and leaves one account in the store. -/
theorem google_login_twice_same_account_witness :
    ∃ resp, annGoogleLogin = (annGoogleLogin.1, .ok resp) ∧
      ∃ account, annGoogleLogin.1.users.find? (fun u => u.GoogleID == some annProfile.ID)
          = some account ∧
        account.ID = resp.User.ID ∧ account.IsActive = true ∧
        ∃ db2 resp2, AuthService.processGoogleUser exampleConfig annGoogleLogin.1
            1700000200000000000 none annProfile = (db2, .ok resp2) ∧
          resp2.User.ID = resp.User.ID ∧ db2.users.length = annGoogleLogin.1.users.length := by
  have hok : ∃ resp, annGoogleLogin = (annGoogleLogin.1, .ok resp) := ⟨_, rfl⟩
  obtain ⟨resp, hresp⟩ := hok
  obtain ⟨account, hfind, hid, hactive, hlater⟩ := google_login_twice_same_account exampleConfig
    annWithAvatarDB annGoogleLogin.1 1700000100200000000 none annProfile resp hresp
  have hact := hactive (by decide)
  exact ⟨resp, hresp, account, hfind, hid, hact, (hlater 1700000200000000000 none).2.2 hact⟩

/-- Updating the last activity keeps the e-mail address, the password hash, the flags
and the provider list. -/
theorem touched_credentials (now : Time) (userID : Int) (u : User) :
    (touched now userID u).Email = u.Email ∧
    (touched now userID u).PasswordHash = u.PasswordHash ∧
    (touched now userID u).IsEmailVerified = u.IsEmailVerified ∧
    (touched now userID u).AuthProvider = u.AuthProvider := by
  unfold touched
  split_ifs <;> exact ⟨rfl, rfl, rfl, rfl⟩

/-- Updating the last activity keeps the names. -/
theorem touched_names (now : Time) (userID : Int) (u : User) :
    (touched now userID u).FirstName = u.FirstName ∧
    (touched now userID u).LastName = u.LastName := by
  unfold touched
  split_ifs <;> exact ⟨rfl, rfl⟩

/-- C14 (amended): when `processGoogleUser` merges into an account found by e-mail
address, the Google values going into their columns, so that the merge `UPDATE`, which
the model takes to execute, does execute.  Row by row, the `users` table
afterwards is the table before with the accounts of another id as they were and, in the
account merged into: the avatar URL replaced by the Google picture whenever the profile
has one, whatever the avatar was; a first or last name replaced by the Google name when
that is not empty and the stored name is empty or the placeholder ("User", "Google"), and
left as it was when the Google name is empty.  The account returned has its names
replaced under the same condition only, takes the Google picture when the profile has
one and keeps its avatar URL otherwise. -/
theorem google_merge_fills_profile (cfg : Config) (db db1 : DB) (now : Time)
    (storeErr : Option String) (g : GoogleUserInfo) (row : User) (resp : AuthResponse)
    (hg : db.users.find? (fun u => u.GoogleID == some g.ID) = none)
    (he : db.users.find? (fun u => u.Email == g.Email) = some row)
    (_hfits : AuthService.mergeFits g row)
    (hok : AuthService.processGoogleUser cfg db now storeErr g = (db1, .ok resp)) :
    List.Forall₂ (AuthService.mergedRow g row.ID) db.users db1.users ∧
    resp.User.ID = row.ID ∧
    resp.User.FirstName =
      (if g.GivenName ≠ "" ∧ (row.FirstName = "User" ∨ row.FirstName = "") then g.GivenName
       else row.FirstName) ∧
    resp.User.LastName =
      (if g.FamilyName ≠ "" ∧ (row.LastName = "Google" ∨ row.LastName = "") then g.FamilyName
       else row.LastName) ∧
    resp.User.AvatarURL = (if g.Picture ≠ "" then some g.Picture else row.AvatarURL) := by
  obtain ⟨_, _, husers, hresp⟩ := processGoogleUser_ok cfg db db1 now storeErr g resp hok
  rw [resolveGoogleUser_of_merge db now g row hg he] at husers hresp
  refine ⟨?_, by rw [hresp]; rfl, by rw [hresp]; rfl, by rw [hresp]; rfl, by rw [hresp]; rfl⟩
  rw [husers, updateLastActivity_eq_map, updateLastActivity_eq_map, List.map_map, List.map_map,
    List.forall₂_map_right_iff, List.forall₂_same]
  intro u0 _
  simp only [Function.comp]
  by_cases hid : u0.ID = row.ID
  · have hb : (u0.ID == row.ID) = true := by simp [hid]
    simp only [hb, if_true]
    refine ⟨?_, ?_, fun hne => absurd hid hne, fun _ => ⟨?_, ?_, ?_, ?_, ?_, ?_, ?_⟩⟩
    · rw [touched_ID, touched_ID]; rfl
    · rw [(touched_credentials _ _ _).1, (touched_credentials _ _ _).1]; rfl
    · rw [touched_GoogleID, touched_GoogleID]; rfl
    · rw [(touched_credentials _ _ _).2.2.1, (touched_credentials _ _ _).2.2.1]; rfl
    · intro _
      rw [touched_AvatarURL, touched_AvatarURL]; rfl
    · intro hgiven
      rw [(touched_names _ _ _).1, (touched_names _ _ _).1]
      simp [AuthService.mergeUpdate, hgiven]
    · intro hgiven _
      rw [(touched_names _ _ _).1, (touched_names _ _ _).1]
      simp [AuthService.mergeUpdate, hgiven]
    · intro hfamily
      rw [(touched_names _ _ _).2, (touched_names _ _ _).2]
      simp [AuthService.mergeUpdate, hfamily]
    · intro hfamily _
      rw [(touched_names _ _ _).2, (touched_names _ _ _).2]
      simp [AuthService.mergeUpdate, hfamily]
  · have hb : (u0.ID == row.ID) = false := by simp [hid]
    have hsame : touched now
        (AuthService.mergedUser g (AuthService.newAuthProvider row.AuthProvider)
          { row with PasswordHash := none }).ID
        (touched now row.ID (if (u0.ID == row.ID) = true then
          AuthService.mergeUpdate now g (AuthService.newAuthProvider row.AuthProvider) u0
          else u0)) = u0 := by
      simp only [hb, Bool.false_eq_true, if_false]
      have h1 : touched now row.ID u0 = u0 := by
        unfold touched
        simp only [hb, Bool.false_eq_true, if_false]
      rw [h1]
      unfold touched
      have h2 : (u0.ID == (AuthService.mergedUser g (AuthService.newAuthProvider row.AuthProvider)
          { row with PasswordHash := none }).ID) = false := hb
      simp only [h2, Bool.false_eq_true, if_false]
    refine ⟨?_, ?_, fun _ => ?_, fun h => absurd h hid⟩
    · exact congrArg User.ID hsame
    · exact congrArg User.Email hsame
    · exact hsame

/-- Counterexample to C14 as stated.  Ann Lee's account is created by a Google sign-in
and has the picture of that profile as its avatar URL.  She then signs in with a Google
profile for the same address that carries another Google id, her names and a new
picture: the account is found by its address and merged into.  The merge replaces the
persisted avatar URL, which was neither empty nor a placeholder, by the new picture, and
the account returned carries the new picture as well. -/
theorem google_merge_replaces_avatar :
    annCreatedByGoogle.1.users.map
        (fun u => (u.ID, u.FirstName, u.LastName, u.GoogleID, u.AvatarURL)) =
      [(1, "Ann", "Lee", some "108000000000000000001", some "https://lh3.example/ann.png")] ∧
    annCreatedByGoogle.1.users.find? (fun u => u.GoogleID == some annMovedProfile.ID) = none ∧
    ∃ db1 resp,
      AuthService.processGoogleUser exampleConfig annCreatedByGoogle.1 1700000200000000000 none
        annMovedProfile = (db1, .ok resp) ∧
      db1.users.map (fun u => (u.ID, u.FirstName, u.LastName, u.GoogleID, u.AvatarURL)) =
        [(1, "Ann", "Lee", some "108000000000000000009",
          some "https://lh3.example/ann-2.png")] ∧
      resp.User.ID = 1 ∧ resp.User.AvatarURL = some "https://lh3.example/ann-2.png" :=
  ⟨by decide, by decide, _, _, rfl, by decide, by decide, by decide⟩

/-- The stored row and the account returned disagree about the names after a merge: Ann
Lee signs in with the Google profile of "Anna Leigh"; the `UPDATE` stores "Anna" and
"Leigh", and the account returned to the caller carries "Ann" and "Lee". -/
theorem google_merge_stored_names_differ :
    annWithAvatarDB.users.map (fun u => (u.FirstName, u.LastName)) = [("Ann", "Lee")] ∧
    ∃ resp, annGoogleLogin = (annGoogleLogin.1, .ok resp) ∧
      annGoogleLogin.1.users.map (fun u => (u.FirstName, u.LastName)) = [("Anna", "Leigh")] ∧
      resp.User.FirstName = "Ann" ∧ resp.User.LastName = "Lee" :=
  ⟨by decide, _, rfl, by decide, by decide, by decide⟩

/-- C14 (witness): the account that signed up as "User Google" merges with the Google
profile of Uwe Marsh.  The stored names, placeholders both, become "Uwe" and "Marsh",
the stored avatar URL becomes the Google picture, and the account returned carries the
same values. -/
theorem google_merge_fills_profile_witness :
    AuthService.mergeFits uweProfile placeholderAccount ∧
    ∃ db1 resp,
      AuthService.processGoogleUser exampleConfig placeholderDB 1700000100200000000 none
        uweProfile = (db1, .ok resp) ∧
      List.Forall₂ (AuthService.mergedRow uweProfile 1) placeholderDB.users db1.users ∧
      db1.users.map (fun u => (u.ID, u.FirstName, u.LastName, u.AvatarURL)) =
        [(1, "Uwe", "Marsh", some "https://lh3.example/uwe.png")] ∧
      resp.User.ID = 1 ∧ resp.User.FirstName = "Uwe" ∧ resp.User.LastName = "Marsh" ∧
      resp.User.AvatarURL = some "https://lh3.example/uwe.png" := by
  have hok : ∃ db1 resp, AuthService.processGoogleUser exampleConfig placeholderDB
      1700000100200000000 none uweProfile = (db1, .ok resp) := ⟨_, _, rfl⟩
  obtain ⟨db1, resp, hresp⟩ := hok
  have h := google_merge_fills_profile exampleConfig placeholderDB db1 1700000100200000000
    none uweProfile placeholderAccount resp (by decide) (by decide) (by decide) hresp
  have hdb : db1 = (AuthService.processGoogleUser exampleConfig placeholderDB
      1700000100200000000 none uweProfile).1 := by rw [hresp]
  refine ⟨by decide, db1, resp, hresp, h.1, ?_, h.2.1, h.2.2.1.trans (by decide),
    h.2.2.2.1.trans (by decide), h.2.2.2.2.trans (by decide)⟩
  rw [hdb]
  decide

/-! ## Properties of code generation -/

/-- The character of a digit below ten is an ASCII digit with that value. -/
theorem digitChar_decimal (k : Nat) (hk : k < 10) :
    isAsciiDigit (Nat.digitChar k) = true ∧ (Nat.digitChar k).toNat - 48 = k := by
  interval_cases k <;> exact ⟨by decide, by decide⟩

/-- An ASCII digit has a value of at most nine. -/
theorem isAsciiDigit_value (c : Char) (h : isAsciiDigit c = true) :
    48 ≤ c.toNat ∧ c.toNat - 48 ≤ 9 := by
  unfold isAsciiDigit at h
  simp only [Bool.and_eq_true, decide_eq_true_eq] at h
  omega

/-- Reading the digits `toDigitsCore` writes in front of `ds` gives the number written. -/
theorem toDigitsCore_value : ∀ (fuel n : Nat) (ds : List Char), n < fuel →
    (Nat.toDigitsCore 10 fuel n ds).foldl (fun acc c => 10 * acc + (c.toNat - 48)) 0 =
      ds.foldl (fun acc c => 10 * acc + (c.toNat - 48)) n := by
  intro fuel
  induction fuel with
  | zero => intro n ds h; omega
  | succ fuel ih =>
    intro n ds h
    have hd := digitChar_decimal (n % 10) (Nat.mod_lt _ (by decide))
    by_cases hdiv : n / 10 = 0
    · simp only [Nat.toDigitsCore, hdiv, if_true, List.foldl_cons, hd.2]
      have : n % 10 = n := by omega
      rw [this]
      simp
    · simp only [Nat.toDigitsCore, hdiv, if_false]
      rw [ih (n / 10) _ (by omega)]
      simp only [List.foldl_cons, hd.2]
      have : 10 * (n / 10) + n % 10 = n := Nat.div_add_mod n 10
      rw [this]

/-- The characters `toDigitsCore` writes are ASCII digits. -/
theorem toDigitsCore_digits : ∀ (fuel n : Nat) (ds : List Char),
    (∀ c ∈ ds, isAsciiDigit c = true) →
    ∀ c ∈ Nat.toDigitsCore 10 fuel n ds, isAsciiDigit c = true := by
  intro fuel
  induction fuel with
  | zero => intro n ds h c hc; exact h c hc
  | succ fuel ih =>
    intro n ds h c hc
    have hd := digitChar_decimal (n % 10) (Nat.mod_lt _ (by decide))
    have hcons : ∀ x ∈ Nat.digitChar (n % 10) :: ds, isAsciiDigit x = true := by
      intro x hx
      rcases List.mem_cons.1 hx with hx | hx
      · rw [hx]; exact hd.1
      · exact h x hx
    by_cases hdiv : n / 10 = 0
    · simp only [Nat.toDigitsCore, hdiv, if_true] at hc
      exact hcons c hc
    · simp only [Nat.toDigitsCore, hdiv, if_false] at hc
      exact ih (n / 10) _ hcons c hc

/-- The characters of `zeroPad`: zeros, then the decimal digits of the number. -/
theorem zeroPad_toList (width r : Nat) :
    (zeroPad width r).toList =
      List.replicate (width - (Nat.toDigits 10 r).length) '0' ++ Nat.toDigits 10 r := by
  unfold zeroPad
  have h : (toString r : String) = String.mk (Nat.toDigits 10 r) := rfl
  rw [h]
  simp [String.toList, String.length]

/-- Leading zeros do not change the value. -/
theorem decimalValue_zeros (k : Nat) (l : List Char) :
    decimalValue (List.replicate k '0' ++ l) = decimalValue l := by
  unfold decimalValue
  rw [List.foldl_append]
  have h : (List.replicate k '0').foldl (fun acc c => 10 * acc + (c.toNat - 48)) 0 = 0 := by
    induction k with
    | zero => rfl
    | succ k ih =>
      rw [List.replicate_succ, List.foldl_cons]
      exact ih
  rw [h]

/-- A string of decimal digits denotes a number below ten to the power of its length. -/
theorem foldl_digits_lt : ∀ (l : List Char) (acc m : Nat), acc < 10 ^ m →
    (∀ c ∈ l, isAsciiDigit c = true) →
    l.foldl (fun acc c => 10 * acc + (c.toNat - 48)) acc < 10 ^ (m + l.length) := by
  intro l
  induction l with
  | nil => intro acc m h _; simpa using h
  | cons c rest ih =>
    intro acc m h hall
    have hc := isAsciiDigit_value c (hall c (List.mem_cons_self _ _))
    have hstep : 10 * acc + (c.toNat - 48) < 10 ^ (m + 1) := by
      rw [pow_succ]
      omega
    have := ih (10 * acc + (c.toNat - 48)) (m + 1) hstep
      (fun x hx => hall x (List.mem_cons_of_mem _ hx))
    rw [List.foldl_cons, List.length_cons]
    have he : m + (rest.length + 1) = m + 1 + rest.length := by omega
    rw [he]
    exact this

/-- Two strings of decimal digits of one length that denote the same number are equal. -/
theorem foldl_digits_injective : ∀ (l1 l2 : List Char) (a1 a2 : Nat),
    l1.length = l2.length →
    (∀ c ∈ l1, isAsciiDigit c = true) → (∀ c ∈ l2, isAsciiDigit c = true) →
    l1.foldl (fun acc c => 10 * acc + (c.toNat - 48)) a1 =
      l2.foldl (fun acc c => 10 * acc + (c.toNat - 48)) a2 →
    a1 = a2 ∧ l1 = l2 := by
  intro l1
  induction l1 with
  | nil =>
    intro l2 a1 a2 hlen _ _ h
    have : l2 = [] := List.length_eq_zero.1 hlen.symm
    subst this
    exact ⟨h, rfl⟩
  | cons c1 t1 ih =>
    intro l2 a1 a2 hlen h1 h2 h
    cases l2 with
    | nil => simp at hlen
    | cons c2 t2 =>
      simp only [List.length_cons, add_left_inj] at hlen
      simp only [List.foldl_cons] at h
      obtain ⟨hacc, htail⟩ := ih t2 _ _ hlen
        (fun x hx => h1 x (List.mem_cons_of_mem _ hx))
        (fun x hx => h2 x (List.mem_cons_of_mem _ hx)) h
      have hc1 := isAsciiDigit_value c1 (h1 c1 (List.mem_cons_self _ _))
      have hc2 := isAsciiDigit_value c2 (h2 c2 (List.mem_cons_self _ _))
      have hnat : c1.toNat = c2.toNat := by omega
      have hchar : c1 = c2 := by
        rw [← Char.ofNat_toNat c1, ← Char.ofNat_toNat c2, hnat]
      refine ⟨by omega, ?_⟩
      rw [hchar, htail]

/-- The code `zeroPad` makes of a number below ten to the power of a positive width: as
many characters as the width, all digits, denoting the number. -/
theorem zeroPad_spec (width r : Nat) (hwidth : 0 < width) (hr : r < 10 ^ width) :
    (zeroPad width r).toList.length = width ∧
    (∀ c ∈ (zeroPad width r).toList, isAsciiDigit c = true) ∧
    decimalValue (zeroPad width r).toList = r := by
  have hlen : (Nat.toDigits 10 r).length ≤ width := Nat.repr_length r width hwidth hr
  rw [zeroPad_toList]
  refine ⟨?_, ?_, ?_⟩
  · rw [List.length_append, List.length_replicate]
    omega
  · intro c hc
    rcases List.mem_append.1 hc with hc | hc
    · rw [(List.mem_replicate.1 hc).2]
      decide
    · exact toDigitsCore_digits _ _ [] (fun x hx => absurd hx (List.not_mem_nil _)) c hc
  · rw [decimalValue_zeros]
    unfold decimalValue Nat.toDigits
    rw [toDigitsCore_value (r + 1) r [] (by omega)]
    rfl

/-- C18: `GenerateOTP` is the zero-padded decimal rendering of its random draw.  With `n`
the configured length, or 6 when the configured length is not positive, every draw `r`
below `10 ^ n` gives a code of exactly `n` characters, all decimal digits, whose numeric
value is `r`; so distinct draws give distinct codes, and every string of `n` digits is
the code of some draw. -/
theorem generate_otp_zero_padded_decimal (cfg : Config) (n : Nat)
    (hn : (n : Int) = if cfg.OTP.Length ≤ 0 then 6 else cfg.OTP.Length) :
    (cfg.OTP.Length ≤ 0 → n = 6) ∧
    (∀ r, r < 10 ^ n → ∃ code, OTPService.GenerateOTP cfg (.ok r) = .ok code ∧
      code.length = n ∧ (∀ c ∈ code.toList, isAsciiDigit c = true) ∧
      decimalValue code.toList = r) ∧
    (∀ r1 r2, r1 < 10 ^ n → r2 < 10 ^ n →
      OTPService.GenerateOTP cfg (.ok r1) = OTPService.GenerateOTP cfg (.ok r2) → r1 = r2) ∧
    (∀ digits : List Char, digits.length = n → (∀ c ∈ digits, isAsciiDigit c = true) →
      ∃ r, r < 10 ^ n ∧ OTPService.GenerateOTP cfg (.ok r) = .ok (String.mk digits)) := by
  have hgen : ∀ r, OTPService.GenerateOTP cfg (.ok r) = .ok (zeroPad n r) := by
    intro r
    unfold OTPService.GenerateOTP
    simp only [← hn, Int.toNat_ofNat]
  have hpos : 0 < n := by
    by_cases h : cfg.OTP.Length ≤ 0
    · rw [if_pos h] at hn
      omega
    · rw [if_neg h] at hn
      omega
  refine ⟨?_, ?_, ?_, ?_⟩
  · intro h
    rw [if_pos h] at hn
    omega
  · intro r hr
    obtain ⟨hlen, hdig, hval⟩ := zeroPad_spec n r hpos hr
    exact ⟨zeroPad n r, hgen r, hlen, hdig, hval⟩
  · intro r1 r2 h1 h2 heq
    rw [hgen, hgen] at heq
    simp only [Except.ok.injEq] at heq
    have hv1 := (zeroPad_spec n r1 hpos h1).2.2
    have hv2 := (zeroPad_spec n r2 hpos h2).2.2
    rw [← hv1, ← hv2, heq]
  · intro digits hlen hdig
    have hlt : decimalValue digits < 10 ^ n := by
      have := foldl_digits_lt digits 0 0 (by simp) hdig
      simpa [decimalValue, hlen] using this
    refine ⟨decimalValue digits, hlt, ?_⟩
    rw [hgen]
    obtain ⟨hl, hd, hv⟩ := zeroPad_spec n (decimalValue digits) hpos hlt
    have heq := (foldl_digits_injective (zeroPad n (decimalValue digits)).toList digits 0 0
      (by rw [hl, hlen]) hd hdig hv).2
    have hmk : zeroPad n (decimalValue digits) =
        String.mk (zeroPad n (decimalValue digits)).toList := rfl
    exact congrArg Except.ok (hmk.trans (congrArg String.mk heq))

/-- C18 (witness): with six configured digits the draw 42 gives "000042", and a
configured length of 0 gives six digits as well. -/
theorem generate_otp_zero_padded_decimal_witness :
    (∃ code, OTPService.GenerateOTP exampleConfig (.ok 42) = .ok code ∧ code = "000042" ∧
      code.length = 6 ∧ decimalValue code.toList = 42) ∧
    (∃ code, OTPService.GenerateOTP { exampleConfig with OTP := { Expiry := 10, Length := 0 } }
      (.ok 42) = .ok code ∧ code.length = 6 ∧ decimalValue code.toList = 42) := by
  obtain ⟨code, hcode, hlen, _, hval⟩ :=
    (generate_otp_zero_padded_decimal exampleConfig 6 (by decide)).2.1 42 (by norm_num)
  obtain ⟨code0, hcode0, hlen0, _, hval0⟩ :=
    (generate_otp_zero_padded_decimal { exampleConfig with OTP := { Expiry := 10, Length := 0 } }
      6 (by decide)).2.1 42 (by norm_num)
  refine ⟨⟨code, hcode, ?_, hlen, hval⟩, ⟨code0, hcode0, hlen0, hval0⟩⟩
  have h42 : OTPService.GenerateOTP exampleConfig (.ok 42) = .ok "000042" := by decide
  rw [h42] at hcode
  simp only [Except.ok.injEq] at hcode
  exact hcode.symm

/-! ## Properties of sending and resending codes -/

/-- The characters of a code `GenerateOTP` makes are ASCII digits, whatever the draw. -/
theorem GenerateOTP_digits (cfg : Config) (draw : Except String Nat) (code : String)
    (h : OTPService.GenerateOTP cfg draw = .ok code) :
    ∀ c ∈ code.toList, isAsciiDigit c = true := by
  unfold OTPService.GenerateOTP at h
  cases draw with
  | error e => exact Except.noConfusion h
  | ok n =>
    simp only at h
    have hcode := (Except.ok.inj h).symm
    intro c hc
    rw [hcode, zeroPad_toList] at hc
    rcases List.mem_append.1 hc with hc | hc
    · rw [(List.mem_replicate.1 hc).2]
      decide
    · exact toDigitsCore_digits _ _ [] (fun x hx => absurd hx (List.not_mem_nil _)) c hc

/-- A code `GenerateOTP` makes is stored as it is when the insert of `SendOTP` executes. -/
theorem stored_code (cfg : Config) (draw : Except String Nat) (code stored : String)
    (h : OTPService.GenerateOTP cfg draw = .ok code) (hs : varchar 10 code = .ok stored) :
    stored = code ∧ code.length ≤ 10 := by
  apply varchar_ok_of_no_space 10 code stored _ hs
  intro c hc hsp
  have := GenerateOTP_digits cfg draw code h c hc
  rw [hsp] at this
  exact absurd this (by decide)

/-- A code `GenerateOTP` makes goes into the column `otp_code` exactly when it has at most
ten characters. -/
theorem varchar_code (cfg : Config) (draw : Except String Nat) (code : String)
    (h : OTPService.GenerateOTP cfg draw = .ok code) :
    (code.length ≤ 10 → varchar 10 code = .ok code) ∧
    (10 < code.length → varchar 10 code = .error (valueTooLong 10)) := by
  have hdig := GenerateOTP_digits cfg draw code h
  have hnul : hasNUL code = false := by
    unfold hasNUL
    rw [List.any_eq_false]
    intro c hc hz
    have hd := hdig c hc
    unfold isAsciiDigit at hd
    simp only [Bool.and_eq_true, decide_eq_true_eq] at hd
    simp only [beq_iff_eq] at hz
    omega
  refine ⟨fun hlen => varchar_of_fits 10 code hnul hlen, ?_⟩
  intro hlen
  cases hv : varchar 10 code with
  | ok stored =>
    have := (stored_code cfg draw code stored h hv).2
    omega
  | error e =>
    unfold varchar at hv
    rw [hnul] at hv
    simp only [Bool.false_eq_true, if_false] at hv
    split_ifs at hv
    rw [← Except.error.inj hv]

/-- `SendOTP` for a draw that succeeded, a code of at most ten characters and an address
and a purpose that go into their columns as they are: the row is appended, and the
result is that of the dispatch on the purpose. -/
theorem SendOTP_of_fits (cfg : Config) (db : DB) (now : Time) (n : Nat)
    (emailErr : Option String) (email otpType code : String)
    (hgen : OTPService.GenerateOTP cfg (.ok n) = .ok code) (hcode : code.length ≤ 10)
    (hemail : fitsColumn 255 email) (htype : fitsColumn 50 otpType) :
    OTPService.SendOTP cfg db now (.ok n) emailErr email otpType =
      ({ db with
         otps := db.otps ++
           [{ ID := db.otps_id_seq + 1, Email := email, OTPCode := code, OTPType := otpType,
              ExpiresAt := now + wrapInt64 (cfg.OTP.Expiry * Minute), CreatedAt := now,
              IsUsed := false }]
         otps_id_seq := db.otps_id_seq + 1 },
       if otpType = OTPTypeEmailVerification ∨ otpType = OTPTypePasswordReset ∨
           otpType = OTPTypeLogin then emailErr
       else some ("unsupported OTP type: " ++ otpType)) := by
  have hins := insertOTP_of_fits db now email code otpType
    (now + wrapInt64 (cfg.OTP.Expiry * Minute))
    (varchar_of_fits 255 email hemail.1 hemail.2)
    ((varchar_code cfg (.ok n) code hgen).1 hcode)
    (varchar_of_fits 50 otpType htype.1 htype.2)
  rcases SendOTP_cases cfg db now (.ok n) emailErr email otpType with
    ⟨err, hg, _⟩ | ⟨c, err, hg, hi, _⟩ | ⟨c, db1, hg, hi, h⟩
  · rw [hgen] at hg; exact Except.noConfusion hg
  · rw [hgen] at hg
    cases Except.ok.inj hg
    rw [hins] at hi
    exact Except.noConfusion hi
  · rw [hgen] at hg
    cases Except.ok.inj hg
    rw [hins] at hi
    rw [h, ← Except.ok.inj hi]

/-- `SendOTP` for a draw that succeeded and a code of more than ten characters: the insert
fails and the store is as it was. -/
theorem SendOTP_of_long_code (cfg : Config) (db : DB) (now : Time) (n : Nat)
    (emailErr : Option String) (email otpType code : String)
    (hgen : OTPService.GenerateOTP cfg (.ok n) = .ok code) (hcode : 10 < code.length) :
    ∃ err, OTPService.SendOTP cfg db now (.ok n) emailErr email otpType =
      (db, some ("failed to save OTP: " ++ err)) := by
  obtain ⟨e, hins⟩ := insertOTP_error db now email code otpType
    (now + wrapInt64 (cfg.OTP.Expiry * Minute))
    (Or.inr (Or.inl ⟨_, (varchar_code cfg (.ok n) code hgen).2 hcode⟩))
  rcases SendOTP_cases cfg db now (.ok n) emailErr email otpType with
    ⟨err, hg, _⟩ | ⟨c, err, hg, hi, h⟩ | ⟨c, db1, hg, hi, _⟩
  · rw [hgen] at hg; exact Except.noConfusion hg
  · exact ⟨err, h⟩
  · rw [hgen] at hg
    cases Except.ok.inj hg
    rw [hins] at hi
    exact Except.noConfusion hi

/-- C4 (amended): resend invalidation.  After `ResendOTP` for an e-mail address and
purpose has returned, whether or not the e-mail could be sent, `VerifyOTP` of a code `c`
for that address and purpose fails with "invalid or expired OTP" at every instant,
provided the code the resend generated, if any, differs from `c`.  In particular every
challenge issued earlier with a code other than the new one is dead, expired or not. -/
theorem resend_invalidates_previous_codes (cfg : Config) (db : DB) (now later : Time)
    (draw : Except String Nat) (emailErr : Option String) (email otpType c : String)
    (hfresh : ∀ fresh, OTPService.GenerateOTP cfg draw = .ok fresh → fresh ≠ c) :
    (OTPService.VerifyOTP (OTPService.ResendOTP cfg db now draw emailErr email otpType).1
      later email c otpType).2 = some "invalid or expired OTP" := by
  rw [VerifyOTP_of_no_candidate]
  unfold otpCandidates OTPService.ResendOTP
  rcases SendOTP_cases cfg
      { db with
        otps := db.otps.map (fun o =>
          if o.Email == email && o.OTPType == otpType && !o.IsUsed then { o with IsUsed := true }
          else o) } now draw emailErr email otpType with
    ⟨_, _, h⟩ | ⟨_, _, _, _, h⟩ | ⟨code, db1, hgen, hins, h⟩
  · rw [h]
    exact otpCandidates_after_invalidate db email c otpType
  · rw [h]
    exact otpCandidates_after_invalidate db email c otpType
  · rw [h]
    obtain ⟨storedEmail, storedCode, storedType, _, hcode, _, hdb⟩ :=
      insertOTP_ok _ db1 now email code otpType _ hins
    have hne : storedCode ≠ c := by
      rw [(stored_code cfg draw code storedCode hgen hcode).1]
      exact hfresh code hgen
    rw [hdb]
    simp only [List.filter_append, otpCandidates_after_invalidate, List.nil_append]
    simp [hne]

/-- Counterexample to C4 as stated: a challenge with code 123456 is pending, the resend
draws 123456 again, and the old code verifies after the resend. -/
theorem resend_may_reissue_same_code :
    (otpCandidates oneCodeDB "a@x.com" "123456" "login").length = 1 ∧
    (OTPService.ResendOTP exampleConfig oneCodeDB 1700000060000000000 (.ok 123456) none
      "a@x.com" "login").2 = none ∧
    (OTPService.VerifyOTP
      (OTPService.ResendOTP exampleConfig oneCodeDB 1700000060000000000 (.ok 123456) none
        "a@x.com" "login").1
      1700000061000000000 "a@x.com" "123456" "login").2 = none := by
  decide

/-- Witness for C4 (amended): the pending code 123456 after a resend that draws 654321. -/
theorem resend_invalidates_previous_codes_witness :
    (∀ fresh, OTPService.GenerateOTP exampleConfig (.ok 654321) = .ok fresh →
      fresh ≠ "123456") ∧
    (otpCandidates oneCodeDB "a@x.com" "123456" "login").length = 1 ∧
    (OTPService.VerifyOTP
      (OTPService.ResendOTP exampleConfig oneCodeDB 1700000060000000000 (.ok 654321) none
        "a@x.com" "login").1
      1700000061000000000 "a@x.com" "123456" "login").2 = some "invalid or expired OTP" :=
  ⟨by intro fresh h; cases h; decide, by decide,
    resend_invalidates_previous_codes exampleConfig oneCodeDB 1700000060000000000
      1700000061000000000 (.ok 654321) none "a@x.com" "login" "123456"
      (by intro fresh h; cases h; decide)⟩

/-- C17: `ForgotPassword` never reveals whether an account exists.  When no active
account has the e-mail address it returns nil and leaves the store unchanged, whatever
the random source and the e-mail service would have answered: no challenge is stored and
no message is sent.  When an active account has the address it is `SendOTP` for the
purpose "password_reset": with a draw `n`, a code of at most ten characters and an
address that goes into its column, it appends an unused challenge row for the address
with that purpose and returns the outcome of sending the message; with a longer code the
insert fails and it returns "failed to save OTP" with the store as it was. -/
theorem forgot_password_never_reveals_account (cfg : Config) (db : DB) (now : Time)
    (req : ForgotPasswordRequest) :
    ((¬ ∃ u ∈ db.users, u.Email = req.Email ∧ u.IsActive = true) →
      ∀ draw emailErr, AuthService.ForgotPassword cfg db now draw emailErr req = (db, none)) ∧
    ((∃ u ∈ db.users, u.Email = req.Email ∧ u.IsActive = true) →
      (∀ draw emailErr, AuthService.ForgotPassword cfg db now draw emailErr req =
        OTPService.SendOTP cfg db now draw emailErr req.Email OTPTypePasswordReset) ∧
      (∀ n emailErr, ∃ code, OTPService.GenerateOTP cfg (.ok n) = .ok code ∧
        (code.length ≤ 10 → fitsColumn 255 req.Email →
          AuthService.ForgotPassword cfg db now (.ok n) emailErr req =
            ({ db with
               otps := db.otps ++
                 [{ ID := db.otps_id_seq + 1, Email := req.Email, OTPCode := code,
                    OTPType := "password_reset",
                    ExpiresAt := now + wrapInt64 (cfg.OTP.Expiry * Minute), CreatedAt := now,
                    IsUsed := false }]
               otps_id_seq := db.otps_id_seq + 1 }, emailErr)) ∧
        (10 < code.length → hasNUL req.Email = false →
          ∃ err, AuthService.ForgotPassword cfg db now (.ok n) emailErr req =
            (db, some ("failed to save OTP: " ++ err))))) := by
  have hany : (db.users.any (fun u => u.Email == req.Email && u.IsActive) = true) ↔
      ∃ u ∈ db.users, u.Email = req.Email ∧ u.IsActive = true := by
    simp [List.any_eq_true]
  constructor
  · intro hno draw emailErr
    have hf : db.users.any (fun u => u.Email == req.Email && u.IsActive) = false := by
      cases hb : db.users.any (fun u => u.Email == req.Email && u.IsActive) with
      | false => rfl
      | true => exact absurd (hany.1 hb) hno
    simp [AuthService.ForgotPassword, hf]
  · intro hyes
    have ht := hany.2 hyes
    have hsend : ∀ draw emailErr, AuthService.ForgotPassword cfg db now draw emailErr req =
        OTPService.SendOTP cfg db now draw emailErr req.Email OTPTypePasswordReset := by
      intro draw emailErr
      simp [AuthService.ForgotPassword, ht]
    refine ⟨hsend, ?_⟩
    intro n emailErr
    refine ⟨_, rfl, ?_, ?_⟩
    · intro hcode hemail
      rw [hsend, SendOTP_of_fits cfg db now n emailErr req.Email OTPTypePasswordReset _ rfl
        hcode hemail (by decide)]
      simp [OTPTypePasswordReset]
    · intro hcode _
      rw [hsend]
      exact SendOTP_of_long_code cfg db now n emailErr req.Email OTPTypePasswordReset _ rfl hcode

/-- C17 (witness): on a store whose only account is "a@x.com", `ForgotPassword` for
"nobody@x.com" returns nil without a trace even when the e-mail service is down, and for
"a@x.com" it stores the six-digit challenge "000042" and returns nil. -/
theorem forgot_password_never_reveals_account_witness :
    AuthService.ForgotPassword exampleConfig annOnlyDB 1700000200000000000 (.ok 42)
      (some "smtp: connection refused") { Email := "nobody@x.com" } = (annOnlyDB, none) ∧
    AuthService.ForgotPassword exampleConfig annOnlyDB 1700000200000000000 (.ok 42) none
      { Email := "a@x.com" } =
      ({ annOnlyDB with
         otps := [{ ID := 1, Email := "a@x.com", OTPCode := "000042",
                    OTPType := "password_reset", ExpiresAt := 1700000800000000000,
                    CreatedAt := 1700000200000000000, IsUsed := false }]
         otps_id_seq := 1 }, none) := by
  have h1 := forgot_password_never_reveals_account exampleConfig annOnlyDB 1700000200000000000
    { Email := "nobody@x.com" }
  have h2 := forgot_password_never_reveals_account exampleConfig annOnlyDB 1700000200000000000
    { Email := "a@x.com" }
  refine ⟨h1.1 (by decide) _ _, ?_⟩
  have h3 := (h2.2 (by decide)).1 (.ok 42) none
  rw [h3]
  decide

/-- The invalidating update of `ResendOTP`, row by row. -/
theorem invalidate_eq_map (db : DB) (email otpType : String) :
    db.otps.map (fun o =>
        if o.Email == email && o.OTPType == otpType && !o.IsUsed then { o with IsUsed := true }
        else o) =
      db.otps.map (fun o =>
        if o.Email = email ∧ o.OTPType = otpType then { o with IsUsed := true } else o) := by
  apply List.map_congr_left
  intro o _
  by_cases h1 : o.Email = email
  · by_cases h2 : o.OTPType = otpType
    · cases h3 : o.IsUsed with
      | false => simp [h1, h2, h3]
      | true =>
        simp only [h1, h2, h3, beq_self_eq_true, Bool.and_self, Bool.not_true,
          Bool.and_false, Bool.false_eq_true, if_false, and_self, if_true]
        cases o
        simp_all
    · simp [h1, h2]
  · simp [h1]

/-- C24 (amended): `ResendOTP` for an e-mail address and purpose, the random draw being
`n`.  When the code made of the draw has at most ten characters and the address and the
purpose go into their columns as they are (at most 255 and 50 characters, no NUL), the
`otps` table afterwards is the table before, with every row of that address and purpose
marked used and every row of another address or purpose as it was, followed by exactly
one new row: unused, for that address and purpose, carrying the code and expiring at
`now` plus the configured minutes as a Go duration (plainly `now` plus the minutes when
these fit 64-bit nanoseconds).  When the code has more than ten characters (address and
purpose free of NUL) the insert fails: the rows of the address and purpose are marked
used, no row is added and the call returns "failed to save OTP".  The other tables are
unchanged in every case. -/
theorem resend_otp_effect (cfg : Config) (db : DB) (now : Time) (n : Nat)
    (emailErr : Option String) (email otpType : String) :
    ∃ code, OTPService.GenerateOTP cfg (.ok n) = .ok code ∧
      (code.length ≤ 10 → fitsColumn 255 email → fitsColumn 50 otpType →
        (OTPService.ResendOTP cfg db now (.ok n) emailErr email otpType).1.otps =
          db.otps.map (fun o =>
            if o.Email = email ∧ o.OTPType = otpType then { o with IsUsed := true } else o) ++
          [{ ID := db.otps_id_seq + 1, Email := email, OTPCode := code, OTPType := otpType,
             ExpiresAt := now + wrapInt64 (cfg.OTP.Expiry * Minute), CreatedAt := now,
             IsUsed := false }]) ∧
      (10 < code.length → hasNUL email = false → hasNUL otpType = false →
        (OTPService.ResendOTP cfg db now (.ok n) emailErr email otpType).1.otps =
          db.otps.map (fun o =>
            if o.Email = email ∧ o.OTPType = otpType then { o with IsUsed := true } else o) ∧
        ∃ err, (OTPService.ResendOTP cfg db now (.ok n) emailErr email otpType).2 =
          some ("failed to save OTP: " ++ err)) ∧
      (-2 ^ 63 ≤ cfg.OTP.Expiry * Minute → cfg.OTP.Expiry * Minute < 2 ^ 63 →
        now + wrapInt64 (cfg.OTP.Expiry * Minute) = now + cfg.OTP.Expiry * Minute) ∧
      (OTPService.ResendOTP cfg db now (.ok n) emailErr email otpType).1.users = db.users ∧
      (OTPService.ResendOTP cfg db now (.ok n) emailErr email otpType).1.refresh_tokens
        = db.refresh_tokens := by
  refine ⟨_, rfl, ?_, ?_, ?_, ?_, ?_⟩
  · intro hcode hemail htype
    unfold OTPService.ResendOTP
    rw [SendOTP_of_fits cfg _ now n emailErr email otpType _ rfl hcode hemail htype]
    simp only [invalidate_eq_map]
  · intro hcode _ _
    unfold OTPService.ResendOTP
    obtain ⟨err, h⟩ := SendOTP_of_long_code cfg
      { db with
        otps := db.otps.map (fun o =>
          if o.Email == email && o.OTPType == otpType && !o.IsUsed then { o with IsUsed := true }
          else o) } now n emailErr email otpType _ rfl hcode
    rw [h]
    exact ⟨invalidate_eq_map db email otpType, err, rfl⟩
  · intro hlo hhi
    rw [wrapInt64_of_fits _ hlo hhi]
  · unfold OTPService.ResendOTP
    exact (SendOTP_frame cfg _ now (.ok n) emailErr email otpType).1
  · unfold OTPService.ResendOTP
    exact (SendOTP_frame cfg _ now (.ok n) emailErr email otpType).2.1

/-- Counterexample to C24 as stated: with codes of eleven digits configured, the insert
of the new challenge fails in the column `otp_code VARCHAR(10)`.  On the empty store
`ResendOTP` returns "failed to save OTP" and persists no row; on a store with a pending
login code it marks that row used and persists no new one, so that no unused row is left
for the address and purpose. -/
theorem resend_persists_no_row_for_long_code :
    OTPService.ResendOTP elevenDigitConfig emptyDB 1700000060000000000 (.ok 123456) none
      "a@x.com" OTPTypeLogin =
      (emptyDB, some ("failed to save OTP: " ++ valueTooLong 10)) ∧
    (OTPService.ResendOTP elevenDigitConfig oneCodeDB 1700000060000000000 (.ok 123456) none
      "a@x.com" OTPTypeLogin).1.otps.map (fun o => (o.ID, o.OTPCode, o.IsUsed)) =
      [(1, "123456", true)] ∧
    (OTPService.ResendOTP elevenDigitConfig oneCodeDB 1700000060000000000 (.ok 123456) none
      "a@x.com" OTPTypeLogin).1.otps.filter
        (fun o => o.Email == "a@x.com" && o.OTPType == OTPTypeLogin && !o.IsUsed) = [] := by
  decide

/-- C24 (witness): a login code is resent on `twoEqualCodesDB` at 1 700 000 060 s with the
draw 654321.  The two rows sent before are marked used and the new row, with id 3,
expires ten minutes later. -/
theorem resend_otp_effect_witness :
    (OTPService.ResendOTP exampleConfig twoEqualCodesDB 1700000060000000000 (.ok 654321) none
      "a@x.com" OTPTypeLogin).1.otps.map (fun o => (o.ID, o.OTPCode, o.IsUsed, o.ExpiresAt)) =
      [(1, "123456", true, 1700000600000000000), (2, "123456", true, 1700000601000000000),
       (3, "654321", false, 1700000660000000000)] := by
  obtain ⟨code, hcode, hotps, _⟩ := resend_otp_effect exampleConfig twoEqualCodesDB
    1700000060000000000 654321 none "a@x.com" OTPTypeLogin
  have hc : OTPService.GenerateOTP exampleConfig (.ok 654321) = .ok "654321" := by decide
  rw [hc] at hcode
  simp only [Except.ok.injEq] at hcode
  subst hcode
  rw [hotps (by decide) (by decide) (by decide)]
  decide

/-- The first locked section refuses a signature that is marked in progress and leaves
the tracker as it is. -/
theorem enter_rejected (rt : RequestTracker) (now : Time) (signature : String)
    (info : RequestInfo) (hentry : rt.requests signature = some info)
    (hbusy : info.InProgress = true) : rt.enter now signature = (rt, false) := by
  unfold RequestTracker.enter
  rw [hentry]
  simp only [hbusy, if_true]

/-- The first locked section admits a signature that is not marked in progress and marks
it. -/
theorem enter_admitted (rt : RequestTracker) (now : Time) (signature : String)
    (hfree : ∀ info, rt.requests signature = some info → info.InProgress = false) :
    rt.enter now signature =
      ({ requests := Function.update rt.requests signature
          (some { InProgress := true, Timestamp := now }) }, true) := by
  unfold RequestTracker.enter
  cases hentry : rt.requests signature with
  | none => rfl
  | some info => simp only [hfree info hentry, Bool.false_eq_true, if_false]

/-- The first locked section either refuses a signature marked in progress or admits one
that is not. -/
theorem enter_cases (rt : RequestTracker) (now : Time) (signature : String) :
    (rt.enter now signature = (rt, false) ∧
      ∃ info, rt.requests signature = some info ∧ info.InProgress = true) ∨
    (rt.enter now signature =
      ({ requests := Function.update rt.requests signature
          (some { InProgress := true, Timestamp := now }) }, true) ∧
      ∀ info, rt.requests signature = some info → info.InProgress = false) := by
  cases hentry : rt.requests signature with
  | none =>
    right
    have hfree : ∀ info, rt.requests signature = some info → info.InProgress = false := by
      intro info h
      rw [hentry] at h
      exact Option.noConfusion h
    exact ⟨enter_admitted rt now signature hfree, fun info h => Option.noConfusion h⟩
  | some info =>
    cases hbusy : info.InProgress with
    | true => exact Or.inl ⟨enter_rejected rt now signature info hentry hbusy, info, rfl, hbusy⟩
    | false =>
      right
      have hfree : ∀ i, rt.requests signature = some i → i.InProgress = false := by
        intro i h
        rw [hentry] at h
        cases h
        exact hbusy
      refine ⟨enter_admitted rt now signature hfree, ?_⟩
      intro i h
      cases h
      exact hbusy

/-- The second locked section changes no entry but that of its signature, and does not
mark that one in progress. -/
theorem leave_requests (rt : RequestTracker) (now : Time) (signature other : String) :
    (other ≠ signature → (rt.leave now signature).requests other = rt.requests other) ∧
    ∀ info, (rt.leave now signature).requests signature = some info →
      (rt.requests signature).isSome = true ∧ info = { InProgress := false, Timestamp := now } := by
  unfold RequestTracker.leave
  cases hentry : rt.requests signature with
  | none =>
    refine ⟨fun _ => rfl, ?_⟩
    intro info h
    simp only at h
    rw [hentry] at h
    exact Option.noConfusion h
  | some entry =>
    refine ⟨fun hne => Function.update_noteq hne _ _, ?_⟩
    intro info h
    simp only [Function.update_same, Option.some.injEq] at h
    exact ⟨rfl, h.symm⟩

/-- The step of a request for a path that is not guarded. -/
theorem step_arrive_unguarded (s : DedupState) (clientIP path : String) (now : Time)
    (hguard : guardedPath path = false) : s.step (.arrive clientIP path now) = s := by
  simp [DedupState.step, hguard]

/-- The step of a request that the first locked section refuses. -/
theorem step_arrive_rejected (s : DedupState) (clientIP path : String) (now : Time)
    (hguard : guardedPath path = true)
    (henter : s.rt.enter now (createRequestSignature clientIP path) = (s.rt, false)) :
    s.step (.arrive clientIP path now) = s := by
  simp [DedupState.step, hguard, henter]

/-- The step of a request that the first locked section admits. -/
theorem step_arrive_admitted (s : DedupState) (clientIP path : String) (now : Time)
    (rt : RequestTracker) (hguard : guardedPath path = true)
    (henter : s.rt.enter now (createRequestSignature clientIP path) = (rt, true)) :
    s.step (.arrive clientIP path now) =
      { rt := rt, executing := createRequestSignature clientIP path :: s.executing } := by
  simp [DedupState.step, hguard, henter]

/-- The step of an executing request whose handler returned. -/
theorem step_complete (s : DedupState) (clientIP path : String) (now : Time)
    (hmem : createRequestSignature clientIP path ∈ s.executing) :
    s.step (.complete clientIP path now) =
      { rt := s.rt.leave now (createRequestSignature clientIP path)
        executing := s.executing.erase (createRequestSignature clientIP path) } := by
  simp [DedupState.step, hmem]

/-- The step of an executing request whose handler panicked. -/
theorem step_unwind (s : DedupState) (clientIP path : String)
    (hmem : createRequestSignature clientIP path ∈ s.executing) :
    s.step (.unwind clientIP path) =
      { s with executing := s.executing.erase (createRequestSignature clientIP path) } := by
  simp [DedupState.step, hmem]

/-- The steps `complete` and `unwind` of a request that is not executing change nothing. -/
theorem step_not_executing (s : DedupState) (clientIP path : String) (now : Time)
    (hmem : createRequestSignature clientIP path ∉ s.executing) :
    s.step (.complete clientIP path now) = s ∧ s.step (.unwind clientIP path) = s := by
  constructor <;> simp [DedupState.step, hmem]

/-- Removing an executing signature keeps the invariant when the entries of the other
signatures stay as they are. -/
theorem exclusive_erase (s : DedupState) (rt : RequestTracker) (signature : String)
    (h : s.exclusive)
    (hrt : ∀ other, other ≠ signature → rt.requests other = s.rt.requests other) :
    DedupState.exclusive { rt := rt, executing := s.executing.erase signature } := by
  intro sig
  by_cases heq : sig = signature
  · subst heq
    have hcount : (s.executing.erase sig).count sig = 0 := by
      rw [List.count_erase_self]
      have := (h sig).1
      omega
    refine ⟨by rw [hcount]; omega, ?_⟩
    intro hin
    exact absurd hin (List.count_eq_zero.1 hcount)
  · refine ⟨?_, ?_⟩
    · show (s.executing.erase signature).count sig ≤ 1
      rw [List.count_erase_of_ne heq]
      exact (h sig).1
    · intro hin
      obtain ⟨info, hentry, hbusy⟩ := (h sig).2 (List.mem_of_mem_erase hin)
      exact ⟨info, (hrt sig heq).trans hentry, hbusy⟩

/-- The step of the sweep. -/
theorem step_sweep (s : DedupState) (now : Time) :
    s.step (.sweep now) = { s with rt := s.rt.cleanup now } := rfl

/-- A sweep that spares the executing signatures leaves their entries as they are. -/
theorem cleanup_of_spares (s : DedupState) (now : Time) (hs : s.sweepSpares now = true)
    (signature : String) (hmem : signature ∈ s.executing) :
    (s.rt.cleanup now).requests signature = s.rt.requests signature := by
  have h := List.all_eq_true.1 hs signature hmem
  cases hentry : s.rt.requests signature with
  | none => simp only [RequestTracker.cleanup, hentry]
  | some info =>
    rw [hentry] at h
    simp only [Bool.not_eq_true', decide_eq_false_iff_not] at h
    simp only [RequestTracker.cleanup, hentry, if_neg h]

/-- Every step of the middleware keeps the invariant `exclusive`, the sweep when it
spares the executing signatures. -/
theorem step_exclusive (s : DedupState) (e : DedupEvent) (h : s.exclusive)
    (hs : ∀ now, e = .sweep now → s.sweepSpares now = true) :
    (s.step e).exclusive := by
  cases e with
  | sweep now =>
    rw [step_sweep]
    intro signature
    refine ⟨(h signature).1, ?_⟩
    intro hmem
    obtain ⟨info, hentry, hbusy⟩ := (h signature).2 hmem
    exact ⟨info, (cleanup_of_spares s now (hs now rfl) signature hmem).trans hentry, hbusy⟩
  | arrive clientIP path now =>
    cases hguard : guardedPath path with
    | false => rw [step_arrive_unguarded s clientIP path now hguard]; exact h
    | true =>
      rcases enter_cases s.rt now (createRequestSignature clientIP path) with
        ⟨hrej, _⟩ | ⟨hadm, hfree⟩
      · rw [step_arrive_rejected s clientIP path now hguard hrej]
        exact h
      · rw [step_arrive_admitted s clientIP path now _ hguard hadm]
        have hnot : createRequestSignature clientIP path ∉ s.executing := by
          intro hmem
          obtain ⟨info, hentry, hbusy⟩ := (h _).2 hmem
          rw [hfree info hentry] at hbusy
          exact Bool.noConfusion hbusy
        intro signature
        by_cases heq : signature = createRequestSignature clientIP path
        · subst heq
          refine ⟨?_, fun _ => ⟨_, Function.update_same _ _ _, rfl⟩⟩
          show (createRequestSignature clientIP path :: s.executing).count
            (createRequestSignature clientIP path) ≤ 1
          rw [List.count_cons_self, List.count_eq_zero.2 hnot]
        · refine ⟨?_, ?_⟩
          · show (createRequestSignature clientIP path :: s.executing).count signature ≤ 1
            rw [List.count_cons_of_ne heq]
            exact (h signature).1
          · intro hmem
            rcases List.mem_cons.1 hmem with hmem | hmem
            · exact absurd hmem heq
            · obtain ⟨info, hentry, hbusy⟩ := (h signature).2 hmem
              exact ⟨info, (Function.update_noteq heq _ _).trans hentry, hbusy⟩
  | complete clientIP path now =>
    by_cases hmem : createRequestSignature clientIP path ∈ s.executing
    · rw [step_complete s clientIP path now hmem]
      exact exclusive_erase s _ _ h
        (fun other hne => (leave_requests s.rt now _ other).1 hne)
    · rw [(step_not_executing s clientIP path now hmem).1]
      exact h
  | unwind clientIP path =>
    by_cases hmem : createRequestSignature clientIP path ∈ s.executing
    · rw [step_unwind s clientIP path hmem]
      exact exclusive_erase s _ _ h (fun _ _ => rfl)
    · rw [(step_not_executing s clientIP path 0 hmem).2]
      exact h

/-- Every sequence of steps in which the sweeps spare the executing signatures keeps the
invariant `exclusive`. -/
theorem run_exclusive (events : List DedupEvent) : ∀ (s : DedupState), s.exclusive →
    s.sparing events = true → (s.run events).exclusive := by
  induction events with
  | nil => intro s h _; exact h
  | cons e rest ih =>
    intro s h hsp
    cases e with
    | sweep now =>
      simp only [DedupState.sparing, Bool.and_eq_true] at hsp
      exact ih _ (step_exclusive s _ h (fun t ht => by cases ht; exact hsp.1)) hsp.2
    | arrive clientIP path now =>
      simp only [DedupState.sparing] at hsp
      exact ih _ (step_exclusive s _ h (fun t ht => DedupEvent.noConfusion ht)) hsp
    | complete clientIP path now =>
      simp only [DedupState.sparing] at hsp
      exact ih _ (step_exclusive s _ h (fun t ht => DedupEvent.noConfusion ht)) hsp
    | unwind clientIP path =>
      simp only [DedupState.sparing] at hsp
      exact ih _ (step_exclusive s _ h (fun t ht => DedupEvent.noConfusion ht)) hsp

/-- C19 (amended): request deduplication.  For a guarded path, when the tracker holds an
entry marked in progress for the signature of the request (client IP and path), the
middleware answers 429 without running the handler and leaves the tracker unchanged.
Otherwise it marks the signature in progress, runs the handler and, when the handler
returns, clears the mark, changing no other entry.  In every interleaving of the steps
of concurrent requests and of the sweep, starting from the empty tracker, in which no
sweep deletes the entry of a signature whose handler is executing, no signature has two
handlers executing at once. -/
theorem deduplication_single_flight {σ : Type} (rt : RequestTracker) (now done : Time)
    (clientIP path : String) (next : σ → σ × HandlerResult) (state : σ)
    (events : List DedupEvent) (hguard : guardedPath path = true) :
    (∀ info, rt.requests (createRequestSignature clientIP path) = some info →
      info.InProgress = true →
      DeduplicationMiddleware rt now done clientIP path next state =
        (rt, state, .response 429
          { Success := false, Message := "Request already in progress, please wait" })) ∧
    ((∀ info, rt.requests (createRequestSignature clientIP path) = some info →
        info.InProgress = false) →
      ∀ status body, (next state).2 = .response status body →
      (rt.enter now (createRequestSignature clientIP path)).2 = true ∧
      (rt.enter now (createRequestSignature clientIP path)).1.requests
          (createRequestSignature clientIP path) = some { InProgress := true, Timestamp := now } ∧
      (DeduplicationMiddleware rt now done clientIP path next state).2 = next state ∧
      (DeduplicationMiddleware rt now done clientIP path next state).1.requests
          (createRequestSignature clientIP path) = some { InProgress := false, Timestamp := done } ∧
      ∀ other, other ≠ createRequestSignature clientIP path →
        (DeduplicationMiddleware rt now done clientIP path next state).1.requests other
          = rt.requests other) ∧
    (DedupState.sparing { rt := tracker, executing := [] } events = true →
      ∀ signature,
        (DedupState.run { rt := tracker, executing := [] } events).executing.count signature
          ≤ 1) := by
  refine ⟨?_, ?_, ?_⟩
  · intro info hentry hbusy
    unfold DeduplicationMiddleware
    simp only [hguard, Bool.not_true, Bool.false_eq_true, if_false,
      enter_rejected rt now _ info hentry hbusy]
  · intro hfree status body hnext
    have hadm := enter_admitted rt now (createRequestSignature clientIP path) hfree
    have hpair : next state = ((next state).1, .response status body) := by
      rw [← hnext]
    refine ⟨by rw [hadm], by rw [hadm]; exact Function.update_same _ _ _, ?_, ?_, ?_⟩
    · unfold DeduplicationMiddleware
      simp only [hguard, Bool.not_true, Bool.false_eq_true, if_false, hadm]
      rw [hpair]
    · unfold DeduplicationMiddleware
      simp only [hguard, Bool.not_true, Bool.false_eq_true, if_false, hadm]
      rw [hpair]
      simp [RequestTracker.leave]
    · intro other hne
      unfold DeduplicationMiddleware
      simp only [hguard, Bool.not_true, Bool.false_eq_true, if_false, hadm]
      rw [hpair]
      simp [RequestTracker.leave, Function.update_noteq hne]
  · intro hsp signature
    have hinit : DedupState.exclusive { rt := tracker, executing := [] } := by
      intro sig
      exact ⟨by simp, fun hmem => absurd hmem (List.not_mem_nil _)⟩
    exact (run_exclusive events _ hinit hsp signature).1

/-- A handler that panics on a guarded path leaves its signature marked in progress: the
second locked section is not deferred. -/
theorem deduplication_mark_stays_after_panic {σ : Type} (rt : RequestTracker) (now done : Time)
    (clientIP path : String) (next : σ → σ × HandlerResult) (state : σ) (message : String)
    (hguard : guardedPath path = true)
    (hfree : ∀ info, rt.requests (createRequestSignature clientIP path) = some info →
      info.InProgress = false)
    (hnext : (next state).2 = .panic message) :
    (DeduplicationMiddleware rt now done clientIP path next state).2.2 = .panic message ∧
    (DeduplicationMiddleware rt now done clientIP path next state).1.requests
      (createRequestSignature clientIP path) = some { InProgress := true, Timestamp := now } := by
  have hadm := enter_admitted rt now (createRequestSignature clientIP path) hfree
  have hpair : next state = ((next state).1, .panic message) := by
    rw [← hnext]
  unfold DeduplicationMiddleware
  simp only [hguard, Bool.not_true, Bool.false_eq_true, if_false, hadm]
  rw [hpair]
  exact ⟨rfl, Function.update_same _ _ _⟩

/-- Counterexample to C19 as stated.  A logout request of client 10.0.0.1 is admitted at
1 700 000 000 s and its handler is still executing when the sweep runs eleven minutes
later and deletes its entry; a second request of the client for the path, one second
after the sweep, is admitted, and the handler is executing twice for the signature.  And
a logout request with the token "abc", on which the handler panics, leaves the signature
marked in progress after the middleware is done with it. -/
theorem sweep_admits_second_handler :
    (DedupState.run { rt := tracker, executing := [] }
      [.arrive "10.0.0.1" "/api/v1/auth/logout" 1700000000000000000,
       .sweep 1700000660000000000,
       .arrive "10.0.0.1" "/api/v1/auth/logout" 1700000661000000000]).executing.count
        (createRequestSignature "10.0.0.1" "/api/v1/auth/logout") = 2 ∧
    (DeduplicationMiddleware tracker 1700000160000000000 1700000161000000000 "10.0.0.1"
        "/api/v1/auth/logout"
        (fun db => AuthHandler.Logout exampleConfig db 1700000160000000000 none
          (.malformed "abc"))
        annLogin.1).2.2 = .panic "runtime error: slice bounds out of range" ∧
    (DeduplicationMiddleware tracker 1700000160000000000 1700000161000000000 "10.0.0.1"
        "/api/v1/auth/logout"
        (fun db => AuthHandler.Logout exampleConfig db 1700000160000000000 none
          (.malformed "abc"))
        annLogin.1).1.requests (createRequestSignature "10.0.0.1" "/api/v1/auth/logout")
      = some { InProgress := true, Timestamp := 1700000160000000000 } := by
  decide

/-- C19 (witness): logout requests of client 10.0.0.1.  On the empty tracker the
middleware runs the logout handler and leaves the signature marked as completed; on a
tracker where the signature is in progress it answers 429 and runs nothing; and when a
second request arrives while the first is executing, the sweep runs two minutes after
the first arrived, the first completes and a third arrives, the handler is executing
once. -/
theorem deduplication_single_flight_witness :
    ((DeduplicationMiddleware tracker 1700000160000000000 1700000161000000000 "10.0.0.1"
        "/api/v1/auth/logout"
        (fun db => AuthHandler.Logout exampleConfig db 1700000160000000000 none annToken)
        annLogin.1).1.requests (createRequestSignature "10.0.0.1" "/api/v1/auth/logout")
      = some { InProgress := false, Timestamp := 1700000161000000000 }) ∧
    (DeduplicationMiddleware
        (tracker.enter 1700000160000000000
          (createRequestSignature "10.0.0.1" "/api/v1/auth/logout")).1
        1700000160500000000 1700000161000000000 "10.0.0.1" "/api/v1/auth/logout"
        (fun db => AuthHandler.Logout exampleConfig db 1700000160500000000 none annToken)
        annLogin.1).2 =
      (annLogin.1, .response 429
        { Success := false, Message := "Request already in progress, please wait" }) ∧
    DedupState.sparing { rt := tracker, executing := [] }
      [.arrive "10.0.0.1" "/api/v1/auth/logout" 1700000160000000000,
       .arrive "10.0.0.1" "/api/v1/auth/logout" 1700000160500000000,
       .sweep 1700000280000000000,
       .complete "10.0.0.1" "/api/v1/auth/logout" 1700000281000000000,
       .arrive "10.0.0.1" "/api/v1/auth/logout" 1700000282000000000] = true ∧
    (DedupState.run { rt := tracker, executing := [] }
      [.arrive "10.0.0.1" "/api/v1/auth/logout" 1700000160000000000,
       .arrive "10.0.0.1" "/api/v1/auth/logout" 1700000160500000000,
       .sweep 1700000280000000000,
       .complete "10.0.0.1" "/api/v1/auth/logout" 1700000281000000000,
       .arrive "10.0.0.1" "/api/v1/auth/logout" 1700000282000000000]).executing.count
        (createRequestSignature "10.0.0.1" "/api/v1/auth/logout") ≤ 1 := by
  refine ⟨?_, ?_, by decide, ?_⟩
  · exact ((deduplication_single_flight tracker 1700000160000000000 1700000161000000000
      "10.0.0.1" "/api/v1/auth/logout"
      (fun db => AuthHandler.Logout exampleConfig db 1700000160000000000 none annToken)
      annLogin.1 [] (by decide)).2.1 (fun info h => Option.noConfusion h) 200
      { Success := true, Message := "Logged out successfully" } (by decide)).2.2.2.1
  · have h := (deduplication_single_flight
      (tracker.enter 1700000160000000000
        (createRequestSignature "10.0.0.1" "/api/v1/auth/logout")).1
      1700000160500000000 1700000161000000000 "10.0.0.1" "/api/v1/auth/logout"
      (fun db => AuthHandler.Logout exampleConfig db 1700000160500000000 none annToken)
      annLogin.1 [] (by decide)).1 { InProgress := true, Timestamp := 1700000160000000000 }
      (by decide) rfl
    rw [h]
  · exact (deduplication_single_flight tracker 0 0 "10.0.0.1" "/api/v1/auth/logout"
      (fun db => AuthHandler.Logout exampleConfig db 0 none annToken) annLogin.1 _
      (by decide)).2.2 (by decide) _

/-! ## Properties of signup -/

/-- A list of characters has at most as many characters as bytes. -/
theorem utf8ByteSize_go_ge (cs : List Char) : cs.length ≤ String.utf8ByteSize.go cs := by
  induction cs with
  | nil => simp [String.utf8ByteSize.go]
  | cons c cs ih =>
    simp only [List.length_cons, String.utf8ByteSize.go]
    have := Char.utf8Size_pos c
    omega

/-- A string has at most as many characters as bytes. -/
theorem length_le_len (s : String) : s.length ≤ len s.toList := by
  unfold len
  show s.data.length ≤ String.utf8ByteSize.go s.data
  exact utf8ByteSize_go_ge s.data

/-- The characters the e-mail pattern admits are not NUL. -/
theorem emailChar_ne_nul (c : Char)
    (h : emailLocalChar c = true ∨ emailDomainChar c = true ∨ isAsciiLetter c = true ∨
      c = '@' ∨ c = '.') : c.toNat ≠ 0 := by
  intro h0
  have hc : c = Char.ofNat 0 := by
    rw [← h0, Char.ofNat_toNat]
  subst hc
  revert h
  decide

/-- The first element `dropWhile` keeps does not satisfy the predicate. -/
theorem dropWhile_head (p : Char → Bool) : ∀ (l : List Char) (a : Char) (rest : List Char),
    l.dropWhile p = a :: rest → p a = false := by
  intro l
  induction l with
  | nil => intro a rest h; exact List.noConfusion h
  | cons x xs ih =>
    intro a rest h
    rw [List.dropWhile_cons] at h
    split_ifs at h with hx
    · exact ih a rest h
    · cases h
      simpa using hx

/-- A string the e-mail pattern matches holds no NUL character. -/
theorem emailRegexMatch_no_nul (email : List Char) (h : emailRegexMatch email = true) :
    ∀ c ∈ email, c.toNat ≠ 0 := by
  unfold emailRegexMatch at h
  cases h1 : email.dropWhile (fun c => c != '@') with
  | nil => rw [h1] at h; exact Bool.noConfusion h
  | cons a rest =>
    rw [h1] at h
    simp only at h
    cases h2 : rest.reverse.dropWhile (fun c => c != '.') with
    | nil => rw [h2] at h; exact Bool.noConfusion h
    | cons b revDomain =>
      rw [h2] at h
      simp only [Bool.and_eq_true, List.all_eq_true, List.mem_reverse] at h
      obtain ⟨⟨⟨⟨⟨_, hlocal⟩, _⟩, hdomain⟩, _⟩, htld⟩ := h
      have ha : a = '@' := by
        have := dropWhile_head _ email a rest h1
        simpa using this
      have hb : b = '.' := by
        have := dropWhile_head _ rest.reverse b revDomain h2
        simpa using this
      intro c hc
      rw [← List.takeWhile_append_dropWhile (fun c => c != '@') email, h1] at hc
      rcases List.mem_append.1 hc with hc | hc
      · exact emailChar_ne_nul c (Or.inl (hlocal c hc))
      · rcases List.mem_cons.1 hc with hc | hc
        · exact emailChar_ne_nul c (Or.inr (Or.inr (Or.inr (Or.inl (hc.trans ha)))))
        · have hc2 : c ∈ rest.reverse := List.mem_reverse.2 hc
          rw [← List.takeWhile_append_dropWhile (fun c => c != '.') rest.reverse, h2] at hc2
          rcases List.mem_append.1 hc2 with hc2 | hc2
          · exact emailChar_ne_nul c (Or.inr (Or.inr (Or.inl (htld c hc2))))
          · rcases List.mem_cons.1 hc2 with hc2 | hc2
            · exact emailChar_ne_nul c (Or.inr (Or.inr (Or.inr (Or.inr (hc2.trans hb)))))
            · exact emailChar_ne_nul c (Or.inr (Or.inl (hdomain c hc2)))

/-- An address `ValidateEmail` accepts goes into the column `email VARCHAR(255)` as it
is. -/
theorem ValidateEmail_fits (email : String) (h : ValidateEmail email = none) :
    fitsColumn 255 email := by
  unfold ValidateEmail at h
  split_ifs at h with h1 h2 h3
  have hmatch : emailRegexMatch email.toList = true := by
    cases hm : emailRegexMatch email.toList with
    | true => rfl
    | false => rw [hm] at h3; exact absurd rfl h3
  constructor
  · unfold hasNUL
    rw [List.any_eq_false]
    intro c hc hz
    exact emailRegexMatch_no_nul email.toList hmatch c hc (by simpa using hz)
  · have := length_le_len email
    omega

/-- The insert of `CompleteSignup` for values that go into their columns as they are. -/
theorem insertUser_of_fits (db : DB) (now : Time) (req : CompleteSignupRequest) (hash : String)
    (hemail : fitsColumn 255 req.Email) (hhash : fitsColumn 255 hash)
    (hfirst : fitsColumn 100 req.FirstName) (hlast : fitsColumn 100 req.LastName)
    (hphone : req.Phone ≠ "" → fitsColumn 20 req.Phone) :
    AuthService.insertUser db now req.Email hash req.FirstName req.LastName
        (if req.Phone ≠ "" then some req.Phone else none) =
      .ok ({ db with
             users := db.users ++ [AuthService.signupRow db now req hash]
             users_id_seq := db.users_id_seq + 1 }, AuthService.signupRow db now req hash) := by
  unfold AuthService.insertUser AuthService.signupRow
  rw [varchar_of_fits 255 _ hemail.1 hemail.2, varchar_of_fits 255 _ hhash.1 hhash.2,
    varchar_of_fits 100 _ hfirst.1 hfirst.2, varchar_of_fits 100 _ hlast.1 hlast.2]
  by_cases hp : req.Phone ≠ ""
  · simp only [if_pos hp, varchar_of_fits 20 _ (hphone hp).1 (hphone hp).2, Except.map]
  · simp only [if_neg hp]

/-- The insert of `CompleteSignup` when a column refuses its value. -/
theorem insertUser_error (db : DB) (now : Time) (email hash firstName lastName : String)
    (phone : Option String)
    (h : (∃ e, varchar 255 email = .error e) ∨ (∃ e, varchar 255 hash = .error e) ∨
      (∃ e, varchar 100 firstName = .error e) ∨ (∃ e, varchar 100 lastName = .error e) ∨
      (∃ p e, phone = some p ∧ varchar 20 p = .error e)) :
    ∃ err, AuthService.insertUser db now email hash firstName lastName phone = .error err := by
  cases hins : AuthService.insertUser db now email hash firstName lastName phone with
  | error err => exact ⟨err, rfl⟩
  | ok pair =>
    obtain ⟨db1, user⟩ := pair
    obtain ⟨_, _, h1, ⟨_, h2, _⟩, h3, h4, _, h5, _⟩ :=
      insertUser_ok db db1 now email hash firstName lastName phone user hins
    rcases h with ⟨e, he⟩ | ⟨e, he⟩ | ⟨e, he⟩ | ⟨e, he⟩ | ⟨p, e, hp, he⟩
    · rw [h1] at he; exact Except.noConfusion he
    · rw [h2] at he; exact Except.noConfusion he
    · rw [h3] at he; exact Except.noConfusion he
    · rw [h4] at he; exact Except.noConfusion he
    · obtain ⟨_, h6, _⟩ := h5 p hp
      rw [h6] at he
      exact Except.noConfusion he

/-- `CompleteSignup` once its request has passed validation. -/
theorem CompleteSignup_of_valid (lib : Lib) (db : DB) (now : Time) (req : CompleteSignupRequest)
    (hvalid : req.passesValidation lib) :
    AuthService.CompleteSignup lib db now req =
      if db.users.any (fun u => u.Email == req.Email) then
        (db, .error "user with this email already exists")
      else
        match lib.HashPassword req.Password with
        | .error err => (db, .error ("failed to hash password: " ++ err))
        | .ok hashedPassword =>
          match AuthService.insertUser db now req.Email hashedPassword req.FirstName
              req.LastName (if req.Phone ≠ "" then some req.Phone else none) with
          | .error err => (db, .error ("failed to create user: " ++ err))
          | .ok (db1, user) =>
            (ActivityService.LogActivity db1 now user.ID ActivitySignup,
             .ok { user with PasswordHash := none, GoogleID := none, AvatarURL := none }) := by
  obtain ⟨h1, h2, h3, h4, h5⟩ := hvalid
  have hphone : (if req.Phone ≠ "" then ValidatePhone req.Phone else none) = none := by
    split_ifs with h
    · exact h5 h
    · rfl
  unfold AuthService.CompleteSignup
  simp only [h1, h2, h3, h4, hphone]

/-- `CompleteSignup` fails and leaves the store unchanged when an account has the e-mail
address. -/
theorem CompleteSignup_of_taken (lib : Lib) (db : DB) (now : Time) (req : CompleteSignupRequest)
    (htaken : db.users.any (fun u => u.Email == req.Email) = true) :
    ∃ err, AuthService.CompleteSignup lib db now req = (db, .error err) := by
  unfold AuthService.CompleteSignup
  cases ValidateEmail req.Email with
  | some e => exact ⟨_, rfl⟩
  | none =>
    cases ValidatePassword lib req.Password with
    | some e => exact ⟨_, rfl⟩
    | none =>
      cases ValidateName req.FirstName "First name" with
      | some e => exact ⟨_, rfl⟩
      | none =>
        cases ValidateName req.LastName "Last name" with
        | some e => exact ⟨_, rfl⟩
        | none =>
          cases (if req.Phone ≠ "" then ValidatePhone req.Phone else none) with
          | some e => exact ⟨_, rfl⟩
          | none => exact ⟨"user with this email already exists", by simp [htaken]⟩

/-- The two operations that write `auth_provider` keep the store's provider lists among
those the code writes: after `CompleteSignup` and after `processGoogleUser`, whatever
their result, every account carries such a list when every account did before. -/
theorem providerWritten_preserved (lib : Lib) (cfg : Config) (db : DB) (now : Time)
    (h : ∀ u ∈ db.users, AuthService.providerWritten u.AuthProvider) :
    (∀ req, ∀ u ∈ (AuthService.CompleteSignup lib db now req).1.users,
      AuthService.providerWritten u.AuthProvider) ∧
    (∀ storeErr g, ∀ u ∈ (AuthService.processGoogleUser cfg db now storeErr g).1.users,
      AuthService.providerWritten u.AuthProvider) := by
  have htouch : ∀ (userID : Int) (users : List User),
      (∀ u ∈ users, AuthService.providerWritten u.AuthProvider) →
      ∀ u ∈ AuthService.updateLastActivity now userID users,
        AuthService.providerWritten u.AuthProvider := by
    intro userID users hu u hmem
    rw [updateLastActivity_eq_map] at hmem
    obtain ⟨u0, hu0, rfl⟩ := List.mem_map.1 hmem
    rw [(touched_credentials now userID u0).2.2.2]
    exact hu u0 hu0
  constructor
  · intro req
    unfold AuthService.CompleteSignup
    cases ValidateEmail req.Email with
    | some e => exact h
    | none =>
    cases ValidatePassword lib req.Password with
    | some e => exact h
    | none =>
    cases ValidateName req.FirstName "First name" with
    | some e => exact h
    | none =>
    cases ValidateName req.LastName "Last name" with
    | some e => exact h
    | none =>
    cases (if req.Phone ≠ "" then ValidatePhone req.Phone else none) with
    | some e => exact h
    | none =>
    simp only
    generalize (if req.Phone ≠ "" then some req.Phone else none : Option String) = phone
    by_cases htaken : db.users.any (fun u => u.Email == req.Email) = true
    · rw [if_pos htaken]
      exact h
    · rw [if_neg htaken]
      cases lib.HashPassword req.Password with
      | error e => exact h
      | ok hashedPassword =>
        simp only
        cases hins : AuthService.insertUser db now req.Email hashedPassword req.FirstName
            req.LastName phone with
        | error e => exact h
        | ok pair =>
          obtain ⟨db1, user⟩ := pair
          obtain ⟨hdb, _, _, _, _, _, _, _, _, _, hprov, _⟩ :=
            insertUser_ok db db1 now _ _ _ _ _ user hins
          simp only [LogActivity_users]
          apply htouch
          intro u hu
          rw [hdb] at hu
          rcases List.mem_append.1 hu with hu | hu
          · exact h u hu
          · rw [List.mem_singleton.1 hu, hprov]
            exact .signup
  · intro storeErr g
    have hres := resolveGoogleUser_providerWritten db now g h
    rcases processGoogleUser_users cfg db now storeErr g with h1 | h1 | h1
    · rw [h1]; exact h
    · rw [h1]; exact hres
    · rw [h1]; exact htouch _ _ hres

/-- C21 (amended): signup creates exactly one account.  For a request that passes
validation, whose e-mail address no account has and whose first name, last name and
phone number as submitted go into their columns (at most 100, 100 and 20 characters, no
NUL), bcrypt having hashed the password to a hash that goes into its column,
`CompleteSignup` (and `Signup`, which hands its fields to it) returns the new account and
the store then holds exactly one account with that address, one more account than
before: e-mail verified, active, with the provider list "email" and with the bcrypt hash
of the submitted password, against which the password verifies by the contract of
bcrypt.  When a column refuses the hash, a name or the phone number the call fails with
"failed to create user" and leaves the store unchanged.  When an account has the address
already the call fails and leaves the store unchanged, and so it does when bcrypt
fails. -/
theorem signup_creates_one_account (lib : Lib) (db : DB) (now : Time)
    (req : CompleteSignupRequest) :
    (req.passesValidation lib → (∀ u ∈ db.users, u.Email ≠ req.Email) →
      ∀ hash, lib.HashPassword req.Password = .ok hash → fitsColumn 255 hash →
      fitsColumn 100 req.FirstName → fitsColumn 100 req.LastName →
      (req.Phone ≠ "" → fitsColumn 20 req.Phone) →
      ∃ db1 user account,
        AuthService.CompleteSignup lib db now req = (db1, .ok user) ∧
        AuthService.Signup lib db now
          { Email := req.Email, Password := req.Password, FirstName := req.FirstName,
            LastName := req.LastName, Phone := req.Phone } = (db1, .ok user) ∧
        db1.users.length = db.users.length + 1 ∧
        db1.users.filter (fun u => u.Email == req.Email) = [account] ∧
        account.ID = user.ID ∧ account.Email = req.Email ∧
        account.IsEmailVerified = true ∧ account.IsActive = true ∧
        providers account.AuthProvider = ["email".toList] ∧
        account.PasswordHash = some hash ∧
        ((∀ password h, lib.HashPassword password = .ok h →
            lib.CheckPasswordHash password h = true) →
          lib.CheckPasswordHash req.Password hash = true)) ∧
    (req.passesValidation lib → (∀ u ∈ db.users, u.Email ≠ req.Email) →
      ∀ hash, lib.HashPassword req.Password = .ok hash →
      ((∃ e, varchar 255 hash = .error e) ∨ (∃ e, varchar 100 req.FirstName = .error e) ∨
        (∃ e, varchar 100 req.LastName = .error e) ∨
        (req.Phone ≠ "" ∧ ∃ e, varchar 20 req.Phone = .error e)) →
      ∃ err, AuthService.CompleteSignup lib db now req =
        (db, .error ("failed to create user: " ++ err))) ∧
    ((∃ u ∈ db.users, u.Email = req.Email) →
      (∃ err, AuthService.CompleteSignup lib db now req = (db, .error err)) ∧
      (req.passesValidation lib →
        AuthService.CompleteSignup lib db now req =
          (db, .error "user with this email already exists"))) ∧
    (req.passesValidation lib → (∀ u ∈ db.users, u.Email ≠ req.Email) →
      ∀ err, lib.HashPassword req.Password = .error err →
      AuthService.CompleteSignup lib db now req =
        (db, .error ("failed to hash password: " ++ err))) := by
  have hany : (∀ u ∈ db.users, u.Email ≠ req.Email) →
      db.users.any (fun u => u.Email == req.Email) = false := by
    intro hfree
    cases hb : db.users.any (fun u => u.Email == req.Email) with
    | false => rfl
    | true =>
      obtain ⟨u, hu, he⟩ := List.any_eq_true.1 hb
      exact absurd (by simpa using he) (hfree u hu)
  refine ⟨?_, ?_, ?_, ?_⟩
  rotate_left 3
  · intro hvalid hfree err herr
    rw [CompleteSignup_of_valid lib db now req hvalid, hany hfree, herr]
    rfl
  · intro hvalid hfree hash hhash hfhash hfirst hlast hphone
    have hany := hany hfree
    have hrun := CompleteSignup_of_valid lib db now req hvalid
    simp only [hany, Bool.false_eq_true, if_false, hhash,
      insertUser_of_fits db now req hash (ValidateEmail_fits req.Email hvalid.1) hfhash hfirst
        hlast hphone] at hrun
    have hrun2 : AuthService.CompleteSignup lib db now req =
        (ActivityService.LogActivity
          { db with
            users := db.users ++ [AuthService.signupRow db now req hash]
            users_id_seq := db.users_id_seq + 1 }
          now (db.users_id_seq + 1) ActivitySignup,
         .ok { AuthService.signupRow db now req hash with PasswordHash := none }) := hrun
    have hfilter : db.users.filter (fun u => u.Email == req.Email) = [] := by
      rw [List.filter_eq_nil_iff]
      intro u hu
      simpa using hfree u hu
    have hpred : ((fun u : User => u.Email == req.Email) ∘ touched now (db.users_id_seq + 1)) =
        (fun u : User => u.Email == req.Email) := by
      funext u
      simp [Function.comp, (touched_credentials now (db.users_id_seq + 1) u).1]
    refine ⟨_, _, touched now (db.users_id_seq + 1) (AuthService.signupRow db now req hash),
      hrun2, hrun2, ?_, ?_, ?_, ?_, ?_, ?_, ?_, ?_, ?_⟩
    · rw [LogActivity_users, updateLastActivity_eq_map]
      simp
    · rw [LogActivity_users, updateLastActivity_eq_map, List.filter_map, hpred,
        List.filter_append, hfilter]
      simp [List.filter, AuthService.signupRow]
    · exact (touched_ID _ _ _).trans rfl
    · exact (touched_credentials _ _ _).1
    · exact (touched_credentials _ _ _).2.2.1.trans rfl
    · exact (touched_IsActive _ _ _).trans rfl
    · rw [(touched_credentials _ _ _).2.2.2]
      rfl
    · exact (touched_credentials _ _ _).2.1.trans rfl
    · intro hlaw
      exact hlaw _ _ hhash
  · intro hvalid hfree hash hhash hrefuse
    have hany := hany hfree
    have hcol : (∃ e, varchar 255 req.Email = .error e) ∨ (∃ e, varchar 255 hash = .error e) ∨
        (∃ e, varchar 100 req.FirstName = .error e) ∨
        (∃ e, varchar 100 req.LastName = .error e) ∨
        (∃ p e, (if req.Phone ≠ "" then some req.Phone else none) = some p ∧
          varchar 20 p = .error e) := by
      rcases hrefuse with h | h | h | ⟨hp, e, he⟩
      · exact Or.inr (Or.inl h)
      · exact Or.inr (Or.inr (Or.inl h))
      · exact Or.inr (Or.inr (Or.inr (Or.inl h)))
      · exact Or.inr (Or.inr (Or.inr (Or.inr ⟨req.Phone, e, if_pos hp, he⟩)))
    obtain ⟨err, herr⟩ := insertUser_error db now req.Email hash req.FirstName req.LastName _ hcol
    refine ⟨err, ?_⟩
    rw [CompleteSignup_of_valid lib db now req hvalid]
    simp only [hany, Bool.false_eq_true, if_false, hhash, herr]
  · rintro ⟨u, hu, he⟩
    have htaken : db.users.any (fun u => u.Email == req.Email) = true :=
      List.any_eq_true.2 ⟨u, hu, by simp [he]⟩
    refine ⟨CompleteSignup_of_taken lib db now req htaken, ?_⟩
    intro hvalid
    rw [CompleteSignup_of_valid lib db now req hvalid, htaken]
    rfl

/-- Counterexample to C21 as stated: the names are validated trimmed and the phone number
cleaned, and both are inserted as submitted.  On the empty store a request whose first
name is "Ab" after 99 spaces passes validation, and so does one whose phone number is
written "+91 98765 43210 (evenings)"; no account has their address; and `CompleteSignup`
fails with "failed to create user", the columns `first_name VARCHAR(100)` and
`phone VARCHAR(20)` refusing the values, and creates no account. -/
theorem signup_fails_when_column_refuses :
    (paddedNameRequest.passesValidation exampleLib ∧
      (∀ u ∈ emptyDB.users, u.Email ≠ paddedNameRequest.Email) ∧
      AuthService.CompleteSignup exampleLib emptyDB 1700000000000000000 paddedNameRequest =
        (emptyDB, .error ("failed to create user: " ++ valueTooLong 100))) ∧
    (annotatedPhoneRequest.passesValidation exampleLib ∧
      AuthService.CompleteSignup exampleLib emptyDB 1700000000000000000 annotatedPhoneRequest =
        (emptyDB, .error ("failed to create user: " ++ valueTooLong 20))) := by
  refine ⟨⟨?_, ?_, by decide⟩, ?_, by decide⟩
  · unfold CompleteSignupRequest.passesValidation
    decide
  · intro u hu
    cases hu
  · unfold CompleteSignupRequest.passesValidation
    decide

/-- C21 (witness): on the empty store Ann Lee signs up with "a@x.com" and "Abcdef1!"; on
the store that holds her account the same request fails and changes nothing. -/
theorem signup_creates_one_account_witness :
    (∃ db1 user account,
      AuthService.CompleteSignup exampleLib emptyDB 1700000000000000000
        { Email := "a@x.com", Password := "Abcdef1!", FirstName := "Ann", LastName := "Lee",
          Phone := "" } = (db1, .ok user) ∧
      db1.users.length = 1 ∧
      db1.users.filter (fun u => u.Email == "a@x.com") = [account] ∧
      account.IsEmailVerified = true ∧ account.IsActive = true ∧
      providers account.AuthProvider = ["email".toList] ∧
      account.PasswordHash = some "bcrypt:Abcdef1!" ∧
      exampleLib.CheckPasswordHash "Abcdef1!" "bcrypt:Abcdef1!" = true) ∧
    AuthService.CompleteSignup exampleLib annOnlyDB 1700000000000000000
      { Email := "a@x.com", Password := "Abcdef1!", FirstName := "Ann", LastName := "Lee",
        Phone := "" } = (annOnlyDB, .error "user with this email already exists") := by
  have hvalid : CompleteSignupRequest.passesValidation exampleLib
      { Email := "a@x.com", Password := "Abcdef1!", FirstName := "Ann", LastName := "Lee",
        Phone := "" } :=
    ⟨by decide, by decide, by decide, by decide, fun h => absurd rfl h⟩
  constructor
  · obtain ⟨db1, user, account, hok, _, hlen, hfilter, _, _, hver, hact, hprov, hhash, hcheck⟩ :=
      (signup_creates_one_account exampleLib emptyDB 1700000000000000000
        { Email := "a@x.com", Password := "Abcdef1!", FirstName := "Ann", LastName := "Lee",
          Phone := "" }).1 hvalid (by intro u hu; cases hu) "bcrypt:Abcdef1!" rfl
        (by decide) (by decide) (by decide) (fun h => absurd rfl h)
    refine ⟨db1, user, account, hok, hlen, hfilter, hver, hact, hprov, hhash, hcheck ?_⟩
    intro password h hh
    have : h = "bcrypt:" ++ password := by
      have h2 : (Except.ok ("bcrypt:" ++ password) : Except String String) = .ok h := hh
      simp only [Except.ok.injEq] at h2
      exact h2.symm
    subst this
    show (("bcrypt:" ++ password) == "bcrypt:" ++ password) = true
    simp
  · exact ((signup_creates_one_account exampleLib annOnlyDB 1700000000000000000
      { Email := "a@x.com", Password := "Abcdef1!", FirstName := "Ann", LastName := "Lee",
        Phone := "" }).2.2.1 ⟨annAccount, by decide, rfl⟩).2 hvalid

/-! ## Properties of deactivated accounts and rotation outcomes -/

/-- C22: Google sign-in of a deactivated account is rejected atomically.  When the
account `processGoogleUser` resolves, by Google id or else by e-mail address, is not
active, the call fails and leaves the store as it was: no token is returned, no
refresh-token record is persisted and the merge update is not committed.  The error is
"account is deactivated", the address of the profile having passed the domain check that
precedes the lookup. -/
theorem google_login_deactivated_rejected (cfg : Config) (db : DB) (now : Time)
    (storeErr : Option String) (g : GoogleUserInfo) (row : User)
    (hresolved : db.users.find? (fun u => u.GoogleID == some g.ID) = some row ∨
      (db.users.find? (fun u => u.GoogleID == some g.ID) = none ∧
        db.users.find? (fun u => u.Email == g.Email) = some row))
    (hinactive : row.IsActive = false) :
    (AuthService.processGoogleUser cfg db now storeErr g).1 = db ∧
    (∃ err, (AuthService.processGoogleUser cfg db now storeErr g).2 = .error err) ∧
    (AuthService.isValidEmailDomain g.Email = true →
      AuthService.processGoogleUser cfg db now storeErr g = (db, .error "account is deactivated")) := by
  have hact : (AuthService.resolveGoogleUser db now g).2.IsActive = false := by
    rcases hresolved with hg | ⟨hg, he⟩
    · rw [resolveGoogleUser_of_known db now g row hg]
      exact hinactive
    · rw [resolveGoogleUser_of_merge db now g row hg he]
      exact hinactive
  cases hdom : AuthService.isValidEmailDomain g.Email with
  | false =>
    have h : AuthService.processGoogleUser cfg db now storeErr g =
        (db, .error "email domain not allowed") := by
      simp [AuthService.processGoogleUser, hdom]
    rw [h]
    exact ⟨rfl, ⟨_, rfl⟩, fun hf => absurd hf (by decide)⟩
  | true =>
    have h : AuthService.processGoogleUser cfg db now storeErr g =
        (db, .error "account is deactivated") := by
      simp [AuthService.processGoogleUser, hdom, hact]
    rw [h]
    exact ⟨rfl, ⟨_, rfl⟩, fun _ => rfl⟩

/-- C22 (witness): the deactivated account "b@x.com" signs in with Google, once found by
e-mail address and once, after it was linked, by Google id; both calls fail with "account
is deactivated" and change nothing. -/
theorem google_login_deactivated_rejected_witness :
    AuthService.processGoogleUser exampleConfig twoAccountsDB 1700000100200000000 none bobProfile
      = (twoAccountsDB, .error "account is deactivated") ∧
    AuthService.processGoogleUser exampleConfig bobLinkedDB 1700000100200000000 none bobProfile
      = (bobLinkedDB, .error "account is deactivated") :=
  ⟨(google_login_deactivated_rejected exampleConfig twoAccountsDB 1700000100200000000 none
      bobProfile bobAccount (Or.inr ⟨by decide, by decide⟩) (by decide)).2.2 (by decide),
   (google_login_deactivated_rejected exampleConfig bobLinkedDB 1700000100200000000 none
      bobProfile
      { bobAccount with GoogleID := some "108000000000000000002", AuthProvider := "email,google" }
      (Or.inl (by decide)) (by decide)).2.2 (by decide)⟩

/-- C23 (amended): `RefreshToken` runs the revoke of the presented token and the insert of
the new record as two separate statements.  A call that fails one of the checks before
them fails and leaves the store unchanged.  A call that passes the checks goes on after
the revoke statement whatever its outcome: when the insert executes it returns the new
pair, the table being the one the revoke statement left followed by the new unrevoked
record; when the insert fails it fails, the store being the one the revoke statement
left.  The revoke statement marks the records with the digest of the presented token
revoked when it executes and changes nothing when it fails. -/
theorem refresh_rotation_outcomes (cfg : Config) (db : DB) (now : Time)
    (revokeErr storeErr : Option String) (tok : TokenString) :
    ((¬ ∃ claims user, JWTService.ValidateToken cfg now tok "refresh" = .ok claims ∧
        AuthService.validateStoredRefreshToken db now claims.UserID tok = none ∧
        AuthService.getUserByID db claims.UserID = .ok user ∧ user.IsActive = true) →
      ∃ err, AuthService.RefreshToken cfg db now revokeErr storeErr { RefreshToken := tok }
        = (db, .error err)) ∧
    (∀ claims user, JWTService.ValidateToken cfg now tok "refresh" = .ok claims →
      AuthService.validateStoredRefreshToken db now claims.UserID tok = none →
      AuthService.getUserByID db claims.UserID = .ok user → user.IsActive = true →
      (∀ err, storeErr = some err →
        AuthService.RefreshToken cfg db now revokeErr storeErr { RefreshToken := tok } =
          ((AuthService.revokeRefreshToken revokeErr db tok).1,
            .error ("failed to store refresh token: " ++ err))) ∧
      (storeErr = none →
        ∃ db1 resp row,
          AuthService.RefreshToken cfg db now revokeErr storeErr { RefreshToken := tok } =
            (db1, .ok resp) ∧
          db1.refresh_tokens =
            (AuthService.revokeRefreshToken revokeErr db tok).1.refresh_tokens ++ [row] ∧
          row.UserID = claims.UserID ∧ row.IsRevoked = false ∧
          row.TokenHash = AuthService.hashToken resp.RefreshToken)) ∧
    (revokeErr = none →
      (AuthService.revokeRefreshToken revokeErr db tok).1.refresh_tokens =
        db.refresh_tokens.map (fun r =>
          if r.TokenHash == AuthService.hashToken tok then { r with IsRevoked := true } else r)) ∧
    (revokeErr ≠ none → (AuthService.revokeRefreshToken revokeErr db tok).1 = db) := by
  refine ⟨?_, ?_, ?_, ?_⟩
  · intro hno
    unfold AuthService.RefreshToken
    cases hval : JWTService.ValidateToken cfg now tok "refresh" with
    | error e => exact ⟨_, rfl⟩
    | ok claims =>
      simp only
      cases hstored : AuthService.validateStoredRefreshToken db now claims.UserID tok with
      | some e => exact ⟨_, rfl⟩
      | none =>
        simp only
        cases huser : AuthService.getUserByID db claims.UserID with
        | error e => exact ⟨_, rfl⟩
        | ok user =>
          simp only
          cases hact : user.IsActive with
          | false => exact ⟨"account is deactivated", by simp⟩
          | true => exact absurd ⟨claims, user, hval, hstored, huser, hact⟩ hno
  · intro claims user hval hstored huser hact
    constructor
    · intro err herr
      subst herr
      simp [AuthService.RefreshToken, hval, hstored, huser, hact,
        JWTService.GenerateAccessToken, JWTService.GenerateRefreshToken,
        AuthService.storeRefreshToken]
    · intro hnone
      subst hnone
      have hpair : ∃ db1 resp,
          AuthService.RefreshToken cfg db now revokeErr none { RefreshToken := tok } =
            (db1, .ok resp) := by
        simp only [AuthService.RefreshToken, hval, hstored, huser, hact,
          JWTService.GenerateAccessToken, JWTService.GenerateRefreshToken,
          AuthService.storeRefreshToken, Bool.not_true, Bool.false_eq_true, if_false]
        exact ⟨_, _, rfl⟩
      obtain ⟨db1, resp, hok⟩ := hpair
      obtain ⟨claims2, row, _, hval2, _, htable, hrow, hfresh, hdigest, _⟩ :=
        RefreshToken_ok cfg db db1 now revokeErr none tok resp hok
      rw [hval] at hval2
      simp only [Except.ok.injEq] at hval2
      subst hval2
      exact ⟨db1, resp, row, hok, htable, hrow, hfresh, hdigest⟩
  · intro h
    subst h
    rfl
  · intro h
    cases revokeErr with
    | none => exact absurd rfl h
    | some e => rfl

/-- C23 (counterexample): the token of `annLogin` is refreshed a minute later.  When the
revoke statement fails and the insert executes, the call succeeds while the old record is
still valid; when the revoke statement executes and the insert fails, the call fails
while the old record is revoked and no new record exists, so the account has no valid
record left. -/
theorem refresh_rotation_is_not_atomic :
    (∃ db1 resp,
      AuthService.RefreshToken exampleConfig annLogin.1 1700000160000000000
        (some "connection refused") none { RefreshToken := annToken } = (db1, .ok resp) ∧
      AuthService.validateStoredRefreshToken db1 1700000161000000000 1 annToken = none) ∧
    (∃ db1 err,
      AuthService.RefreshToken exampleConfig annLogin.1 1700000160000000000
        none (some "connection refused") { RefreshToken := annToken } = (db1, .error err) ∧
      (unrevokedOf annLogin.1 1).length = 1 ∧ unrevokedOf db1 1 = []) :=
  ⟨⟨_, _, rfl, by decide⟩, ⟨_, _, rfl, by decide, by decide⟩⟩

/-- C23 (witness): the token of `annLogin` is refreshed a minute later with a failing
insert, and with both statements executing. -/
theorem refresh_rotation_outcomes_witness :
    AuthService.RefreshToken exampleConfig annLogin.1 1700000160000000000 none
        (some "connection refused") { RefreshToken := annToken } =
      ((AuthService.revokeRefreshToken none annLogin.1 annToken).1,
        .error "failed to store refresh token: connection refused") ∧
    (∃ db1 resp row,
      AuthService.RefreshToken exampleConfig annLogin.1 1700000160000000000 none none
        { RefreshToken := annToken } = (db1, .ok resp) ∧
      db1.refresh_tokens =
        (AuthService.revokeRefreshToken none annLogin.1 annToken).1.refresh_tokens ++ [row] ∧
      row.UserID = 1 ∧ row.IsRevoked = false ∧
      row.TokenHash = AuthService.hashToken resp.RefreshToken) := by
  have hval : ∃ claims, JWTService.ValidateToken exampleConfig 1700000160000000000 annToken
      "refresh" = .ok claims ∧ claims.UserID = 1 := ⟨_, rfl, rfl⟩
  obtain ⟨claims, hclaims, hid⟩ := hval
  have huser : ∃ user, AuthService.getUserByID annLogin.1 claims.UserID = .ok user ∧
      user.IsActive = true := by
    rw [hid]
    exact ⟨_, rfl, by decide⟩
  obtain ⟨user, hu, hact⟩ := huser
  have hstored : AuthService.validateStoredRefreshToken annLogin.1 1700000160000000000
      claims.UserID annToken = none := by
    rw [hid]
    decide
  have h1 := ((refresh_rotation_outcomes exampleConfig annLogin.1 1700000160000000000 none
    (some "connection refused") annToken).2.1 claims user hclaims hstored hu hact).1 _ rfl
  have h2 := ((refresh_rotation_outcomes exampleConfig annLogin.1 1700000160000000000 none
    none annToken).2.1 claims user hclaims hstored hu hact).2 rfl
  rw [hid] at h2
  exact ⟨h1, h2⟩

/-! ## Properties of the password rule and of new Google accounts -/

/-- A chain of checks as in `ValidatePassword` returns no error exactly when every check
passes. -/
theorem check_chain_none (a b : Prop) [Decidable a] [Decidable b] (u l d s w : Bool)
    (e1 e2 e3 e4 e5 e6 e7 : String) :
    ((if a then some e1 else if b then some e2 else if !u then some e3
      else if !l then some e4 else if !d then some e5 else if !s then some e6
      else if w then some e7 else none : Option String) = none) ↔
      (¬ a ∧ ¬ b ∧ u = true ∧ l = true ∧ d = true ∧ s = true ∧ w = false) := by
  by_cases ha : a <;> by_cases hb : b <;> cases u <;> cases l <;> cases d <;> cases s <;>
    cases w <;> simp [ha, hb]

/-- C30: `ValidatePassword` accepts a password exactly when its length in bytes is
between 8 and 128, it has an upper-case letter, a lower-case letter, a digit and a
punctuation or symbol character, and its lower-cased form contains none of the twelve
weak words; the character classes are those of Unicode, which do not overlap. -/
theorem validate_password_accepts_iff (lib : Lib) (password : String)
    (hclasses : lib.classesDisjoint) :
    ValidatePassword lib password = none ↔
      (8 ≤ len password.toList ∧ len password.toList ≤ 128 ∧
       (∃ c ∈ password.toList, lib.IsUpper c = true) ∧
       (∃ c ∈ password.toList, lib.IsLower c = true) ∧
       (∃ c ∈ password.toList, lib.IsDigit c = true) ∧
       (∃ c ∈ password.toList, lib.IsPunct c = true ∨ lib.IsSymbol c = true) ∧
       ∀ weak ∈ weakPasswords,
         Contains (password.toList.map lib.ToLower) weak.toList = false) := by
  have hlower : password.toList.any (fun c => !lib.IsUpper c && lib.IsLower c) =
      password.toList.any lib.IsLower := by
    congr 1
    funext c
    cases h : lib.IsLower c with
    | false => simp
    | true => simp [(hclasses c).1 h]
  have hdigit : password.toList.any
      (fun c => !lib.IsUpper c && !lib.IsLower c && lib.IsDigit c) =
      password.toList.any lib.IsDigit := by
    congr 1
    funext c
    cases h : lib.IsDigit c with
    | false => simp
    | true => simp [((hclasses c).2.1 h).1, ((hclasses c).2.1 h).2]
  have hspecial : password.toList.any
      (fun c => !lib.IsUpper c && !lib.IsLower c && !lib.IsDigit c &&
        (lib.IsPunct c || lib.IsSymbol c)) =
      password.toList.any (fun c => lib.IsPunct c || lib.IsSymbol c) := by
    congr 1
    funext c
    cases h : (lib.IsPunct c || lib.IsSymbol c) with
    | false => simp
    | true =>
      obtain ⟨h1, h2, h3⟩ := (hclasses c).2.2 h
      simp [h1, h2, h3]
  have hsym : (password.toList.any (fun c => lib.IsPunct c || lib.IsSymbol c) = true) ↔
      ∃ c ∈ password.toList, lib.IsPunct c = true ∨ lib.IsSymbol c = true := by
    rw [List.any_eq_true]
    constructor
    · rintro ⟨c, hc, h⟩
      exact ⟨c, hc, Bool.or_eq_true_iff.1 h⟩
    · rintro ⟨c, hc, h⟩
      exact ⟨c, hc, Bool.or_eq_true_iff.2 h⟩
  have hweak : (weakPasswords.any
      (fun weak => Contains (password.toList.map lib.ToLower) weak.toList) = false) ↔
      ∀ weak ∈ weakPasswords,
        Contains (password.toList.map lib.ToLower) weak.toList = false := by
    rw [List.any_eq_false]
    constructor
    · intro h weak hw
      exact Bool.eq_false_iff.2 (h weak hw)
    · intro h weak hw
      exact Bool.eq_false_iff.1 (h weak hw)
  have hrun : ValidatePassword lib password =
      (if len password.toList < 8 then some "password must be at least 8 characters long"
       else if len password.toList > 128 then
         some "password must be less than 128 characters long"
       else if !password.toList.any lib.IsUpper then
         some "password must contain at least one uppercase letter"
       else if !password.toList.any lib.IsLower then
         some "password must contain at least one lowercase letter"
       else if !password.toList.any lib.IsDigit then
         some "password must contain at least one number"
       else if !password.toList.any (fun c => lib.IsPunct c || lib.IsSymbol c) then
         some "password must contain at least one special character"
       else if weakPasswords.any
           (fun weak => Contains (password.toList.map lib.ToLower) weak.toList) then
         some "password contains common weak patterns"
       else none) := by
    rw [← hlower, ← hdigit, ← hspecial]
    rfl
  rw [hrun, check_chain_none, hweak, hsym, List.any_eq_true, List.any_eq_true,
    List.any_eq_true]
  constructor
  · rintro ⟨h8, h128, hu, hl, hd, hs, hw⟩
    exact ⟨by omega, by omega, hu, hl, hd, hs, hw⟩
  · rintro ⟨h8, h128, hu, hl, hd, hs, hw⟩
    exact ⟨by omega, by omega, hu, hl, hd, hs, hw⟩

/-- C30 (witness): with the ASCII classes of `exampleLib` the password "Abcdef1!" is
accepted, and "Password1!" is not: its lower-cased form contains "password". -/
theorem validate_password_accepts_iff_witness :
    ValidatePassword exampleLib "Abcdef1!" = none ∧
    ValidatePassword exampleLib "Password1!" ≠ none := by
  have hclasses : exampleLib.classesDisjoint := by
    intro c
    simp only [exampleLib, List.contains_eq_any_beq, Bool.and_eq_true, decide_eq_true_eq,
      Bool.or_eq_true, List.any_eq_true, beq_iff_eq]
    refine ⟨?_, ?_, ?_⟩
    · intro h
      simp only [Bool.and_eq_false_iff, decide_eq_false_iff_not]
      omega
    · intro h
      simp only [Bool.and_eq_false_iff, decide_eq_false_iff_not]
      constructor <;> omega
    · intro h
      simp only [Bool.and_eq_false_iff, decide_eq_false_iff_not]
      rcases h with ⟨x, hx, hxc⟩ | ⟨x, hx, hxc⟩ <;>
        (simp only [List.mem_cons, List.mem_singleton, List.not_mem_nil, or_false] at hx
         refine ⟨?_, ?_, ?_⟩ <;> omega)
  constructor
  · exact (validate_password_accepts_iff exampleLib "Abcdef1!" hclasses).2
      ⟨by decide, by decide, ⟨'A', by decide, by decide⟩, ⟨'b', by decide, by decide⟩,
        ⟨'1', by decide, by decide⟩, ⟨'!', by decide, Or.inl (by decide)⟩, by decide⟩
  · intro h
    have h2 := ((validate_password_accepts_iff exampleLib "Password1!" hclasses).1 h).2.2.2.2.2.2
      "password" (by decide)
    revert h2
    decide

/-- What holds of the names of a new Google account: the first name is never empty, and
a profile with a given name keeps its given and family name as they are. -/
theorem newUserNames_of_given (g : GoogleUserInfo) :
    (AuthService.newUserNames g).1 ≠ "" ∧
    (g.GivenName ≠ "" → AuthService.newUserNames g = (g.GivenName, g.FamilyName)) := by
  constructor
  · unfold AuthService.newUserNames
    simp only
    split_ifs with h1 h2
    · decide
    · exact h2
    · decide
    · rename_i h3
      exact h3
  · intro hgiven
    unfold AuthService.newUserNames
    simp [hgiven]

/-- C25, the code at the failing input: for the profile `smithProfile`, whose family name
"Smith" is not empty, the create path stores the last name "Ronald Smith", taken from
the display name; and for a profile with the given name "John", no family name and the
display name "John Smith" the last name stays empty. -/
theorem google_create_overwrites_family_name :
    AuthService.newUserNames smithProfile = ("John", "Ronald Smith") ∧
    (AuthService.processGoogleUser exampleConfig emptyDB 1700000100200000000 none
      smithProfile).1.users.map (fun u => (u.Email, u.FirstName, u.LastName)) =
      [("j@x.com", "John", "Ronald Smith")] ∧
    AuthService.newUserNames
      { smithProfile with GivenName := "John", FamilyName := "", Name := "John Smith" } =
      ("John", "") := by
  decide

/-! ## Properties of the sweep and of the log-line slices -/

/-- C28 (amended): the sweep looks at the age of an entry only.  `cleanup` deletes
exactly the entries whose timestamp is more than ten minutes before `now`, in progress or
not, and leaves every other entry as it is.  An entry marked in progress therefore
survives the sweep exactly as long as it is not older than ten minutes. -/
theorem cleanup_removes_old_entries (rt : RequestTracker) (now : Time) (key : String) :
    (rt.requests key = none → (rt.cleanup now).requests key = none) ∧
    (∀ info, rt.requests key = some info →
      (info.Timestamp < now - 10 * Minute → (rt.cleanup now).requests key = none) ∧
      (¬ info.Timestamp < now - 10 * Minute → (rt.cleanup now).requests key = some info)) := by
  have hcut : now + (-10) * Minute = now - 10 * Minute := by ring
  constructor
  · intro h
    simp only [RequestTracker.cleanup, h]
  · intro info h
    constructor
    · intro hold
      simp only [RequestTracker.cleanup, h, hcut, hold, if_true]
    · intro hnew
      simp only [RequestTracker.cleanup, h, hcut, hnew, if_false]

/-- C28 (counterexample): a logout request of client 10.0.0.1 is admitted and its handler
still executing when, eleven minutes later, the sweep runs: the entry, marked in
progress, is deleted, and a duplicate request is admitted. -/
theorem cleanup_removes_entry_in_progress :
    (tracker.enter 1700000000000000000
      (createRequestSignature "10.0.0.1" "/api/v1/auth/logout")).1.requests
        (createRequestSignature "10.0.0.1" "/api/v1/auth/logout")
      = some { InProgress := true, Timestamp := 1700000000000000000 } ∧
    ((tracker.enter 1700000000000000000
      (createRequestSignature "10.0.0.1" "/api/v1/auth/logout")).1.cleanup
        1700000660000000000).requests (createRequestSignature "10.0.0.1" "/api/v1/auth/logout")
      = none ∧
    (((tracker.enter 1700000000000000000
      (createRequestSignature "10.0.0.1" "/api/v1/auth/logout")).1.cleanup
        1700000660000000000).enter 1700000661000000000
          (createRequestSignature "10.0.0.1" "/api/v1/auth/logout")).2 = true := by
  decide

/-- C28 (witness): the entry of a request admitted at 1 700 000 000 s survives the sweep
nine minutes later and is deleted by the sweep eleven minutes later. -/
theorem cleanup_removes_old_entries_witness :
    ((tracker.enter 1700000000000000000 "sig").1.cleanup 1700000540000000000).requests "sig"
      = some { InProgress := true, Timestamp := 1700000000000000000 } ∧
    ((tracker.enter 1700000000000000000 "sig").1.cleanup 1700000660000000000).requests "sig"
      = none :=
  ⟨((cleanup_removes_old_entries (tracker.enter 1700000000000000000 "sig").1
      1700000540000000000 "sig").2 { InProgress := true, Timestamp := 1700000000000000000 }
      (by decide)).2 (by decide),
   ((cleanup_removes_old_entries (tracker.enter 1700000000000000000 "sig").1
      1700000660000000000 "sig").2 { InProgress := true, Timestamp := 1700000000000000000 }
      (by decide)).1 (by decide)⟩

/-- The logout handler panics on every token string that is not empty and has fewer than
20 bytes. -/
theorem Logout_panics_of_short (cfg : Config) (db : DB) (now : Time)
    (revokeErr : Option String) (tok : TokenString)
    (hne : tok ≠ .malformed "") (hshort : tok.atLeast20Bytes = false) :
    AuthHandler.Logout cfg db now revokeErr tok =
      (db, .panic "runtime error: slice bounds out of range") := by
  unfold AuthHandler.Logout
  rw [if_neg hne]
  simp [hshort]

/-- C26, the code at the failing input: the refresh token "abc", the authorization code
"4/0AX4" and the access token "ya29.a0" are not empty and shorter than 20 bytes, and each
of `AuthHandler.Logout`, `GoogleCallbackAuth`, `ExchangeCodeForToken` and `GoogleAuth`
panics on its slice, whatever the Google endpoints would have answered. -/
theorem short_token_slice_panics (cfg : Config) (db : DB) (now : Time)
    (revokeErr storeErr : Option String) (exchange : Except String GoogleTokenInfo)
    (verify : Except String Bool) (userInfo : Except String GoogleUserInfo) :
    AuthHandler.Logout cfg db now revokeErr (.malformed "abc") =
      (db, .panic "runtime error: slice bounds out of range") ∧
    AuthService.GoogleCallbackAuth cfg db now storeErr exchange userInfo "4/0AX4" =
      (db, .error "panic: runtime error: slice bounds out of range [:20] with length 6") ∧
    GoogleService.ExchangeCodeForToken exchange "4/0AX4" =
      .error "panic: runtime error: slice bounds out of range [:20] with length 6" ∧
    AuthService.GoogleAuth cfg db now storeErr verify userInfo { AccessToken := "ya29.a0" } =
      (db, .error "panic: runtime error: slice bounds out of range [:20] with length 7") := by
  refine ⟨Logout_panics_of_short cfg db now revokeErr _ (by decide) (by decide), ?_, ?_, ?_⟩
  · have h : ("4/0AX4" : String).utf8ByteSize < 20 := by decide
    simp only [AuthService.GoogleCallbackAuth, h, if_true]
    rfl
  · have h : ("4/0AX4" : String).utf8ByteSize < 20 := by decide
    simp only [GoogleService.ExchangeCodeForToken, h, if_true]
    rfl
  · have h : ("ya29.a0" : String).utf8ByteSize < 20 := by decide
    simp only [AuthService.GoogleAuth, h, if_true]
    rfl

/-! ## Properties of the OAuth state -/

/-- No character of the base64 alphabet is a dot. -/
theorem base64Char_ne_dot (sextet : Nat) : base64Char sextet ≠ '.' := by
  unfold base64Char
  have h : sextet % 64 < 64 := Nat.mod_lt _ (by decide)
  generalize sextet % 64 = k at h
  interval_cases k <;> decide

/-- The base64 encoding of a byte string has no dot. -/
theorem EncodeToString_no_dot : ∀ (n : Nat) (data : List Nat), data.length ≤ n →
    '.' ∉ EncodeToString data := by
  intro n
  induction n using Nat.strong_induction_on with
  | _ n ih =>
    intro data hlen
    match data, hlen with
    | [], _ => simp [EncodeToString]
    | [a], _ =>
      simp only [EncodeToString, List.mem_cons, List.not_mem_nil, or_false, not_or]
      exact ⟨(base64Char_ne_dot _).symm, (base64Char_ne_dot _).symm, by decide, by decide⟩
    | [a, b], _ =>
      simp only [EncodeToString, List.mem_cons, List.not_mem_nil, or_false, not_or]
      exact ⟨(base64Char_ne_dot _).symm, (base64Char_ne_dot _).symm,
        (base64Char_ne_dot _).symm, by decide⟩
    | a :: b :: c :: rest, hlen =>
      simp only [EncodeToString, List.mem_cons, not_or]
      simp only [List.length_cons] at hlen
      exact ⟨(base64Char_ne_dot _).symm, (base64Char_ne_dot _).symm,
        (base64Char_ne_dot _).symm, (base64Char_ne_dot _).symm,
        ih rest.length (by omega) rest (le_refl _)⟩

/-- The encoding on the test vectors of RFC 4648 ("f", "fo", "foo", "foobar") and on two
bytes that need the URL-safe characters. -/
theorem EncodeToString_test_vectors :
    EncodeToString [102] = "Zg==".toList ∧ EncodeToString [102, 111] = "Zm8=".toList ∧
    EncodeToString [102, 111, 111] = "Zm9v".toList ∧
    EncodeToString [102, 111, 111, 98, 97, 114] = "Zm9vYmFy".toList ∧
    EncodeToString [251, 255] = "-_8=".toList := by
  decide

/-- A string without the separator is one piece. -/
theorem Split_of_not_mem (sep : Char) : ∀ (s : List Char), sep ∉ s → Split s sep = [s] := by
  intro s
  induction s with
  | nil => intro _; rfl
  | cons c cs ih =>
    intro h
    have hc : c ≠ sep := fun he => h (by simp [he])
    have hcs : sep ∉ cs := fun hm => h (List.mem_cons_of_mem _ hm)
    simp [Split, hc, ih hcs]

/-- Splitting at the first separator. -/
theorem Split_append (sep : Char) (rest : List Char) : ∀ (s : List Char), sep ∉ s →
    Split (s ++ sep :: rest) sep = s :: Split rest sep := by
  intro s
  induction s with
  | nil => intro _; simp [Split]
  | cons c cs ih =>
    intro h
    have hc : c ≠ sep := fun he => h (by simp [he])
    have hcs : sep ∉ cs := fun hm => h (List.mem_cons_of_mem _ hm)
    simp [Split, hc, ih hcs]

/-- The digits `toDigitsCore` writes in front of a non-empty string make a non-empty
string. -/
theorem toDigitsCore_ne_nil : ∀ (fuel n : Nat) (ds : List Char), ds ≠ [] →
    Nat.toDigitsCore 10 fuel n ds ≠ [] := by
  intro fuel
  induction fuel with
  | zero => intro n ds h; exact h
  | succ fuel ih =>
    intro n ds _
    by_cases hdiv : n / 10 = 0
    · simp [Nat.toDigitsCore, hdiv]
    · simp only [Nat.toDigitsCore, hdiv, if_false]
      exact ih _ _ (List.cons_ne_nil _ _)

/-- The decimal digits of a number: not empty, all digits, denoting the number. -/
theorem toDigits_spec (n : Nat) :
    Nat.toDigits 10 n ≠ [] ∧ (Nat.toDigits 10 n).all isAsciiDigit = true ∧
    (Nat.toDigits 10 n).foldl (fun acc c => 10 * acc + (c.toNat - 48)) 0 = n := by
  refine ⟨?_, ?_, ?_⟩
  · unfold Nat.toDigits
    by_cases hdiv : n / 10 = 0
    · simp [Nat.toDigitsCore, hdiv]
    · simp only [Nat.toDigitsCore, hdiv, if_false]
      exact toDigitsCore_ne_nil _ _ _ (List.cons_ne_nil _ _)
  · rw [List.all_eq_true]
    exact toDigitsCore_digits _ _ [] (fun x hx => absurd hx (List.not_mem_nil _))
  · unfold Nat.toDigits
    rw [toDigitsCore_value (n + 1) n [] (by omega)]
    rfl

/-- The decimal rendering of an integer has no dot. -/
theorem toString_int_no_dot (z : Int) : '.' ∉ (toString z).toList := by
  have hdigits : ∀ n : Nat, '.' ∉ Nat.toDigits 10 n := by
    intro n hmem
    have := List.all_eq_true.1 (toDigits_spec n).2.1 _ hmem
    revert this
    decide
  cases z with
  | ofNat m => exact hdigits m
  | negSucc m =>
    have h : (toString (Int.negSucc m)).toList = '-' :: Nat.toDigits 10 (m + 1) := rfl
    rw [h]
    intro hmem
    rcases List.mem_cons.1 hmem with h1 | h1
    · revert h1; decide
    · exact hdigits _ h1

/-- Parsing the decimal rendering of a 64-bit integer gives the integer back. -/
theorem ParseInt_toString (z : Int) (hlo : -2 ^ 63 ≤ z) (hhi : z < 2 ^ 63) :
    ParseInt (toString z).toList = .ok z := by
  cases z with
  | ofNat m =>
    obtain ⟨hne, hall, hval⟩ := toDigits_spec m
    have h : (toString (Int.ofNat m)).toList = Nat.toDigits 10 m := rfl
    rw [h]
    cases hd : Nat.toDigits 10 m with
    | nil => exact absurd hd hne
    | cons c rest =>
      rw [hd] at hall hval
      have hc : isAsciiDigit c = true := by
        have := List.all_eq_true.1 hall c (List.mem_cons_self _ _)
        exact this
      have hminus : c ≠ '-' := by
        intro he; rw [he] at hc; revert hc; decide
      have hplus : c ≠ '+' := by
        intro he; rw [he] at hc; revert hc; decide
      have hm : ¬ m ≥ 2 ^ 63 := by
        have : (m : Int) < 2 ^ 63 := hhi
        norm_num at this ⊢
        omega
      simp only [ParseInt, if_neg hminus, if_neg hplus, List.isEmpty_cons, Bool.false_eq_true,
        if_false, hall, Bool.not_true, hval, hm]
      rfl
  | negSucc m =>
    obtain ⟨hne, hall, hval⟩ := toDigits_spec (m + 1)
    have h : (toString (Int.negSucc m)).toList = '-' :: Nat.toDigits 10 (m + 1) := rfl
    rw [h]
    have hempty : (Nat.toDigits 10 (m + 1)).isEmpty = false := by
      cases hd : Nat.toDigits 10 (m + 1) with
      | nil => exact absurd hd hne
      | cons c rest => rfl
    have hm : ¬ m + 1 > 2 ^ 63 := by
      have : -2 ^ 63 ≤ Int.negSucc m := hlo
      rw [Int.negSucc_eq] at this
      norm_num at this ⊢
      omega
    simp only [ParseInt, if_true, hempty, Bool.false_eq_true, if_false, hall, Bool.not_true,
      hval, hm]
    rw [Int.negSucc_eq]
    norm_num

/-- The function `validateState` on a state that splits into three parts. -/
theorem validateState_of_parts (mac : String → String → List Nat) (cfg : Config) (now : Time)
    (state : String) (part0 part1 part2 : List Char)
    (hsplit : Split state.toList '.' = [part0, part1, part2]) :
    AuthHandler.validateState mac cfg now state =
      (if part2 ≠ EncodeToString (mac cfg.JWT.Secret (String.mk (part0 ++ '.' :: part1))) then
        false
       else
        match ParseInt part0 with
        | .error _ => false
        | .ok timestamp => if Unix now - timestamp > 600 then false else true) := by
  unfold AuthHandler.validateState
  rw [hsplit]

/-- The state `generateSecureState` builds splits into three parts, and `validateState`
accepts it exactly when the Unix second of the clock is at most 600 after the Unix second
of the issue time. -/
theorem validateState_generated (mac : String → String → List Nat) (cfg : Config)
    (randomBytes : List Nat) (t now : Time)
    (hlo : -2 ^ 63 ≤ Unix t) (hhi : Unix t < 2 ^ 63) :
    ∃ state, AuthHandler.generateSecureState mac cfg t (.ok randomBytes) = .ok state ∧
      (Split state.toList '.').length = 3 ∧
      (AuthHandler.validateState mac cfg now state = true ↔ Unix now - Unix t ≤ 600) := by
  refine ⟨_, rfl, ?_⟩
  have hsplit : Split ((toString (Unix t)).toList ++ '.' :: EncodeToString randomBytes ++
      '.' :: EncodeToString (mac cfg.JWT.Secret
        (String.mk ((toString (Unix t)).toList ++ '.' :: EncodeToString randomBytes)))) '.' =
      [(toString (Unix t)).toList, EncodeToString randomBytes,
        EncodeToString (mac cfg.JWT.Secret
          (String.mk ((toString (Unix t)).toList ++ '.' :: EncodeToString randomBytes)))] := by
    rw [List.append_assoc, List.cons_append, Split_append '.' _ _ (toString_int_no_dot _),
      Split_append '.' _ _ (EncodeToString_no_dot _ _ (le_refl _)),
      Split_of_not_mem '.' _ (EncodeToString_no_dot _ _ (le_refl _))]
  have hvalid : AuthHandler.validateState mac cfg now
      (String.mk ((toString (Unix t)).toList ++ '.' :: EncodeToString randomBytes ++
        '.' :: EncodeToString (mac cfg.JWT.Secret
          (String.mk ((toString (Unix t)).toList ++ '.' :: EncodeToString randomBytes))))) =
      (if Unix now - Unix t > 600 then false else true) := by
    rw [validateState_of_parts mac cfg now _ _ _ _ hsplit, if_neg (fun h => h rfl),
      ParseInt_toString _ hlo hhi]
  constructor
  · show (Split ((toString (Unix t)).toList ++ '.' :: EncodeToString randomBytes ++
      '.' :: EncodeToString (mac cfg.JWT.Secret
        (String.mk ((toString (Unix t)).toList ++ '.' :: EncodeToString randomBytes)))) '.').length
      = 3
    rw [hsplit]
    rfl
  · rw [hvalid]
    split_ifs with h
    · constructor
      · intro hf; exact absurd hf (by decide)
      · intro hle; omega
    · constructor
      · intro _; omega
      · intro _; rfl

/-- C29 (amended): OAuth state round trip.  For every secret, every random bytes and
every issue time `t` (its Unix second fitting 64 bits), the state `generateSecureState`
builds splits at its dots into exactly three parts, and `validateState` under the same
secret accepts it exactly at the times whose Unix second is at most 600 after the Unix
second of `t`: at every time up to `t` + 600 s, and at no time from `t` + 601 s on.
Whole seconds are compared, so a state can still be accepted during the second that
follows `t` + 600 s. -/
theorem oauth_state_round_trip (mac : String → String → List Nat) (cfg : Config)
    (randomBytes : List Nat) (t now : Time)
    (hlo : -2 ^ 63 ≤ Unix t) (hhi : Unix t < 2 ^ 63) :
    ∃ state, AuthHandler.generateSecureState mac cfg t (.ok randomBytes) = .ok state ∧
      (Split state.toList '.').length = 3 ∧
      (AuthHandler.validateState mac cfg now state = true ↔ Unix now - Unix t ≤ 600) ∧
      (now ≤ t + 600 * Second → AuthHandler.validateState mac cfg now state = true) ∧
      (t + 601 * Second ≤ now → AuthHandler.validateState mac cfg now state = false) := by
  obtain ⟨state, hgen, hparts, hiff⟩ := validateState_generated mac cfg randomBytes t now hlo hhi
  refine ⟨state, hgen, hparts, hiff, ?_, ?_⟩
  · intro hle
    apply hiff.2
    unfold Unix Second
    simp only [Time, Second] at hle
    omega
  · intro hge
    have hnot : ¬ Unix now - Unix t ≤ 600 := by
      unfold Unix Second
      simp only [Time, Second] at hge
      omega
    cases hv : AuthHandler.validateState mac cfg now state with
    | false => rfl
    | true => exact absurd (hiff.1 hv) hnot

/-- C29 (counterexample): a state issued at 1 700 000 000.0 s is accepted at
1 700 000 600.5 s, half a second later than 600 s after it was issued. -/
theorem oauth_state_accepted_after_600_seconds :
    ∃ state,
      AuthHandler.generateSecureState exampleMac exampleConfig 1700000000000000000
        (.ok [0, 1, 2, 3, 4, 5, 6, 7, 8, 9, 10, 11, 12, 13, 14, 15]) = .ok state ∧
      (1700000000000000000 : Time) + 600 * Second < 1700000600500000000 ∧
      AuthHandler.validateState exampleMac exampleConfig 1700000600500000000 state = true := by
  obtain ⟨state, hgen, _, hiff⟩ := validateState_generated exampleMac exampleConfig
    [0, 1, 2, 3, 4, 5, 6, 7, 8, 9, 10, 11, 12, 13, 14, 15] 1700000000000000000
    1700000600500000000 (by decide) (by decide)
  exact ⟨state, hgen, by decide, hiff.2 (by decide)⟩

/-- C29 (witness): a state issued at 1 700 000 000.0 s is accepted five minutes later and
rejected eleven minutes later. -/
theorem oauth_state_round_trip_witness :
    ∃ state,
      AuthHandler.generateSecureState exampleMac exampleConfig 1700000000000000000
        (.ok [0, 1, 2, 3, 4, 5, 6, 7, 8, 9, 10, 11, 12, 13, 14, 15]) = .ok state ∧
      (Split state.toList '.').length = 3 ∧
      AuthHandler.validateState exampleMac exampleConfig 1700000300000000000 state = true ∧
      AuthHandler.validateState exampleMac exampleConfig 1700000660000000000 state = false := by
  obtain ⟨state, hgen, hparts, _, hearly, _⟩ := oauth_state_round_trip exampleMac exampleConfig
    [0, 1, 2, 3, 4, 5, 6, 7, 8, 9, 10, 11, 12, 13, 14, 15] 1700000000000000000
    1700000300000000000 (by decide) (by decide)
  obtain ⟨state2, hgen2, _, _, _, hlate⟩ := oauth_state_round_trip exampleMac exampleConfig
    [0, 1, 2, 3, 4, 5, 6, 7, 8, 9, 10, 11, 12, 13, 14, 15] 1700000000000000000
    1700000660000000000 (by decide) (by decide)
  have heq : state2 = state := by
    rw [hgen] at hgen2
    simp only [Except.ok.injEq] at hgen2
    exact hgen2.symm
  subst heq
  exact ⟨state2, hgen, hparts, hearly (by decide), hlate (by decide)⟩

/-- The state of the examples, written out. -/
theorem example_state_value :
    AuthHandler.generateSecureState exampleMac exampleConfig 1700000000000000000
      (.ok [0, 1, 2]) = .ok "1700000000.AAEC.czNjcmV0MTcwMDAwMDAwMC5BQUVD" := by
  decide

end GoNextAuth
